import Mathlib

/-!
# kubemq-io/broker: in-memory listener, server shutdown, accept loops, service requests

A shallow embedding of `pkg/pipe/inmemory_listener.go` and `pkg/pipe/pipe.go` (the
in-process dialer/listener pair and its wrapper, namespace `Pipe`), of
`Server.Shutdown`, `Server.AcceptLoop` and `Server.runPipeListener` from
`server/gnatsd/server/pipe.go` (namespace `Gnatsd`), and of `Request.Error` and
`WithHeaders` from `client/nats/micro/request.go` (namespace `Micro`).

The listener is used from concurrently running goroutines, so it is embedded as a
transition system: every call (`Dial`, `Accept`, `Close`) is a thread whose program
counter names the Go statement it executes next; one step executes one statement
that touches shared memory (the mutex, the `closed` flag, the `conns` channel, an
`accepted` channel, a pipe endpoint) or the final `return`. A schedule is a list of
actions; the interleavings of the calls are the schedules. Properties of all
interleavings are proved from one inductive invariant (`Inv`).

`Shutdown` is embedded as a function from the server to the server after the call
together with the list of what the call did, in program order. The accept loops are
embedded the same way, as functions from what their environment answers (the results
of `net.Listen`, `Accept`, `s.isRunning()`, ..) to the list of what the run did and
to how it ended; `Request.Error` as a function to the request after the call, the
responses handed to `RespondMsg` and the error returned.
-/

namespace Pipe

/-! ## Data model of `inmemory_listener.go` -/

/-- An error value made with `errors.New`. -/
structure Err where
  msg : String
deriving DecidableEq, Repr

/-- The one error variable of the package:
`var ErrInmemoryListenerClosed = errors.New(...)`. -/
def ErrInmemoryListenerClosed : Err :=
  ⟨"InmemoryListener is already closed: use of closed network connection"⟩

/-- Fields of `type Options struct`. -/
structure Options where
  MaxAcceptConn : Int
  MaxPipeBuffer : Int
deriving DecidableEq, Repr

/-- Defaults of the package: `var DefaultInMemoryListener = &Options{...}`. -/
def DefaultInMemoryListener : Options :=
  { MaxAcceptConn := 1024 * 10, MaxPipeBuffer := 1024 }

/-- Modelled from the spec: `NewPipeConns` and the endpoint type it returns are not
among the source files; by the spec a `dial` "creates a fresh duplex connection pair
(client endpoint, server endpoint)". An endpoint is identified by the `Dial` call
(thread number) that made the pair `pc`: `Conn1 d` is `pc.Conn1()`, the client end,
`Conn2 d` is `pc.Conn2()`, the server end. Calls of `Close()` on an endpoint are
recorded in `State.closedConns`. -/
inductive Conn where
  | Conn1 (pc : Nat)
  | Conn2 (pc : Nat)
deriving DecidableEq, Repr

/-- The handoff record `type acceptConn struct { conn net.Conn; accepted chan struct{} }`.
The channel `accepted` is identified by the `Dial` call that made it. -/
structure acceptConn where
  conn : Conn
  accepted : Nat
deriving DecidableEq, Repr

/-- The buffered channel `conns chan acceptConn`: capacity, queued records, and
whether `close(conns)` has been executed. -/
structure Chan where
  cap : Nat
  buf : List acceptConn
  closed : Bool
deriving DecidableEq, Repr

/-- Fields of `type InmemoryListener struct`; `lock` is true while the mutex is
locked. -/
structure InmemoryListener where
  lock : Bool
  closed : Bool
  conns : Chan
  opts : Options
deriving DecidableEq, Repr

/-- The constructor `NewInmemoryListener(opts)`: a nil `opts` means the defaults;
`make(chan acceptConn, n)` panics for a negative `n` (result `none`). -/
def NewInmemoryListener (opts : Option Options) : Option InmemoryListener :=
  let o := match opts with
    | none => DefaultInMemoryListener
    | some o => o
  if o.MaxAcceptConn < 0 then none
  else some
    { lock := false
      closed := false
      conns := { cap := o.MaxAcceptConn.toNat, buf := [], closed := false }
      opts := o }

/-! ## Program counters -/

/-- Statements of `Dial`, named by what is executed next. `unlock` and `ret` carry
the local variable `cConn` (nil after the else branch). -/
inductive DialPC where
  | lock
  | ifClosed
  | send
  | waitAccepted
  | sConnClose
  | cConnClose
  | unlock (cConn : Option Conn)
  | ret (cConn : Option Conn)
  | done (conn : Option Conn) (err : Option Err)
deriving DecidableEq, Repr

/-- Statements of `Accept`. -/
inductive AcceptPC where
  | recv
  | closeAccepted (c : acceptConn)
  | retErr
  | ret (c : acceptConn)
  | done (conn : Option Conn) (err : Option Err)
deriving DecidableEq, Repr

/-- Statements of `Close`; `unlock` and `ret` carry the local variable `err`. -/
inductive ClosePC where
  | lock
  | ifClosed
  | closeConns
  | setClosed
  | unlock (err : Option Err)
  | ret (err : Option Err)
  | done (err : Option Err)
deriving DecidableEq, Repr

/-- Where a thread stands: no call, inside one of the three calls, or stopped by a
Go runtime panic (send on or close of a closed channel). -/
inductive PC where
  | idle
  | dial (p : DialPC)
  | accept (p : AcceptPC)
  | close (p : ClosePC)
  | panicked
deriving DecidableEq, Repr

/-- The three operations a goroutine can call on the listener. -/
inductive Call where
  | Dial
  | Accept
  | Close
deriving DecidableEq, Repr

/-- Whole state: the listener, the set of `accepted` channels that have been
closed, the endpoints on which `Close()` has been called, and the threads.
`sent` and `rcvd` are history variables (no step reads them): the records in the
order they were sent on `conns`, and the records in the order they were
received, each with the receiving thread. -/
structure State where
  ln : InmemoryListener
  accepted : List Nat
  closedConns : List Conn
  thr : Nat → PC
  sent : List acceptConn
  rcvd : List (Nat × acceptConn)

/-- Move thread `t` to program counter `p`. -/
def setThr (w : State) (t : Nat) (p : PC) : State :=
  { w with thr := fun u => if u = t then p else w.thr u }

/-- The record `acceptConn{sConn, accepted}` built by the `Dial` call `d`. -/
def mkAcceptConn (d : Nat) : acceptConn :=
  { conn := Conn.Conn2 d, accepted := d }

/-! ## The three operations, one statement per step -/

/-- One step of `func (ln *InmemoryListener) Dial()` run by thread `t`;
`none` means the thread is blocked (or has returned). -/
def InmemoryListener.Dial (t : Nat) (w : State) : DialPC → Option State
  | .lock =>
      -- ln.lock.Lock()
      if w.ln.lock then none
      else some (setThr { w with ln := { w.ln with lock := true } } t (.dial .ifClosed))
  | .ifClosed =>
      -- if !ln.closed
      if !w.ln.closed then some (setThr w t (.dial .send))
      else some (setThr w t (.dial .sConnClose))
  | .send =>
      -- ln.conns <- acceptConn{sConn, accepted}
      if w.ln.conns.closed then some (setThr w t .panicked)
      else if w.ln.conns.buf.length < w.ln.conns.cap then
        some (setThr
          { w with
            ln := { w.ln with conns := { w.ln.conns with buf := w.ln.conns.buf ++ [mkAcceptConn t] } }
            sent := w.sent ++ [mkAcceptConn t] } t (.dial .waitAccepted))
      else none
  | .waitAccepted =>
      -- <-accepted
      if t ∈ w.accepted then some (setThr w t (.dial (.unlock (some (Conn.Conn1 t)))))
      else none
  | .sConnClose =>
      -- sConn.Close()
      some (setThr { w with closedConns := Conn.Conn2 t :: w.closedConns } t (.dial .cConnClose))
  | .cConnClose =>
      -- cConn.Close(); cConn = nil
      some (setThr { w with closedConns := Conn.Conn1 t :: w.closedConns } t (.dial (.unlock none)))
  | .unlock c =>
      -- ln.lock.Unlock()
      some (setThr { w with ln := { w.ln with lock := false } } t (.dial (.ret c)))
  | .ret none =>
      -- if cConn == nil { return nil, ErrInmemoryListenerClosed }
      some (setThr w t (.dial (.done none (some ErrInmemoryListenerClosed))))
  | .ret (some c) =>
      -- return cConn, nil
      some (setThr w t (.dial (.done (some c) none)))
  | .done _ _ => none

/-- One step of `func (ln *InmemoryListener) Accept()` run by thread `t`. -/
def InmemoryListener.Accept (t : Nat) (w : State) : AcceptPC → Option State
  | .recv =>
      -- c, ok := <-ln.conns
      match w.ln.conns.buf with
      | c :: rest =>
          some (setThr
            { w with
              ln := { w.ln with conns := { w.ln.conns with buf := rest } }
              rcvd := w.rcvd ++ [(t, c)] } t (.accept (.closeAccepted c)))
      | [] =>
          if w.ln.conns.closed then some (setThr w t (.accept .retErr))
          else none
  | .closeAccepted c =>
      -- close(c.accepted)
      if c.accepted ∈ w.accepted then some (setThr w t .panicked)
      else some (setThr { w with accepted := c.accepted :: w.accepted } t (.accept (.ret c)))
  | .retErr =>
      -- if !ok { return nil, ErrInmemoryListenerClosed }
      some (setThr w t (.accept (.done none (some ErrInmemoryListenerClosed))))
  | .ret c =>
      -- return c.conn, nil
      some (setThr w t (.accept (.done (some c.conn) none)))
  | .done _ _ => none

/-- One step of `func (ln *InmemoryListener) Close()` run by thread `t`. -/
def InmemoryListener.Close (t : Nat) (w : State) : ClosePC → Option State
  | .lock =>
      -- ln.lock.Lock()
      if w.ln.lock then none
      else some (setThr { w with ln := { w.ln with lock := true } } t (.close .ifClosed))
  | .ifClosed =>
      -- if !ln.closed { .. } else { err = ErrInmemoryListenerClosed }
      if !w.ln.closed then some (setThr w t (.close .closeConns))
      else some (setThr w t (.close (.unlock (some ErrInmemoryListenerClosed))))
  | .closeConns =>
      -- close(ln.conns)
      if w.ln.conns.closed then some (setThr w t .panicked)
      else some (setThr
        { w with ln := { w.ln with conns := { w.ln.conns with closed := true } } } t
        (.close .setClosed))
  | .setClosed =>
      -- ln.closed = true
      some (setThr { w with ln := { w.ln with closed := true } } t (.close (.unlock none)))
  | .unlock e =>
      -- ln.lock.Unlock()
      some (setThr { w with ln := { w.ln with lock := false } } t (.close (.ret e)))
  | .ret e =>
      -- return err
      some (setThr w t (.close (.done e)))
  | .done _ => none

/-! ## Interleaving semantics -/

/-- A scheduler action: thread `t` executes its next statement, or a sender
blocked in `ln.conns <- ..` hands its record directly to a receiver blocked in
`<-ln.conns` (the only way a send on a channel of capacity 0 completes). -/
inductive Act where
  | run (t : Nat)
  | handoff (d a : Nat)
deriving DecidableEq, Repr

/-- The direct handoff of a record from the sending `Dial` thread `d` to the
receiving `Accept` thread `a`, on an open channel with an empty buffer. -/
def handoffStep (w : State) (d a : Nat) : Option State :=
  match w.thr d, w.thr a with
  | .dial .send, .accept .recv =>
      if w.ln.conns.closed = false ∧ w.ln.conns.buf = [] then
        some (setThr (setThr
          { w with
            sent := w.sent ++ [mkAcceptConn d]
            rcvd := w.rcvd ++ [(a, mkAcceptConn d)] } d (.dial .waitAccepted)) a
          (.accept (.closeAccepted (mkAcceptConn d))))
      else none
  | _, _ => none

/-- One action of the scheduler; `none` when the action is not enabled. -/
def step (w : State) : Act → Option State
  | .run t =>
      match w.thr t with
      | .dial p => InmemoryListener.Dial t w p
      | .accept p => InmemoryListener.Accept t w p
      | .close p => InmemoryListener.Close t w p
      | .idle => none
      | .panicked => none
  | .handoff d a => handoffStep w d a

/-- Run a schedule; `none` when some action of it is not enabled. -/
def exec : List Act → State → Option State
  | [], w => some w
  | a :: rest, w => (step w a).bind (exec rest)

/-- First program counter of a call. -/
def Call.entry : Call → PC
  | .Dial => .dial .lock
  | .Accept => .accept .recv
  | .Close => .close .lock

/-- The state in which thread `i` is about to make the call `calls[i]` on the
fresh listener `ln`. -/
def startOn (ln : InmemoryListener) (calls : List Call) : State :=
  { ln := ln
    accepted := []
    closedConns := []
    thr := fun t => match calls[t]? with
      | some c => c.entry
      | none => .idle
    sent := []
    rcvd := [] }

/-- A fresh listener made by `NewInmemoryListener(opts)` with the calls `calls`
about to be made on it. -/
def start (opts : Option Options) (calls : List Call) : Option State :=
  (NewInmemoryListener opts).map fun ln => startOn ln calls

/-- States some interleaving of some calls on a fresh listener can reach. -/
def Reachable (w : State) : Prop :=
  ∃ opts calls w0 sched, start opts calls = some w0 ∧ exec sched w0 = some w

/-- Thread `t` runs alone, one statement after the other, until its call has
returned; `none` if it blocks, panics, or needs more than `fuel` steps. -/
def runToDone : Nat → Nat → State → Option State
  | 0, _, _ => none
  | fuel + 1, t, w =>
      match w.thr t with
      | .dial (.done _ _) => some w
      | .accept (.done _ _) => some w
      | .close (.done _) => some w
      | _ => (step w (.run t)).bind (runToDone fuel t)

/-- The calls of the threads `ts` made one after the other, each run to its
return before the next starts. -/
def runSeq : List Nat → State → Option State
  | [], w => some w
  | t :: rest, w => (runToDone 8 t w).bind (runSeq rest)

/-! ## Auxiliary definitions for the proofs -/

/-- Statements of `Dial` executed with the mutex locked. -/
def DialPC.holds : DialPC → Bool
  | .lock => false
  | .ifClosed => true
  | .send => true
  | .waitAccepted => true
  | .sConnClose => true
  | .cConnClose => true
  | .unlock _ => true
  | .ret _ => false
  | .done _ _ => false

/-- Statements of `Close` executed with the mutex locked. -/
def ClosePC.holds : ClosePC → Bool
  | .lock => false
  | .ifClosed => true
  | .closeConns => true
  | .setClosed => true
  | .unlock _ => true
  | .ret _ => false
  | .done _ => false

/-- Program counters at which the thread has the mutex locked. -/
def holds : PC → Bool
  | .idle => false
  | .dial p => p.holds
  | .accept _ => false
  | .close p => p.holds
  | .panicked => false

/-- The transitions of `step`, one constructor per enabled statement. -/
inductive StepRel : State → Act → State → Prop where
  | dLock (w t) : w.thr t = .dial .lock → w.ln.lock = false →
      StepRel w (.run t) (setThr { w with ln := { w.ln with lock := true } } t (.dial .ifClosed))
  | dOpen (w t) : w.thr t = .dial .ifClosed → w.ln.closed = false →
      StepRel w (.run t) (setThr w t (.dial .send))
  | dClosed (w t) : w.thr t = .dial .ifClosed → w.ln.closed = true →
      StepRel w (.run t) (setThr w t (.dial .sConnClose))
  | dSendPanic (w t) : w.thr t = .dial .send → w.ln.conns.closed = true →
      StepRel w (.run t) (setThr w t .panicked)
  | dSend (w t) : w.thr t = .dial .send → w.ln.conns.closed = false →
      w.ln.conns.buf.length < w.ln.conns.cap →
      StepRel w (.run t) (setThr
          { w with
            ln := { w.ln with conns := { w.ln.conns with buf := w.ln.conns.buf ++ [mkAcceptConn t] } }
            sent := w.sent ++ [mkAcceptConn t] } t (.dial .waitAccepted))
  | dWait (w t) : w.thr t = .dial .waitAccepted → t ∈ w.accepted →
      StepRel w (.run t) (setThr w t (.dial (.unlock (some (Conn.Conn1 t)))))
  | dCloseS (w t) : w.thr t = .dial .sConnClose →
      StepRel w (.run t)
        (setThr { w with closedConns := Conn.Conn2 t :: w.closedConns } t (.dial .cConnClose))
  | dCloseC (w t) : w.thr t = .dial .cConnClose →
      StepRel w (.run t)
        (setThr { w with closedConns := Conn.Conn1 t :: w.closedConns } t (.dial (.unlock none)))
  | dUnlock (w t c) : w.thr t = .dial (.unlock c) →
      StepRel w (.run t) (setThr { w with ln := { w.ln with lock := false } } t (.dial (.ret c)))
  | dRetErr (w t) : w.thr t = .dial (.ret none) →
      StepRel w (.run t) (setThr w t (.dial (.done none (some ErrInmemoryListenerClosed))))
  | dRetOk (w t c) : w.thr t = .dial (.ret (some c)) →
      StepRel w (.run t) (setThr w t (.dial (.done (some c) none)))
  | aRecv (w t c rest) : w.thr t = .accept .recv → w.ln.conns.buf = c :: rest →
      StepRel w (.run t) (setThr
            { w with
              ln := { w.ln with conns := { w.ln.conns with buf := rest } }
              rcvd := w.rcvd ++ [(t, c)] } t (.accept (.closeAccepted c)))
  | aRecvClosed (w t) : w.thr t = .accept .recv → w.ln.conns.buf = [] →
      w.ln.conns.closed = true → StepRel w (.run t) (setThr w t (.accept .retErr))
  | aAckPanic (w t c) : w.thr t = .accept (.closeAccepted c) → c.accepted ∈ w.accepted →
      StepRel w (.run t) (setThr w t .panicked)
  | aAck (w t c) : w.thr t = .accept (.closeAccepted c) → c.accepted ∉ w.accepted →
      StepRel w (.run t)
        (setThr { w with accepted := c.accepted :: w.accepted } t (.accept (.ret c)))
  | aRetErr (w t) : w.thr t = .accept .retErr →
      StepRel w (.run t) (setThr w t (.accept (.done none (some ErrInmemoryListenerClosed))))
  | aRet (w t c) : w.thr t = .accept (.ret c) →
      StepRel w (.run t) (setThr w t (.accept (.done (some c.conn) none)))
  | cLock (w t) : w.thr t = .close .lock → w.ln.lock = false →
      StepRel w (.run t) (setThr { w with ln := { w.ln with lock := true } } t (.close .ifClosed))
  | cOpen (w t) : w.thr t = .close .ifClosed → w.ln.closed = false →
      StepRel w (.run t) (setThr w t (.close .closeConns))
  | cClosed (w t) : w.thr t = .close .ifClosed → w.ln.closed = true →
      StepRel w (.run t) (setThr w t (.close (.unlock (some ErrInmemoryListenerClosed))))
  | cClosePanic (w t) : w.thr t = .close .closeConns → w.ln.conns.closed = true →
      StepRel w (.run t) (setThr w t .panicked)
  | cCloseConns (w t) : w.thr t = .close .closeConns → w.ln.conns.closed = false →
      StepRel w (.run t) (setThr
        { w with ln := { w.ln with conns := { w.ln.conns with closed := true } } } t
        (.close .setClosed))
  | cSetClosed (w t) : w.thr t = .close .setClosed →
      StepRel w (.run t)
        (setThr { w with ln := { w.ln with closed := true } } t (.close (.unlock none)))
  | cUnlock (w t e) : w.thr t = .close (.unlock e) →
      StepRel w (.run t) (setThr { w with ln := { w.ln with lock := false } } t (.close (.ret e)))
  | cRet (w t e) : w.thr t = .close (.ret e) →
      StepRel w (.run t) (setThr w t (.close (.done e)))
  | handoff (w d a) : w.thr d = .dial .send → w.thr a = .accept .recv →
      w.ln.conns.closed = false → w.ln.conns.buf = [] →
      StepRel w (.handoff d a) (setThr (setThr
          { w with
            sent := w.sent ++ [mkAcceptConn d]
            rcvd := w.rcvd ++ [(a, mkAcceptConn d)] } d (.dial .waitAccepted)) a
          (.accept (.closeAccepted (mkAcceptConn d))))

/-- The `Dial` call whose record an `Accept` has received and acknowledged. -/
def AcceptPC.takenOf : AcceptPC → Option Nat
  | .recv => none
  | .closeAccepted _ => none
  | .retErr => none
  | .ret c => some c.accepted
  | .done none _ => none
  | .done (some (Conn.Conn1 _)) _ => none
  | .done (some (Conn.Conn2 d)) _ => some d

/-- The `Dial` call whose record the thread has received and acknowledged. -/
def takenOf : PC → Option Nat
  | .idle => none
  | .dial _ => none
  | .accept p => p.takenOf
  | .close _ => none
  | .panicked => none

/-- Whether the endpoint is the server end `pc.Conn2()` of its pair. -/
def Conn.isServer : Conn → Bool
  | .Conn1 _ => false
  | .Conn2 _ => true

/-- The inductive invariant of the listener, an annotation of the three functions:
* the mutex: a thread between `Lock()` and `Unlock()` has it locked, and there is at
  most one such thread (`lockHeld`, `holder_unique`);
* no thread has panicked (`no_panic`);
* the flag and the channel: `conns` is closed exactly when `closed` is set, except
  between the two statements of `Close` that do it; the listener is open where `Dial`
  sends or waits and where `Close` closes the channel (`chan_free`, `chan_held`,
  `set_closed`, `open_at`, `closed_chan`);
* the queue: it holds at most one record, and only while the lock holder waits for
  its acknowledgment; a queued record belongs to a waiting, unacknowledged `Dial`
  (`buf_held`, `buf_rec`, `buf_len`);
* acknowledgments and claims: an acknowledged `Dial` is waiting or on its way out
  with its client endpoint; an `Accept` that holds an unacknowledged record holds the
  record of the waiting `Dial`, and there is one such `Accept` at most; an `Accept`
  past its acknowledgment returns the server endpoint of an acknowledged record, one
  `Accept` per record (`acked_pc`, `claim_pending`, `claim_pending_unique`,
  `claim_ret`, `claim_done_err`, `claim_done_ok`, `taken_acked`, `taken_unique`);
* results: what `Dial` and `Close` return (`dial_cConn`, `dial_done_err`,
  `dial_done_ok`, `close_err`);
* history: the records sent are the records received followed by the queue, each
  received record is with the `Accept` that received it, a `Dial` past its send is
  in the history, and every record sent carries the server endpoint of the pair named
  by its channel (`hist`, `hist_rcvd`, `hist_sent`, `sent_rec`). -/
structure Inv (w : State) : Prop where
  lockHeld : ∀ t, holds (w.thr t) = true → w.ln.lock = true
  holder_unique : ∀ t u, holds (w.thr t) = true → holds (w.thr u) = true → t = u
  no_panic : ∀ t, w.thr t ≠ .panicked
  chan_free : w.ln.lock = false → w.ln.conns.closed = w.ln.closed ∧ w.ln.conns.buf = []
  chan_held : ∀ t, holds (w.thr t) = true → w.thr t ≠ .close .setClosed →
    w.ln.conns.closed = w.ln.closed
  set_closed : ∀ t, w.thr t = .close .setClosed → w.ln.conns.closed = true ∧ w.ln.closed = false
  open_at : ∀ t, w.thr t = .dial .send ∨ w.thr t = .dial .waitAccepted ∨
    w.thr t = .close .closeConns → w.ln.closed = false
  closed_chan : w.ln.closed = true → w.ln.conns.closed = true ∧ w.ln.conns.buf = []
  buf_held : ∀ t, holds (w.thr t) = true → w.thr t ≠ .dial .waitAccepted → w.ln.conns.buf = []
  buf_rec : ∀ c ∈ w.ln.conns.buf, c.conn = Conn.Conn2 c.accepted ∧
    w.thr c.accepted = .dial .waitAccepted ∧ c.accepted ∉ w.accepted
  buf_len : w.ln.conns.buf.length ≤ 1
  acked_pc : ∀ d ∈ w.accepted, w.thr d = .dial .waitAccepted ∨
    w.thr d = .dial (.unlock (some (Conn.Conn1 d))) ∨
    w.thr d = .dial (.ret (some (Conn.Conn1 d))) ∨
    w.thr d = .dial (.done (some (Conn.Conn1 d)) none)
  claim_pending : ∀ a c, w.thr a = .accept (.closeAccepted c) →
    c.conn = Conn.Conn2 c.accepted ∧
    w.thr c.accepted = .dial .waitAccepted ∧ c.accepted ∉ w.accepted ∧ w.ln.conns.buf = []
  claim_pending_unique : ∀ a b c c', w.thr a = .accept (.closeAccepted c) →
    w.thr b = .accept (.closeAccepted c') → a = b
  claim_ret : ∀ a c, w.thr a = .accept (.ret c) → c.conn = Conn.Conn2 c.accepted
  claim_done_err : ∀ a e, w.thr a = .accept (.done none e) → e = some ErrInmemoryListenerClosed
  claim_done_ok : ∀ a x e, w.thr a = .accept (.done (some x) e) → e = none ∧ x.isServer = true
  taken_acked : ∀ a d, takenOf (w.thr a) = some d → d ∈ w.accepted
  taken_unique : ∀ a b d, takenOf (w.thr a) = some d → takenOf (w.thr b) = some d → a = b
  dial_cConn : ∀ t x, w.thr t = .dial (.unlock (some x)) ∨ w.thr t = .dial (.ret (some x)) →
    x = Conn.Conn1 t ∧ t ∈ w.accepted
  dial_done_err : ∀ t e, w.thr t = .dial (.done none e) → e = some ErrInmemoryListenerClosed
  dial_done_ok : ∀ t x e, w.thr t = .dial (.done (some x) e) →
    x = Conn.Conn1 t ∧ e = none ∧ t ∈ w.accepted
  close_err : ∀ t e, w.thr t = .close (.unlock e) ∨ w.thr t = .close (.ret e) ∨
    w.thr t = .close (.done e) →
    (∀ x, e = some x → x = ErrInmemoryListenerClosed) ∧ w.ln.closed = true
  hist : w.sent = w.rcvd.map Prod.snd ++ w.ln.conns.buf
  hist_rcvd : ∀ p ∈ w.rcvd, w.thr p.1 = .accept (.closeAccepted p.2) ∨
    w.thr p.1 = .accept (.ret p.2) ∨ w.thr p.1 = .accept (.done (some p.2.conn) none)
  hist_sent : ∀ d, w.thr d = .dial .waitAccepted ∨ d ∈ w.accepted → mkAcceptConn d ∈ w.sent
  sent_rec : ∀ c ∈ w.sent, c.conn = Conn.Conn2 c.accepted

/-- Thread `a` has claimed the record of the `Dial` call `d`: it has received it and is
about to acknowledge it, or has acknowledged it and is about to return its server
endpoint, or has returned that endpoint. -/
def Claimed (w : State) (a d : Nat) : Prop :=
  w.thr a = .accept (.closeAccepted (mkAcceptConn d)) ∨
  w.thr a = .accept (.ret (mkAcceptConn d)) ∨
  w.thr a = .accept (.done (some (Conn.Conn2 d)) none)

/-- The state a schedule reaches from `calls` started on a default listener
(the start state itself if the schedule is not enabled). -/
def stateAfter (calls : List Call) (sched : List Act) : State :=
  let w0 := startOn
    { lock := false, closed := false,
      conns := { cap := 10240, buf := [], closed := false },
      opts := DefaultInMemoryListener } calls
  (exec sched w0).getD w0

/-- Three `Close` calls about to be made on a default listener. -/
def exThreeCloses : State := stateAfter (List.replicate 3 Call.Close) []

/-- A `Close` call has returned; a `Dial` call is about to be made. -/
def exClosedThenDial : State :=
  stateAfter [.Close, .Dial] [.run 0, .run 0, .run 0, .run 0, .run 0, .run 0]

/-- A `Close` call has returned; an `Accept` is at its receive and a `Dial` is about to
be made. -/
def exClosedThenAccept : State :=
  stateAfter [.Close, .Accept, .Dial] [.run 0, .run 0, .run 0, .run 0, .run 0, .run 0]

/-- A `Dial` call has sent its record and an `Accept` call has received and
acknowledged it. -/
def exClaimed : State :=
  stateAfter [.Dial, .Accept] [.run 0, .run 0, .run 0, .run 1, .run 1]

/-- Two `Dial` calls served one after the other by two `Accept` calls. -/
def exTwoHandoffs : State :=
  stateAfter [.Dial, .Dial, .Accept, .Accept]
    [.run 0, .run 0, .run 0, .run 2, .run 2, .run 2, .run 0, .run 0, .run 0,
     .run 1, .run 1, .run 1, .run 3, .run 3, .run 3, .run 1, .run 1, .run 1]

/-- A `Dial` call has returned after an `Accept` call acknowledged its record. -/
def exDialReturned : State :=
  stateAfter [.Dial, .Accept] [.run 0, .run 0, .run 0, .run 1, .run 1, .run 0, .run 0, .run 0]

/-- A `Dial` call waits for its acknowledgment; a second `Dial` and an `Accept` have not
moved yet. -/
def exPendingDial : State :=
  stateAfter [.Dial, .Dial, .Accept] [.run 0, .run 0, .run 0]

/-- A `Dial` call waits for its acknowledgment; a `Close` call is about to lock. -/
def exPendingDialClose : State :=
  stateAfter [.Dial, .Close] [.run 0, .run 0, .run 0]

/-- Two `Close` calls, an `Accept` and a `Dial`, each run to its return in turn. -/
def exAllClosed : State :=
  stateAfter [.Close, .Close, .Accept, .Dial]
    [.run 0, .run 0, .run 0, .run 0, .run 0, .run 0, .run 1, .run 1, .run 1, .run 1,
     .run 2, .run 2, .run 3, .run 3, .run 3, .run 3, .run 3, .run 3]

/-- A `Dial` call has locked and found the listener open and is at its send; a `Close`
and an `Accept` have not moved yet. -/
def exDialAtSend : State :=
  stateAfter [.Dial, .Close, .Accept] [.run 0, .run 0]

/-! ## The `Pipe` wrapper (`pipe.go`) -/

/-- The struct `type Pipe struct`: `name`, `address`, the embedded
`*InmemoryListener` (held with the calls in progress on it) and `isShutdown`. -/
structure Pipe where
  name : String
  address : String
  InmemoryListener : State
  isShutdown : Bool

/-- The constructor `NewPipe(name)`: the other fields have their zero values. -/
def NewPipe (name : String) : Option Pipe :=
  (NewInmemoryListener (some DefaultInMemoryListener)).map fun ln =>
    { name := name
      address := ""
      InmemoryListener := startOn ln []
      isShutdown := false }

/-- Goroutine `t` enters a method of the embedded listener, if it is in no call. -/
def Pipe.call (p : Pipe) (t : Nat) (c : Call) : Option Pipe :=
  match p.InmemoryListener.thr t with
  | .idle => some { p with InmemoryListener := setThr p.InmemoryListener t c.entry }
  | _ => none

/-- The method `func (p *Pipe) Dial(network, address string) (net.Conn, error)`, called
by goroutine `t`: the assignment, then the call of `InmemoryListener.Dial`, whose
statements are steps of thread `t` of the embedded listener and whose result is the
result of the method. -/
def Pipe.Dial (p : Pipe) (t : Nat) (network address : String) : Option Pipe :=
  let _ := network
  -- p.address = address
  let p := { p with address := address }
  -- return p.InmemoryListener.Dial()
  p.call t .Dial

/-- The method `Accept` promoted from the embedded listener, called by goroutine `t`. -/
def Pipe.Accept (p : Pipe) (t : Nat) : Option Pipe :=
  p.call t .Accept

/-- The method `Close` promoted from the embedded listener, called by goroutine `t`. -/
def Pipe.Close (p : Pipe) (t : Nat) : Option Pipe :=
  p.call t .Close

/-- The method `func (p *Pipe) Name() string`. -/
def Pipe.Name (p : Pipe) : String :=
  p.name

/-- The method `func (p *Pipe) Address() string`. -/
def Pipe.Address (p : Pipe) : String :=
  p.address

/-- The method `func (p *Pipe) SetShutdown()`. -/
def Pipe.SetShutdown (p : Pipe) : Pipe :=
  { p with isShutdown := true }

/-- The method `func (p *Pipe) IsClosed() bool`. -/
def Pipe.IsClosed (p : Pipe) : Bool :=
  p.isShutdown

/-- What happens on a pipe: a goroutine calls one of its methods, or a call in
progress on the embedded listener advances (`run`). -/
inductive Op where
  | Dial (t : Nat) (network address : String)
  | Accept (t : Nat)
  | Close (t : Nat)
  | Name
  | Address
  | SetShutdown
  | IsClosed
  | run (a : Act)
deriving DecidableEq, Repr

/-- The pipe after one operation; `none` when the operation is not enabled. `Name`,
`Address` and `IsClosed` only read. -/
def Pipe.op (p : Pipe) : Op → Option Pipe
  | .Dial t network address => p.Dial t network address
  | .Accept t => p.Accept t
  | .Close t => p.Close t
  | .Name => some p
  | .Address => some p
  | .SetShutdown => some p.SetShutdown
  | .IsClosed => some p
  | .run a => (step p.InmemoryListener a).map fun w => { p with InmemoryListener := w }

/-- The pipe after a sequence of operations. -/
def Pipe.ops : List Op → Pipe → Option Pipe
  | [], p => some p
  | o :: rest, p => (p.op o).bind (Pipe.ops rest)

/-- The operation with the arguments of `Dial` replaced by empty strings. -/
def Op.eraseArgs : Op → Op
  | .Dial t _ _ => .Dial t "" ""
  | o => o

/-- Two `Dial` calls with different addresses, the first one between its statements. -/
def exTwoDials : List Op :=
  [.Dial 0 "tcp" "a:4222", .run (.run 0), .Dial 1 "udp" "b:4222", .Name, .Address]

/-- A `Close` call on the pipe that runs until it has returned; `SetShutdown` is not
called. -/
def exCloseOnly : List Op :=
  [.Close 0, .run (.run 0), .run (.run 0), .run (.run 0), .run (.run 0), .run (.run 0),
    .run (.run 0), .IsClosed]

end Pipe

namespace Gnatsd

/-! ## The method `Server.Shutdown` of `server/gnatsd/server/pipe.go` -/

/-- The reason passed to `closeConnection`. -/
inductive ClosedState where
  | ServerShutdown
deriving DecidableEq, Repr

/-- What `Shutdown` does to objects other than the server's own fields, in program
order. A connection is named by its handle (a `*client`). -/
inductive Event where
  | shutdownEventing
  | muLock
  | muUnlock
  | grMuLock
  | grMuUnlock
  | notice (msg : String)
  | listenerClose
  | pipeSetShutdown
  | pipeClose
  | leafNodeListenerClose
  | routeListenerClose
  | gatewayListenerClose
  | httpClose
  | profilerClose
  | closeQuitCh
  | setNoReconnect (c : Nat)
  | closeConnection (c : Nat) (reason : ClosedState)
  | recvDone
  | grWGWait
  | deletePortsFile (dir : String)
  | loggingRLock
  | loggingRUnlock
  | loggerClose
  | closeShutdownComplete
deriving DecidableEq, Repr

/-- A Go `map[uint64]*client`, as the list of its entries. -/
abbrev ClientMap := List (Nat × Nat)

/-- The assignment `m[i] = c`: overwrite the entry of key `i`, or add one. -/
def ClientMap.set : ClientMap → Nat → Nat → ClientMap
  | [], i, c => [(i, c)]
  | (j, d) :: rest, i, c => if j = i then (i, c) :: rest else (j, d) :: ClientMap.set rest i c

/-- The loop `for i, c := range src { conns[i] = c }`. -/
def copyOff (conns src : ClientMap) : ClientMap :=
  src.foldl (fun m e => ClientMap.set m e.1 e.2) conns

/-- The fields of `Server` that `Shutdown` reads or writes. The struct declaration is
not part of the file; a listener field holds whether it is non-nil, a channel field
whether it has been closed, `logger` whether `s.logging.logger` is nil (`none`) and
otherwise whether it is a `*logger.Logger`. `sys` is the state that
`shutdownEventing` (not part of the file) works on. -/
structure Server (E : Type) where
  sys : E
  shutdown : Bool
  running : Bool
  grRunning : Bool
  clients : ClientMap
  grTmpClients : ClientMap
  routes : ClientMap
  gateways : ClientMap
  leafs : ClientMap
  listener : Bool
  pipeListener : Bool
  leafNodeListener : Bool
  routeListener : Bool
  gatewayListener : Bool
  http : Bool
  profiler : Bool
  quitCh : Bool
  shutdownComplete : Bool
  PortsFileDir : String
  logger : Option Bool

/-- Modelled from the spec: `getAllGatewayConnections` is not among the source files;
by the spec the snapshot takes "every connection currently in every category
registry (clients, routes, gateways, leafs)", so it copies every entry of the gateway
registry into `conns` under its identifier. -/
def getAllGatewayConnections {E : Type} (s : Server E) (conns : ClientMap) : ClientMap :=
  copyOff conns s.gateways

/-- The snapshot `conns` built under the server lock. -/
def snapshot {E : Type} (s : Server E) : ClientMap :=
  -- conns := make(map[uint64]*client)
  let conns : ClientMap := []
  -- Copy off the clients
  let conns := copyOff conns s.clients
  -- Copy off the connections that are not yet registered
  let conns := copyOff conns s.grTmpClients
  -- Copy off the routes
  let conns := copyOff conns s.routes
  -- Copy off the gateways
  let conns := getAllGatewayConnections s conns
  -- Copy off the leaf nodes
  copyOff conns s.leafs

/-- The value of `doneExpected` after the listeners have been kicked. -/
def doneExpected {E : Type} (s : Server E) : Nat :=
  (if s.listener then 1 else 0) + (if s.leafNodeListener then 1 else 0) +
  (if s.routeListener then 1 else 0) + (if s.gatewayListener then 1 else 0) +
  (if s.http then 1 else 0) + (if s.profiler then 1 else 0)

/-- The `Close` (and `SetShutdown`) calls made on the listeners that are non-nil, in
program order. -/
def kickListeners {E : Type} (s : Server E) : List Event :=
  (if s.listener then [.listenerClose] else []) ++
  (if s.pipeListener then [.pipeSetShutdown, .pipeClose] else []) ++
  (if s.leafNodeListener then [.leafNodeListenerClose] else []) ++
  (if s.routeListener then [.routeListenerClose] else []) ++
  (if s.gatewayListener then [.gatewayListenerClose] else []) ++
  (if s.http then [.httpClose] else []) ++
  (if s.profiler then [.profilerClose] else [])

/-- The loop `for _, c := range conns { c.setNoReconnect(); c.closeConnection(ServerShutdown) }`. -/
def closeConns : ClientMap → List Event
  | [] => []
  | (_, c) :: rest =>
      .setNoReconnect c :: .closeConnection c .ServerShutdown :: closeConns rest

/-- The method `func (s *Server) Shutdown()`: the server after the call and what the
call did.
`shutdownEventing` is the method called first, taken as a parameter. The call blocks
in `<-s.done` and `s.grWG.Wait()` until the accept loops and workers have signalled;
the result describes the call given that they do. `none` is a Go panic
(`close` of a closed channel). -/
def Shutdown {E : Type} (shutdownEventing : E → E) (s : Server E) :
    Option (Server E × List Event) :=
  -- s.shutdownEventing()
  let s := { s with sys := shutdownEventing s.sys }
  -- s.mu.Lock(); if s.shutdown { s.mu.Unlock(); return }
  if s.shutdown then some (s, [.shutdownEventing, .muLock, .muUnlock])
  else
    let conns := snapshot s
    let n := doneExpected s
    let kicks := kickListeners s
    let s1 : Server E :=
      { s with
        shutdown := true
        running := false
        grRunning := false
        listener := false
        pipeListener := false
        leafNodeListener := false
        routeListener := false
        gatewayListener := false
        http := false }
    -- close(s.quitCh)
    if s1.quitCh then none
    else
      let s2 : Server E := { s1 with quitCh := true }
      -- close(s.shutdownComplete)
      if s2.shutdownComplete then none
      else
        some ({ s2 with shutdownComplete := true },
          [.shutdownEventing, .muLock, .notice "Initiating Shutdown...",
            .grMuLock, .grMuUnlock, .grMuLock, .grMuUnlock] ++ kicks ++
          [.muUnlock, .closeQuitCh] ++ closeConns conns ++
          List.replicate n .recvDone ++ [.grWGWait] ++
          (if s.PortsFileDir ≠ "" then [.deletePortsFile s.PortsFileDir] else []) ++
          [.notice "Server Exiting..", .loggingRLock, .loggingRUnlock] ++
          (if s.logger = some true then [.loggerClose] else []) ++
          [.closeShutdownComplete])

/-- A sequence of `n` calls of `Shutdown`, one after the other: the server after the
last call and everything the calls did. -/
def shutdownSeq {E : Type} (shutdownEventing : E → E) : Nat → Server E →
    Option (Server E × List Event)
  | 0, s => some (s, [])
  | n + 1, s =>
      match Shutdown shutdownEventing s with
      | none => none
      | some (s1, t1) =>
          match shutdownSeq shutdownEventing n s1 with
          | none => none
          | some (s2, t2) => some (s2, t1 ++ t2)

/-- What `n` calls of `Shutdown` do when each finds the flag set. -/
def laterCalls : Nat → List Event
  | 0 => []
  | n + 1 => [.shutdownEventing, .muLock, .muUnlock] ++ laterCalls n

/-- A server with a TCP listener, an in-memory pipe and four connections. -/
def exServer : Server Nat :=
  { sys := 7
    shutdown := false
    running := true
    grRunning := true
    clients := [(1, 101), (2, 102)]
    grTmpClients := [(3, 103)]
    routes := [(4, 104)]
    gateways := []
    leafs := []
    listener := true
    pipeListener := true
    leafNodeListener := false
    routeListener := false
    gatewayListener := false
    http := false
    profiler := false
    quitCh := false
    shutdownComplete := false
    PortsFileDir := ""
    logger := none }

/-- All the entries of the five registries, in the order `Shutdown` copies them. -/
def registries {E : Type} (s : Server E) : ClientMap :=
  s.clients ++ s.grTmpClients ++ s.routes ++ s.gateways ++ s.leafs

/-- The step of `Shutdown` an event belongs to: 0 eventing shutdown, 1 taking the
server lock, 2 what is done under it (snapshot locks, listener closes), 3 releasing
it, 4 closing `quitCh`, 5 force-closing the snapshot connections, 6 waiting for the
completion signals, 7 waiting for the worker wait group, 8 final teardown, 9 closing
`shutdownComplete`. -/
def phase : Event → Nat
  | .shutdownEventing => 0
  | .muLock => 1
  | .muUnlock => 3
  | .grMuLock => 2
  | .grMuUnlock => 2
  | .notice msg => if msg = "Initiating Shutdown..." then 2 else 8
  | .listenerClose => 2
  | .pipeSetShutdown => 2
  | .pipeClose => 2
  | .leafNodeListenerClose => 2
  | .routeListenerClose => 2
  | .gatewayListenerClose => 2
  | .httpClose => 2
  | .profilerClose => 2
  | .closeQuitCh => 4
  | .setNoReconnect _ => 5
  | .closeConnection _ _ => 5
  | .recvDone => 6
  | .grWGWait => 7
  | .deletePortsFile _ => 8
  | .loggingRLock => 8
  | .loggingRUnlock => 8
  | .loggerClose => 8
  | .closeShutdownComplete => 9

/-- A server whose client registry and leaf registry both use identifier 2. -/
def exCollide : Server Nat :=
  { exServer with
    clients := [(2, 102)]
    grTmpClients := []
    routes := []
    leafs := [(2, 202)] }

/-! ## The accept loops -/

/-- What `AcceptLoop` and `runPipeListener` do, in program order. The methods of
`Server` they call (`Fatalf`, `Noticef`, `Errorf`, `startGoRoutine`, `acceptError`)
are not part of the file: a call of one of them is an event, a log call being named by
its format string and taken to return. `accept` is a call of `Accept()` on the
listener; a connection is named by a number. -/
inductive LoopEvent where
  | fatalf (format : String)
  | noticef (format : String)
  | errorf (format : String)
  | muLock
  | muUnlock
  | setListener
  | closeClr
  | startPipeListener
  | accept
  | startClient (conn : Nat)
  | acceptError
  | ldmChSend
  | quitChRecv
  | doneSend
  | pipeClose
  | grWGDone
deriving DecidableEq, Repr

/-- The statement by which a loop function returned. -/
inductive Exit where
  | listenFailed
  | infoFailed
  | lameDuck
  | acceptFailed
  | notRunning
deriving DecidableEq, Repr

/-- Where a run of a loop function stands after the observations given to it: it has
returned, it is still in its loop, or it has panicked. -/
inductive Outcome where
  | returned (e : Exit)
  | running
  | panicked
deriving DecidableEq, Repr

/-- One turn of the loop of `AcceptLoop` as its environment decides it:
`s.isRunning()` is false, or it is true and `l.Accept()` returns a connection, or it
is true and `l.Accept()` fails, `s.isLameDuckMode()` then being `lameDuck`. -/
inductive AcceptObs where
  | notRunning
  | accepted (conn : Nat)
  | failed (lameDuck : Bool)
deriving DecidableEq, Repr

/-- What a run of `AcceptLoop` depends on: whether `clr` is non-nil, whether
`net.Listen` fails, whether `opts.TLSConfig` is non-nil, whether
`setInfoHostPortAndGenerateJSON` fails, whether `s.pipeListener` is non-nil, and the
turns of the loop. -/
structure AcceptRun where
  clr : Bool
  listenErr : Bool
  TLSConfig : Bool
  infoErr : Bool
  pipeListener : Bool
  loop : List AcceptObs
deriving DecidableEq, Repr

/-- The deferred function of `AcceptLoop`, `if clr != nil { close(clr) }`, run with
the value `clr` has when the function returns. -/
def deferredClose (clr : Bool) : List LoopEvent :=
  if clr then [.closeClr] else []

/-- The loop `for s.isRunning() { .. }` of `AcceptLoop` and the statement after it. -/
def acceptLoopFor : List AcceptObs → List LoopEvent × Outcome
  | [] => ([], .running)
  | .notRunning :: _ =>
      -- s.done <- true
      ([.doneSend], .returned .notRunning)
  | .accepted conn :: rest =>
      -- s.startGoRoutine(func() { s.createClient(conn); s.grWG.Done() })
      let r := acceptLoopFor rest
      (.accept :: .startClient conn :: r.1, r.2)
  | .failed true :: _ =>
      -- s.ldmCh <- true; <-s.quitCh; return
      ([.accept, .ldmChSend, .quitChRecv], .returned .lameDuck)
  | .failed false :: rest =>
      -- tmpDelay = s.acceptError("Client", err, tmpDelay); continue
      let r := acceptLoopFor rest
      (.accept :: .acceptError :: r.1, r.2)

/-- The method `func (s *Server) AcceptLoop(clr chan struct{})`: what a run does and
how it ends. `close(clr)` of a nil channel is a Go panic. The sends and the receive
on the channels of the server are taken to go through. -/
def AcceptLoop (r : AcceptRun) : List LoopEvent × Outcome :=
  let clr := r.clr
  if r.listenErr then
    -- s.Fatalf(..); return
    ([.fatalf "Error listening on port: %s, %q"] ++ deferredClose clr, .returned .listenFailed)
  else
    let t := [.noticef "Listening for client connections on %s"] ++
      (if r.TLSConfig then [.noticef "TLS required for client connections"] else []) ++
      [.noticef "Server id is %s", .noticef "Server is ready", .muLock, .setListener]
    if r.infoErr then
      -- s.Fatalf(..); s.mu.Unlock(); return
      (t ++ [.fatalf "Error setting server INFO with ClientAdvertise value of %s, err=%v",
          .muUnlock] ++ deferredClose clr, .returned .infoFailed)
    else
      let t := t ++ [.muUnlock]
      -- close(clr)
      if !clr then (t ++ deferredClose clr, .panicked)
      else
        let t := t ++ [.closeClr]
        -- clr = nil
        let clr := false
        let t := t ++
          (if r.pipeListener then [.startPipeListener]
           else [.noticef "No in-memory pipe initiated, client server connection is local TCP"])
        let l := acceptLoopFor r.loop
        match l.2 with
        | .returned e => (t ++ l.1 ++ deferredClose clr, .returned e)
        | o => (t ++ l.1, o)

/-- One turn of the loop of `runPipeListener`: `s.isRunning()` is false, or it is
true and `p.Accept()` returns a connection, or it is true and `p.Accept()` fails,
`p.IsClosed()` then being `isClosed`. -/
inductive PipeObs where
  | notRunning
  | accepted (conn : Nat)
  | failed (isClosed : Bool)
deriving DecidableEq, Repr

/-- The loop `for s.isRunning() { .. }` of `runPipeListener`. -/
def pipeLoopFor : List PipeObs → List LoopEvent × Outcome
  | [] => ([], .running)
  | .notRunning :: _ => ([], .returned .notRunning)
  | .accepted conn :: rest =>
      -- s.startGoRoutine(func() { s.createClient(conn); s.grWG.Done() })
      let r := pipeLoopFor rest
      (.accept :: .startClient conn :: r.1, r.2)
  | .failed isClosed :: _ =>
      -- if !p.IsClosed() { s.Errorf(..) }; return
      (.accept :: (if !isClosed then
          [.errorf "In-Memory client server connection pipe error: %s"] else []),
        .returned .acceptFailed)

/-- The method `func (s *Server) runPipeListener(p *pipe.Pipe)`; the deferred function
runs when it returns. -/
def runPipeListener (obs : List PipeObs) : List LoopEvent × Outcome :=
  let l := pipeLoopFor obs
  let t := [.noticef "In-Memory client server connection pipe: %s started"] ++ l.1
  match l.2 with
  | .returned e =>
      -- _ = p.Close(); s.Noticef(..)
      (t ++ [.pipeClose, .noticef "In-Memory client server connection pipe: %s ended"],
        .returned e)
  | o => (t, o)

/-- The goroutine `func() { s.runPipeListener(s.pipeListener); s.grWG.Done() }` that
`AcceptLoop` starts. -/
def pipeWorker (obs : List PipeObs) : List LoopEvent × Outcome :=
  let r := runPipeListener obs
  match r.2 with
  | .returned e => (r.1 ++ [.grWGDone], .returned e)
  | o => (r.1, o)

/-- A run of `AcceptLoop` in which `net.Listen` fails. -/
def exListenFails : AcceptRun :=
  { clr := true
    listenErr := true
    TLSConfig := false
    infoErr := false
    pipeListener := true
    loop := [] }

/-- A run of `AcceptLoop` that accepts connection 7, sees an accept error and then
finds the server no longer running. -/
def exAcceptRun : AcceptRun :=
  { clr := true
    listenErr := false
    TLSConfig := false
    infoErr := false
    pipeListener := true
    loop := [.accepted 7, .failed false, .notRunning] }

/-- Turns of the pipe loop: connection 8 is accepted, then `Accept` fails with the
shutdown flag unset. -/
def exPipeObs : List PipeObs :=
  [.accepted 8, .failed false, .accepted 9]

end Gnatsd

namespace Micro

/-! ## Service requests (`micro/request.go`) -/

/-- Go error values as `request.go` builds them: `errors.New(text)` and
`fmt.Errorf(format, err)` with a format that starts with `%w`. -/
inductive Error where
  | new (text : String)
  | wrap (format : String) (err : Error)
deriving DecidableEq, Repr

/-- The test `errors.Is(e, target)`: `e` or an error it wraps is `target`. -/
def Error.Is (e target : Error) : Bool :=
  if e = target then true
  else match e with
    | .new _ => false
    | .wrap _ err => err.Is target

/-- The variable `ErrRespond`. -/
def ErrRespond : Error := .new "NATS error when sending response"

/-- The variable `ErrMarshalResponse`. -/
def ErrMarshalResponse : Error := .new "marshaling response"

/-- The variable `ErrArgRequired`. -/
def ErrArgRequired : Error := .new "argument required"

/-- A non-nil Go map from header keys to value lists. -/
abbrev HeaderMap := String → Option (List String)

/-- Modelled from the spec: the type `nats.Header` (a `map[string][]string`) is not
among the source files; `none` is the nil map. `Headers` is the same type. -/
abbrev Header := Option HeaderMap

/-- The value a header has for key `k`, if any (`h[k]`). -/
def Header.lookup (h : Header) (k : String) : Option (List String) :=
  h.bind fun m => m k

/-- Modelled from the spec: the struct `nats.Msg` is not among the source files. The
fields are those the functions of `request.go` read or write, `Header` and `Data` (a
byte slice), with `Subject` and `Reply` standing for the others. -/
structure Msg where
  Subject : String
  Reply : String
  Header : Header
  Data : List Nat

/-- The type `RespondOpt func(*nats.Msg)`: what the function does to the message. -/
abbrev RespondOpt := Msg → Msg

/-- The struct `Request`. -/
structure Request where
  msg : Msg
  respondError : Option Error

/-- The method `func (r *Request) Error(code, description string, data []byte, opts
...RespondOpt) error`: the request after the call, the responses handed to
`RespondMsg`, and the error returned.
The constants `ErrorHeader` and `ErrorCodeHeader` and the method `RespondMsg` of
`nats.Msg` (with its error result, `none` for nil) are not part of the file and are
parameters. -/
def Request.Error (ErrorHeader ErrorCodeHeader : String)
    (RespondMsg : Msg → Msg → Option Error) (r : Request) (code description : String)
    (data : List Nat) (opts : List RespondOpt) : Request × List Msg × Option Error :=
  if code = "" then
    (r, [], some (.wrap "%w: error code" ErrArgRequired))
  else if description = "" then
    (r, [], some (.wrap "%w: description" ErrArgRequired))
  else
    let response : Msg :=
      { Subject := ""
        Reply := ""
        Header := some fun k =>
          if k = ErrorHeader then some [description]
          else if k = ErrorCodeHeader then some [code]
          else none
        Data := [] }
    -- for _, opt := range opts { opt(response) }
    let response := opts.foldl (fun m opt => opt m) response
    -- response.Data = data
    let response := { response with Data := data }
    match RespondMsg r.msg response with
    | some err => ({ r with respondError := some err }, [response], some err)
    | none => (r, [response], none)

/-- The function `func WithHeaders(headers Headers) RespondOpt`. -/
def WithHeaders (headers : Header) : RespondOpt := fun m =>
  match m.Header with
  | none => { m with Header := headers }
  | some mh =>
    match headers with
    | none => m
    | some h =>
      -- for k, v := range headers { m.Header[k] = v }
      { m with Header := some fun k =>
          match h k with
          | some v => some v
          | none => mh k }

/-- A request whose message has no header and no data. -/
def exRequest : Request :=
  { msg := { Subject := "svc.echo", Reply := "_INBOX.1", Header := none, Data := [] }
    respondError := none }

/-- A call of `Error` with the option `WithHeaders` given a value for the error
header; the header constants have the values `Nats-Service-Error` and
`Nats-Service-Error-Code`, and `RespondMsg` succeeds. -/
def exErrorCall : Request × List Msg × Option Error :=
  Request.Error "Nats-Service-Error" "Nats-Service-Error-Code" (fun _ _ => none) exRequest
    "500" "boom" [1, 2]
    [WithHeaders (some fun k => if k = "Nats-Service-Error" then some ["fine"] else none)]

/-- A call of `Error` without options and with a `RespondMsg` that fails. -/
def exErrorCallPlain : Request × List Msg × Option Error :=
  Request.Error "Nats-Service-Error" "Nats-Service-Error-Code"
    (fun _ _ => some (.new "nats: connection closed")) exRequest "500" "boom" [1, 2] []

/-- A message with one header, `Content-Type`, and some data. -/
def exMsg : Msg :=
  { Subject := "svc.echo"
    Reply := "_INBOX.1"
    Header := some fun k => if k = "Content-Type" then some ["text/plain"] else none
    Data := [104, 105] }

/-- Headers that give `Content-Type` a new value and add `X-Trace`. -/
def exHeaders : Header :=
  some fun k =>
    if k = "Content-Type" then some ["application/json"]
    else if k = "X-Trace" then some ["1"]
    else none

end Micro

namespace Pipe

/-! ## Theorems about the listener -/

@[simp] theorem holds_idle : holds .idle = false := rfl
@[simp] theorem holds_panicked : holds .panicked = false := rfl
@[simp] theorem holds_accept (p : AcceptPC) : holds (.accept p) = false := rfl
@[simp] theorem holds_dial_lock : holds (.dial .lock) = false := rfl
@[simp] theorem holds_dial_ifClosed : holds (.dial .ifClosed) = true := rfl
@[simp] theorem holds_dial_send : holds (.dial .send) = true := rfl
@[simp] theorem holds_dial_waitAccepted : holds (.dial .waitAccepted) = true := rfl
@[simp] theorem holds_dial_sConnClose : holds (.dial .sConnClose) = true := rfl
@[simp] theorem holds_dial_cConnClose : holds (.dial .cConnClose) = true := rfl
@[simp] theorem holds_dial_unlock (c : Option Conn) : holds (.dial (.unlock c)) = true := rfl
@[simp] theorem holds_dial_ret (c : Option Conn) : holds (.dial (.ret c)) = false := rfl
@[simp] theorem holds_dial_done (c : Option Conn) (e : Option Err) :
    holds (.dial (.done c e)) = false := rfl
@[simp] theorem holds_close_lock : holds (.close .lock) = false := rfl
@[simp] theorem holds_close_ifClosed : holds (.close .ifClosed) = true := rfl
@[simp] theorem holds_close_closeConns : holds (.close .closeConns) = true := rfl
@[simp] theorem holds_close_setClosed : holds (.close .setClosed) = true := rfl
@[simp] theorem holds_close_unlock (e : Option Err) : holds (.close (.unlock e)) = true := rfl
@[simp] theorem holds_close_ret (e : Option Err) : holds (.close (.ret e)) = false := rfl
@[simp] theorem holds_close_done (e : Option Err) : holds (.close (.done e)) = false := rfl

theorem step_rel {w : State} {a : Act} {w' : State} (hs : step w a = some w') :
    StepRel w a w' := by
  cases a with
  | run t =>
    simp only [step] at hs
    split at hs
    · rename_i p hp
      cases p with
      | lock =>
        simp only [InmemoryListener.Dial] at hs
        split at hs
        · simp at hs
        · rename_i hl
          simp at hs hl; subst hs; exact .dLock _ _ hp hl
      | ifClosed =>
        simp only [InmemoryListener.Dial] at hs
        split at hs
        · rename_i hl
          simp at hs hl; subst hs; exact .dOpen _ _ hp hl
        · rename_i hl
          simp at hs hl; subst hs; exact .dClosed _ _ hp hl
      | send =>
        simp only [InmemoryListener.Dial] at hs
        split at hs
        · rename_i hl
          simp at hs; subst hs; exact .dSendPanic _ _ hp hl
        · rename_i hl
          simp at hl
          split at hs
          · rename_i hlen
            simp at hs; subst hs; exact .dSend _ _ hp hl hlen
          · simp at hs
      | waitAccepted =>
        simp only [InmemoryListener.Dial] at hs
        split at hs
        · rename_i hl
          simp at hs; subst hs; exact .dWait _ _ hp hl
        · simp at hs
      | sConnClose =>
        simp only [InmemoryListener.Dial] at hs
        simp at hs; subst hs; exact .dCloseS _ _ hp
      | cConnClose =>
        simp only [InmemoryListener.Dial] at hs
        simp at hs; subst hs; exact .dCloseC _ _ hp
      | unlock c =>
        simp only [InmemoryListener.Dial] at hs
        simp at hs; subst hs; exact .dUnlock _ _ _ hp
      | ret c =>
        cases c with
        | none =>
          simp only [InmemoryListener.Dial] at hs
          simp at hs; subst hs; exact .dRetErr _ _ hp
        | some c =>
          simp only [InmemoryListener.Dial] at hs
          simp at hs; subst hs; exact .dRetOk _ _ _ hp
      | done c e => simp [InmemoryListener.Dial] at hs
    · rename_i p hp
      cases p with
      | recv =>
        simp only [InmemoryListener.Accept] at hs
        split at hs
        · rename_i c rest hb
          simp at hs; subst hs; exact .aRecv _ _ _ _ hp hb
        · rename_i hb
          split at hs
          · rename_i hc
            simp at hs; subst hs; exact .aRecvClosed _ _ hp hb hc
          · simp at hs
      | closeAccepted c =>
        simp only [InmemoryListener.Accept] at hs
        split at hs
        · rename_i hc
          simp at hs; subst hs; exact .aAckPanic _ _ _ hp hc
        · rename_i hc
          simp at hs; subst hs; exact .aAck _ _ _ hp hc
      | retErr =>
        simp only [InmemoryListener.Accept] at hs
        simp at hs; subst hs; exact .aRetErr _ _ hp
      | ret c =>
        simp only [InmemoryListener.Accept] at hs
        simp at hs; subst hs; exact .aRet _ _ _ hp
      | done c e => simp [InmemoryListener.Accept] at hs
    · rename_i p hp
      cases p with
      | lock =>
        simp only [InmemoryListener.Close] at hs
        split at hs
        · simp at hs
        · rename_i hl
          simp at hs hl; subst hs; exact .cLock _ _ hp hl
      | ifClosed =>
        simp only [InmemoryListener.Close] at hs
        split at hs
        · rename_i hl
          simp at hs hl; subst hs; exact .cOpen _ _ hp hl
        · rename_i hl
          simp at hs hl; subst hs; exact .cClosed _ _ hp hl
      | closeConns =>
        simp only [InmemoryListener.Close] at hs
        split at hs
        · rename_i hl
          simp at hs; subst hs; exact .cClosePanic _ _ hp hl
        · rename_i hl
          simp at hs hl; subst hs; exact .cCloseConns _ _ hp hl
      | setClosed =>
        simp only [InmemoryListener.Close] at hs
        simp at hs; subst hs; exact .cSetClosed _ _ hp
      | unlock e =>
        simp only [InmemoryListener.Close] at hs
        simp at hs; subst hs; exact .cUnlock _ _ _ hp
      | ret e =>
        simp only [InmemoryListener.Close] at hs
        simp at hs; subst hs; exact .cRet _ _ _ hp
      | done e => simp [InmemoryListener.Close] at hs
    · simp at hs
    · simp at hs
  | handoff d a =>
    simp only [step, handoffStep] at hs
    split at hs
    · rename_i hd ha
      split at hs
      · rename_i hc
        simp at hs; subst hs; exact .handoff _ _ _ hd ha hc.1 hc.2
      · simp at hs
    · simp at hs

/-- Every transition of the relation is a step of the executable semantics. -/
theorem rel_step {w : State} {a : Act} {w' : State} (hr : StepRel w a w') :
    step w a = some w' := by
  cases hr <;> simp_all [step, InmemoryListener.Dial, InmemoryListener.Accept,
    InmemoryListener.Close, handoffStep]

@[simp] theorem setThr_thr (w : State) (t : Nat) (p : PC) (u : Nat) :
    (setThr w t p).thr u = if u = t then p else w.thr u := rfl
@[simp] theorem setThr_ln (w : State) (t : Nat) (p : PC) : (setThr w t p).ln = w.ln := rfl
@[simp] theorem setThr_accepted (w : State) (t : Nat) (p : PC) :
    (setThr w t p).accepted = w.accepted := rfl
@[simp] theorem setThr_closedConns (w : State) (t : Nat) (p : PC) :
    (setThr w t p).closedConns = w.closedConns := rfl
@[simp] theorem setThr_sent (w : State) (t : Nat) (p : PC) : (setThr w t p).sent = w.sent := rfl
@[simp] theorem setThr_rcvd (w : State) (t : Nat) (p : PC) : (setThr w t p).rcvd = w.rcvd := rfl

@[simp] theorem takenOf_idle : takenOf .idle = none := rfl
@[simp] theorem takenOf_panicked : takenOf .panicked = none := rfl
@[simp] theorem takenOf_dial (p : DialPC) : takenOf (.dial p) = none := rfl
@[simp] theorem takenOf_close (p : ClosePC) : takenOf (.close p) = none := rfl
@[simp] theorem takenOf_recv : takenOf (.accept .recv) = none := rfl
@[simp] theorem takenOf_closeAccepted (c : acceptConn) :
    takenOf (.accept (.closeAccepted c)) = none := rfl
@[simp] theorem takenOf_retErr : takenOf (.accept .retErr) = none := rfl
@[simp] theorem takenOf_ret (c : acceptConn) : takenOf (.accept (.ret c)) = some c.accepted := rfl
@[simp] theorem takenOf_done_none (e : Option Err) : takenOf (.accept (.done none e)) = none := rfl
@[simp] theorem takenOf_done_Conn1 (d : Nat) (e : Option Err) :
    takenOf (.accept (.done (some (Conn.Conn1 d)) e)) = none := rfl
@[simp] theorem takenOf_done_Conn2 (d : Nat) (e : Option Err) :
    takenOf (.accept (.done (some (Conn.Conn2 d)) e)) = some d := rfl

@[simp] theorem Conn.isServer_Conn1 (d : Nat) : (Conn.Conn1 d).isServer = false := rfl
@[simp] theorem Conn.isServer_Conn2 (d : Nat) : (Conn.Conn2 d).isServer = true := rfl

@[simp] theorem mkAcceptConn_conn (d : Nat) : (mkAcceptConn d).conn = Conn.Conn2 d := rfl
@[simp] theorem mkAcceptConn_accepted (d : Nat) : (mkAcceptConn d).accepted = d := rfl

set_option maxHeartbeats 4000000 in
theorem Inv.step_lockHeld {w w' : State} {a : Act} (h : Inv w) (hr : StepRel w a w') :
    ∀ t, holds (w'.thr t) = true → w'.ln.lock = true := by
  intro u hu
  have h1 := h.lockHeld u
  cases a with
  | run t =>
    have h2 := h.lockHeld t
    have h3 := h.holder_unique u t
    by_cases hut : u = t
    · subst hut
      cases hr <;> simp_all
    · cases hr <;> simp_all
  | handoff d a =>
    have h2 := h.lockHeld d
    cases hr
    by_cases hud : u = d <;> by_cases hua : u = a <;> simp_all

set_option maxHeartbeats 4000000 in
theorem Inv.step_holder_unique {w w' : State} {a : Act} (h : Inv w) (hr : StepRel w a w') :
    ∀ t u, holds (w'.thr t) = true → holds (w'.thr u) = true → t = u := by
  intro u v hu hv
  have h1 := h.holder_unique u v
  cases a with
  | run t =>
    have h2 := h.lockHeld u
    have h2 := h.lockHeld v
    have h3 := h.holder_unique u t
    have h3 := h.holder_unique v t
    by_cases hut : u = t
    · subst hut
      by_cases hvt : v = u
      · exact hvt.symm
      · cases hr <;> simp_all
    · by_cases hvt : v = t
      · subst hvt
        cases hr <;> simp_all
      · cases hr <;> simp_all
  | handoff d a =>
    have h3 := h.holder_unique u d
    have h3 := h.holder_unique v d
    cases hr
    by_cases hud : u = d
    · by_cases hvd : v = d
      · rw [hud, hvd]
      · by_cases hva : v = a <;> simp_all
    · by_cases hvd : v = d
      · by_cases hua : u = a <;> simp_all
      · by_cases hua : u = a <;> by_cases hva : v = a <;> simp_all

set_option maxHeartbeats 4000000 in
theorem Inv.step_no_panic {w w' : State} {a : Act} (h : Inv w) (hr : StepRel w a w') :
    ∀ t, w'.thr t ≠ .panicked := by
  intro u
  have h1 := h.no_panic u
  cases a with
  | run t =>
    have h2 := h.open_at t
    have h3 := h.chan_held t
    have h4 := h.claim_pending t
    by_cases hut : u = t
    · subst hut
      cases hr <;> simp_all
    · cases hr <;> simp_all
  | handoff d a =>
    cases hr
    by_cases hud : u = d <;> by_cases hua : u = a <;> simp_all

set_option maxHeartbeats 4000000 in
theorem Inv.step_chan_free {w w' : State} {a : Act} (h : Inv w) (hr : StepRel w a w') :
    w'.ln.lock = false → w'.ln.conns.closed = w'.ln.closed ∧ w'.ln.conns.buf = [] := by
  intro hl
  have h1 := h.chan_free
  cases a with
  | run t =>
    have h2 := h.lockHeld t
    have h3 := h.chan_held t
    have h4 := h.buf_held t
    cases hr <;> simp_all
  | handoff d a =>
    have h2 := h.lockHeld d
    cases hr
    simp_all

set_option maxHeartbeats 4000000 in
theorem Inv.step_chan_held {w w' : State} {a : Act} (h : Inv w) (hr : StepRel w a w') :
    ∀ t, holds (w'.thr t) = true → w'.thr t ≠ .close .setClosed →
      w'.ln.conns.closed = w'.ln.closed := by
  intro u hu hne
  have h1 := h.chan_held u
  have h2 := h.chan_free
  have h3 := h.lockHeld u
  cases a with
  | run t =>
    have h4 := h.holder_unique u t
    have h5 := h.set_closed t
    have h6 := h.chan_held t
    by_cases hut : u = t
    · subst hut
      cases hr <;> simp_all
    · cases hr <;> simp_all
  | handoff d a =>
    cases hr
    by_cases hud : u = d <;> by_cases hua : u = a <;> simp_all

set_option maxHeartbeats 4000000 in
theorem Inv.step_set_closed {w w' : State} {a : Act} (h : Inv w) (hr : StepRel w a w') :
    ∀ t, w'.thr t = .close .setClosed → w'.ln.conns.closed = true ∧ w'.ln.closed = false := by
  intro u hu
  have h1 := h.set_closed u
  have h3 := h.lockHeld u
  cases a with
  | run t =>
    have h4 := h.holder_unique u t
    have h5 := h.open_at t
    by_cases hut : u = t
    · subst hut
      cases hr <;> simp_all
    · cases hr <;> simp_all
  | handoff d a =>
    cases hr
    by_cases hud : u = d <;> by_cases hua : u = a <;> simp_all

set_option maxHeartbeats 4000000 in
theorem Inv.step_open_at {w w' : State} {a : Act} (h : Inv w) (hr : StepRel w a w') :
    ∀ t, w'.thr t = .dial .send ∨ w'.thr t = .dial .waitAccepted ∨
      w'.thr t = .close .closeConns → w'.ln.closed = false := by
  intro u hu
  have h1 := h.open_at u
  have h3 := h.lockHeld u
  cases a with
  | run t =>
    have h4 := h.holder_unique u t
    have h5 := h.open_at t
    by_cases hut : u = t
    · subst hut
      cases hr <;> simp_all
    · cases hr <;> simp_all
      rcases hu with hu | hu | hu <;> simp_all
  | handoff d a =>
    have h5 := h.open_at d
    cases hr
    by_cases hud : u = d <;> by_cases hua : u = a <;> simp_all

set_option maxHeartbeats 4000000 in
theorem Inv.step_closed_chan {w w' : State} {a : Act} (h : Inv w) (hr : StepRel w a w') :
    w'.ln.closed = true → w'.ln.conns.closed = true ∧ w'.ln.conns.buf = [] := by
  intro hc
  have h1 := h.closed_chan
  cases a with
  | run t =>
    have h2 := h.set_closed t
    have h3 := h.buf_held t
    have h4 := h.open_at t
    cases hr <;> simp_all
  | handoff d a =>
    cases hr
    simp_all

theorem Inv.buf_nil_of_acked {w : State} (h : Inv w) (t : Nat)
    (ht : holds (w.thr t) = true) (hacc : w.thr t = .dial .waitAccepted → t ∈ w.accepted) :
    w.ln.conns.buf = [] := by
  by_cases hw : w.thr t = .dial .waitAccepted
  · cases hb : w.ln.conns.buf with
    | nil => rfl
    | cons c rest =>
      have h1 := h.buf_rec c (by simp [hb])
      have h2 := h.holder_unique c.accepted t (by simp [h1.2.1]) ht
      have h3 := hacc hw
      rw [← h2] at h3
      exact absurd h3 h1.2.2
  · exact h.buf_held t ht hw

set_option maxHeartbeats 4000000 in
theorem Inv.step_buf_held {w w' : State} {a : Act} (h : Inv w) (hr : StepRel w a w') :
    ∀ t, holds (w'.thr t) = true → w'.thr t ≠ .dial .waitAccepted → w'.ln.conns.buf = [] := by
  intro u hu hne
  have h1 := h.buf_held u
  have h2 := h.chan_free
  have h3 := h.lockHeld u
  cases a with
  | run t =>
    have h4 := h.holder_unique u t
    have h5 := h.buf_nil_of_acked t
    by_cases hut : u = t
    · subst hut
      cases hr <;> simp_all
    · cases hr <;> simp_all
  | handoff d a =>
    cases hr
    by_cases hud : u = d <;> by_cases hua : u = a <;> simp_all

set_option maxHeartbeats 4000000 in
theorem Inv.step_buf_rec {w w' : State} {a : Act} (h : Inv w) (hr : StepRel w a w') :
    ∀ c ∈ w'.ln.conns.buf, c.conn = Conn.Conn2 c.accepted ∧
      w'.thr c.accepted = .dial .waitAccepted ∧ c.accepted ∉ w'.accepted := by
  intro c hc
  have h1 := h.buf_rec c
  cases a with
  | run t =>
    have h2 := h.buf_held t
    have h3 := h.acked_pc t
    have h4 := h.claim_pending t
    have h5 := h.holder_unique c.accepted t
    by_cases hct : c.accepted = t
    · cases hr <;> simp_all
    · cases hr <;> simp_all
  | handoff d a =>
    cases hr
    simp_all

set_option maxHeartbeats 4000000 in
theorem Inv.step_buf_len {w w' : State} {a : Act} (h : Inv w) (hr : StepRel w a w') :
    w'.ln.conns.buf.length ≤ 1 := by
  have h1 := h.buf_len
  cases a with
  | run t =>
    have h2 := h.buf_held t
    cases hr <;> simp_all
  | handoff d a =>
    cases hr
    simp_all

set_option maxHeartbeats 4000000 in
theorem Inv.step_acked_pc {w w' : State} {a : Act} (h : Inv w) (hr : StepRel w a w') :
    ∀ d ∈ w'.accepted, w'.thr d = .dial .waitAccepted ∨
      w'.thr d = .dial (.unlock (some (Conn.Conn1 d))) ∨
      w'.thr d = .dial (.ret (some (Conn.Conn1 d))) ∨
      w'.thr d = .dial (.done (some (Conn.Conn1 d)) none) := by
  intro d hd
  have h1 := h.acked_pc d
  cases a with
  | run t =>
    have h4 := h.claim_pending t
    by_cases hdt : d = t
    · subst hdt
      cases hr <;> simp_all
    · cases hr <;> simp_all
      rcases hd with hd | hd <;> simp_all
  | handoff x a =>
    cases hr
    by_cases hud : d = x <;> by_cases hua : d = a <;> simp_all

theorem StepRel.handoff_ne {w w' : State} {d a : Nat} (hr : StepRel w (.handoff d a) w') :
    d ≠ a := by
  rintro rfl
  cases hr
  simp_all

set_option maxHeartbeats 4000000 in
theorem Inv.step_claim_pending {w w' : State} {a : Act} (h : Inv w) (hr : StepRel w a w') :
    ∀ a c, w'.thr a = .accept (.closeAccepted c) →
      c.conn = Conn.Conn2 c.accepted ∧
      w'.thr c.accepted = .dial .waitAccepted ∧ c.accepted ∉ w'.accepted ∧
      w'.ln.conns.buf = [] := by
  intro u c hu
  replace hu := hu.symm
  have h1 := h.claim_pending u c
  cases a with
  | run t =>
    have h2 := h.buf_rec
    have h3 := h.buf_len
    have h4 := h.holder_unique c.accepted t
    have h5 := h.claim_pending_unique u t c
    by_cases hut : u = t
    · subst hut
      by_cases hct : c.accepted = u
      · cases hr <;> simp_all
      · cases hr <;> simp_all
    · by_cases hct : c.accepted = t
      · cases hr <;> simp_all
      · cases hr <;> simp_all
  | handoff d a =>
    have h3 := h.acked_pc d
    have h4 := h.holder_unique c.accepted d
    have hda := hr.handoff_ne
    cases hr
    by_cases hud : u = d <;> by_cases hua : u = a <;> by_cases hcd : c.accepted = d <;>
      by_cases hca : c.accepted = a <;> simp_all

set_option maxHeartbeats 4000000 in
theorem Inv.step_claim_pending_unique {w w' : State} {a : Act} (h : Inv w)
    (hr : StepRel w a w') :
    ∀ a b c c', w'.thr a = .accept (.closeAccepted c) →
      w'.thr b = .accept (.closeAccepted c') → a = b := by
  intro u v c c' hu hv
  replace hu := hu.symm
  replace hv := hv.symm
  have h1 := h.claim_pending_unique u v c c'
  have h2 := h.claim_pending u c
  have h3 := h.claim_pending v c'
  cases a with
  | run t =>
    by_cases hut : u = t
    · subst hut
      by_cases hvt : v = u
      · exact hvt.symm
      · cases hr <;> simp_all
    · by_cases hvt : v = t
      · subst hvt
        cases hr <;> simp_all
      · cases hr <;> simp_all
  | handoff d a =>
    have h4 := h.holder_unique c.accepted d
    have h5 := h.holder_unique c'.accepted d
    have hda := hr.handoff_ne
    cases hr
    by_cases hud : u = d
    · by_cases hvd : v = d
      · rw [hud, hvd]
      · by_cases hva : v = a <;> simp_all
    · by_cases hvd : v = d
      · by_cases hua : u = a <;> simp_all
      · by_cases hua : u = a <;> by_cases hva : v = a <;> simp_all

set_option maxHeartbeats 4000000 in
theorem Inv.step_claim_ret {w w' : State} {a : Act} (h : Inv w) (hr : StepRel w a w') :
    ∀ a c, w'.thr a = .accept (.ret c) → c.conn = Conn.Conn2 c.accepted := by
  intro u c hu
  replace hu := hu.symm
  have h1 := h.claim_ret u c
  cases a with
  | run t =>
    have h2 := h.claim_pending t c
    by_cases hut : u = t
    · subst hut
      cases hr <;> simp_all
    · cases hr <;> simp_all
  | handoff d a =>
    cases hr
    by_cases hud : u = d <;> by_cases hua : u = a <;> simp_all

set_option maxHeartbeats 4000000 in
theorem Inv.step_claim_done_err {w w' : State} {a : Act} (h : Inv w) (hr : StepRel w a w') :
    ∀ a e, w'.thr a = .accept (.done none e) → e = some ErrInmemoryListenerClosed := by
  intro u e hu
  replace hu := hu.symm
  have h1 := h.claim_done_err u e
  cases a with
  | run t =>
    by_cases hut : u = t
    · subst hut
      cases hr <;> simp_all
    · cases hr <;> simp_all
  | handoff d a =>
    cases hr
    by_cases hud : u = d <;> by_cases hua : u = a <;> simp_all

set_option maxHeartbeats 4000000 in
theorem Inv.step_claim_done_ok {w w' : State} {a : Act} (h : Inv w) (hr : StepRel w a w') :
    ∀ a x e, w'.thr a = .accept (.done (some x) e) → e = none ∧ x.isServer = true := by
  intro u x e hu
  replace hu := hu.symm
  have h1 := h.claim_done_ok u x e
  cases a with
  | run t =>
    have h2 := h.claim_ret t
    by_cases hut : u = t
    · subst hut
      cases hr <;> simp_all
    · cases hr <;> simp_all
  | handoff d a =>
    cases hr
    by_cases hud : u = d <;> by_cases hua : u = a <;> simp_all

set_option maxHeartbeats 4000000 in
theorem Inv.step_taken_acked {w w' : State} {a : Act} (h : Inv w) (hr : StepRel w a w') :
    ∀ a d, takenOf (w'.thr a) = some d → d ∈ w'.accepted := by
  intro u d hu
  have h1 := h.taken_acked u d
  cases a with
  | run t =>
    have h2 := h.claim_ret t
    by_cases hut : u = t
    · subst hut
      cases hr <;> simp_all
    · cases hr <;> simp_all
  | handoff x a =>
    cases hr
    by_cases hud : u = x <;> by_cases hua : u = a <;> simp_all

set_option maxHeartbeats 4000000 in
theorem Inv.step_taken_unique {w w' : State} {a : Act} (h : Inv w) (hr : StepRel w a w') :
    ∀ a b d, takenOf (w'.thr a) = some d → takenOf (w'.thr b) = some d → a = b := by
  intro u v d hu hv
  have h1 := h.taken_unique u v d
  have h2 := h.taken_acked u d
  have h3 := h.taken_acked v d
  cases a with
  | run t =>
    have h4 := h.claim_pending t
    have h5 := h.claim_ret t
    have h6 := h.taken_unique u t d
    have h7 := h.taken_unique v t d
    by_cases hut : u = t
    · subst hut
      by_cases hvt : v = u
      · exact hvt.symm
      · cases hr <;> simp_all
    · by_cases hvt : v = t
      · subst hvt
        cases hr <;> simp_all
      · cases hr <;> simp_all
  | handoff x a =>
    have hda := hr.handoff_ne
    cases hr
    by_cases hud : u = x
    · by_cases hvd : v = x
      · rw [hud, hvd]
      · by_cases hva : v = a <;> simp_all
    · by_cases hvd : v = x
      · by_cases hua : u = a <;> simp_all
      · by_cases hua : u = a <;> by_cases hva : v = a <;> simp_all

set_option maxHeartbeats 4000000 in
theorem Inv.step_dial_cConn {w w' : State} {a : Act} (h : Inv w) (hr : StepRel w a w') :
    ∀ t x, w'.thr t = .dial (.unlock (some x)) ∨ w'.thr t = .dial (.ret (some x)) →
      x = Conn.Conn1 t ∧ t ∈ w'.accepted := by
  intro u x hu
  have h1 := h.dial_cConn u x
  cases a with
  | run t =>
    by_cases hut : u = t
    · subst hut
      cases hr <;> simp_all
    · cases hr <;> simp_all
  | handoff d a =>
    cases hr
    by_cases hud : u = d <;> by_cases hua : u = a <;> simp_all

set_option maxHeartbeats 4000000 in
theorem Inv.step_dial_done_err {w w' : State} {a : Act} (h : Inv w) (hr : StepRel w a w') :
    ∀ t e, w'.thr t = .dial (.done none e) → e = some ErrInmemoryListenerClosed := by
  intro u e hu
  replace hu := hu.symm
  have h1 := h.dial_done_err u e
  cases a with
  | run t =>
    by_cases hut : u = t
    · subst hut
      cases hr <;> simp_all
    · cases hr <;> simp_all
  | handoff d a =>
    cases hr
    by_cases hud : u = d <;> by_cases hua : u = a <;> simp_all

set_option maxHeartbeats 4000000 in
theorem Inv.step_dial_done_ok {w w' : State} {a : Act} (h : Inv w) (hr : StepRel w a w') :
    ∀ t x e, w'.thr t = .dial (.done (some x) e) →
      x = Conn.Conn1 t ∧ e = none ∧ t ∈ w'.accepted := by
  intro u x e hu
  replace hu := hu.symm
  have h1 := h.dial_done_ok u x e
  cases a with
  | run t =>
    have h2 := h.dial_cConn t
    by_cases hut : u = t
    · subst hut
      cases hr <;> simp_all
    · cases hr <;> simp_all
  | handoff d a =>
    cases hr
    by_cases hud : u = d <;> by_cases hua : u = a <;> simp_all

theorem StepRel.thr_other {w w' : State} {t u : Nat} (hr : StepRel w (.run t) w')
    (hut : u ≠ t) : w'.thr u = w.thr u := by
  cases hr <;> simp [hut]

theorem StepRel.closed_mono {w w' : State} {a : Act} (hr : StepRel w a w')
    (hc : w.ln.closed = true) : w'.ln.closed = true := by
  cases hr <;> simp_all

theorem StepRel.thr_other2 {w w' : State} {d a u : Nat} (hr : StepRel w (.handoff d a) w')
    (hud : u ≠ d) (hua : u ≠ a) : w'.thr u = w.thr u := by
  cases hr
  simp [hud, hua]

set_option maxHeartbeats 4000000 in
theorem Inv.step_close_err {w w' : State} {a : Act} (h : Inv w) (hr : StepRel w a w') :
    ∀ t e, w'.thr t = .close (.unlock e) ∨ w'.thr t = .close (.ret e) ∨
      w'.thr t = .close (.done e) →
      (∀ x, e = some x → x = ErrInmemoryListenerClosed) ∧ w'.ln.closed = true := by
  intro u e hu
  cases a with
  | run t =>
    by_cases hut : u = t
    · subst hut
      have h3 := h.close_err u
      cases hr <;> simp_all <;> first | assumption | (subst hu; simp_all)
    · rw [hr.thr_other hut] at hu
      exact ⟨(h.close_err u e hu).1, hr.closed_mono (h.close_err u e hu).2⟩
  | handoff d a =>
    by_cases hud : u = d
    · cases hr
      by_cases hua : u = a <;> simp_all
    · by_cases hua : u = a
      · cases hr
        simp_all
      · rw [hr.thr_other2 hud hua] at hu
        exact ⟨(h.close_err u e hu).1, hr.closed_mono (h.close_err u e hu).2⟩

set_option maxHeartbeats 4000000 in
theorem Inv.step_hist {w w' : State} {a : Act} (h : Inv w) (hr : StepRel w a w') :
    w'.sent = w'.rcvd.map Prod.snd ++ w'.ln.conns.buf := by
  have h1 := h.hist
  cases hr <;> simp_all

set_option maxHeartbeats 4000000 in
theorem Inv.step_hist_rcvd {w w' : State} {a : Act} (h : Inv w) (hr : StepRel w a w') :
    ∀ p ∈ w'.rcvd, w'.thr p.1 = .accept (.closeAccepted p.2) ∨
      w'.thr p.1 = .accept (.ret p.2) ∨ w'.thr p.1 = .accept (.done (some p.2.conn) none) := by
  intro p hp
  have h1 := h.hist_rcvd p
  cases a with
  | run t =>
    have h2 := h.claim_pending t
    by_cases hpt : p.1 = t
    · cases hr <;> simp_all
    · cases hr <;> simp_all
      rcases hp with hp | hp <;> simp_all
  | handoff d a =>
    have hda := hr.handoff_ne
    cases hr
    by_cases hud : p.1 = d <;> by_cases hua : p.1 = a <;> simp_all
    rcases hp with hp | hp <;> simp_all

set_option maxHeartbeats 4000000 in
theorem Inv.step_hist_sent {w w' : State} {a : Act} (h : Inv w) (hr : StepRel w a w') :
    ∀ d, w'.thr d = .dial .waitAccepted ∨ d ∈ w'.accepted → mkAcceptConn d ∈ w'.sent := by
  intro d hd
  have h1 := h.hist_sent d
  cases a with
  | run t =>
    have h2 := h.claim_pending t
    have h3 := h.hist_sent
    by_cases hdt : d = t
    · subst hdt
      cases hr <;> simp_all
      rcases hd with hd | hd <;> simp_all
    · cases hr <;> simp_all
      aesop
  | handoff x a =>
    have hda := hr.handoff_ne
    cases hr
    by_cases hud : d = x <;> by_cases hua : d = a <;> simp_all

set_option maxHeartbeats 4000000 in
theorem Inv.step_sent_rec {w w' : State} {a : Act} (h : Inv w) (hr : StepRel w a w') :
    ∀ c ∈ w'.sent, c.conn = Conn.Conn2 c.accepted := by
  intro c hc
  have h1 := h.sent_rec c
  cases hr <;> simp_all
  · rcases hc with hc | hc <;> simp_all
  · rcases hc with hc | hc <;> simp_all

/-- The invariant is preserved by every transition. -/
theorem Inv.rel {w w' : State} {a : Act} (h : Inv w) (hr : StepRel w a w') : Inv w' where
  lockHeld := h.step_lockHeld hr
  holder_unique := h.step_holder_unique hr
  no_panic := h.step_no_panic hr
  chan_free := h.step_chan_free hr
  chan_held := h.step_chan_held hr
  set_closed := h.step_set_closed hr
  open_at := h.step_open_at hr
  closed_chan := h.step_closed_chan hr
  buf_held := h.step_buf_held hr
  buf_rec := h.step_buf_rec hr
  buf_len := h.step_buf_len hr
  acked_pc := h.step_acked_pc hr
  claim_pending := h.step_claim_pending hr
  claim_pending_unique := h.step_claim_pending_unique hr
  claim_ret := h.step_claim_ret hr
  claim_done_err := h.step_claim_done_err hr
  claim_done_ok := h.step_claim_done_ok hr
  taken_acked := h.step_taken_acked hr
  taken_unique := h.step_taken_unique hr
  dial_cConn := h.step_dial_cConn hr
  dial_done_err := h.step_dial_done_err hr
  dial_done_ok := h.step_dial_done_ok hr
  close_err := h.step_close_err hr
  hist := h.step_hist hr
  hist_rcvd := h.step_hist_rcvd hr
  hist_sent := h.step_hist_sent hr
  sent_rec := h.step_sent_rec hr

/-- The invariant is preserved by every schedule. -/
theorem Inv.of_exec {sched : List Act} {w w' : State} (h : Inv w)
    (he : exec sched w = some w') : Inv w' := by
  induction sched generalizing w with
  | nil =>
    simp only [Pipe.exec, Option.some.injEq] at he
    exact he ▸ h
  | cons a rest ih =>
    simp only [Pipe.exec] at he
    cases hs : step w a with
    | none => simp [hs] at he
    | some w1 =>
      rw [hs] at he
      exact ih (h.rel (step_rel hs)) he

/-- A thread of the start state is idle or at the entry of its call. -/
theorem startOn_thr (ln : InmemoryListener) (calls : List Call) (t : Nat) :
    (startOn ln calls).thr t = .idle ∨ (startOn ln calls).thr t = .dial .lock ∨
    (startOn ln calls).thr t = .accept .recv ∨ (startOn ln calls).thr t = .close .lock := by
  simp only [startOn]
  cases calls[t]? with
  | none => simp
  | some c => cases c <;> simp [Call.entry]

/-- A fresh listener is unlocked, open and empty. -/
theorem NewInmemoryListener_fresh {opts : Option Options} {ln : InmemoryListener}
    (h : NewInmemoryListener opts = some ln) :
    ln.lock = false ∧ ln.closed = false ∧ ln.conns.buf = [] ∧ ln.conns.closed = false := by
  unfold NewInmemoryListener at h
  simp only at h
  split at h
  · cases h
  · cases h
    simp

/-- The invariant holds when the calls start on a fresh listener. -/
theorem Inv.start {opts : Option Options} {calls : List Call} {w0 : State}
    (h : start opts calls = some w0) : Inv w0 := by
  unfold Pipe.start at h
  cases hn : NewInmemoryListener opts with
  | none => simp [hn] at h
  | some ln =>
    simp only [hn, Option.map_some', Option.some.injEq] at h
    subst h
    obtain ⟨h1, h2, h3, h4⟩ := NewInmemoryListener_fresh hn
    have hthr := startOn_thr ln calls
    have e1 : (startOn ln calls).ln = ln := rfl
    have e2 : (startOn ln calls).accepted = [] := rfl
    have e3 : (startOn ln calls).sent = [] := rfl
    have e4 : (startOn ln calls).rcvd = [] := rfl
    constructor
    · intro t ht; rcases hthr t with e | e | e | e <;> simp [e] at ht
    · intro t u ht; rcases hthr t with e | e | e | e <;> simp [e] at ht
    · intro t; rcases hthr t with e | e | e | e <;> simp [e]
    · intro _; simp [e1, h2, h3, h4]
    · intro t ht; rcases hthr t with e | e | e | e <;> simp [e] at ht
    · intro t ht; rcases hthr t with e | e | e | e <;> simp [e] at ht
    · intro t ht; rcases hthr t with e | e | e | e <;> simp [e] at ht
    · intro hc; simp [e1, h2] at hc
    · intro t ht; rcases hthr t with e | e | e | e <;> simp [e] at ht
    · intro c hc; simp [e1, h3] at hc
    · simp [e1, h3]
    · intro d hd; simp [e2] at hd
    · intro t c ht; rcases hthr t with e | e | e | e <;> simp [e] at ht
    · intro t u c c' ht; rcases hthr t with e | e | e | e <;> simp [e] at ht
    · intro t c ht; rcases hthr t with e | e | e | e <;> simp [e] at ht
    · intro t c ht; rcases hthr t with e | e | e | e <;> simp [e] at ht
    · intro t x c ht; rcases hthr t with e | e | e | e <;> simp [e] at ht
    · intro t d ht; rcases hthr t with e | e | e | e <;> simp [e] at ht
    · intro t u d ht; rcases hthr t with e | e | e | e <;> simp [e] at ht
    · intro t x ht; rcases hthr t with e | e | e | e <;> simp [e] at ht
    · intro t x ht; rcases hthr t with e | e | e | e <;> simp [e] at ht
    · intro t x c ht; rcases hthr t with e | e | e | e <;> simp [e] at ht
    · intro t x ht; rcases hthr t with e | e | e | e <;> simp [e] at ht
    · simp [e1, e3, e4, h3]
    · intro p hp; simp [e4] at hp
    · intro t ht; rcases hthr t with e | e | e | e <;> simp [e, e2] at ht
    · intro c hc; simp [e3] at hc

/-- Every reachable state satisfies the invariant. -/
theorem Reachable.inv {w : State} (hr : Reachable w) : Inv w := by
  obtain ⟨opts, calls, w0, sched, h0, he⟩ := hr
  exact (Inv.start h0).of_exec he

/-- Reachability is closed under schedules. -/
theorem exec_append (s1 s2 : List Act) (w : State) :
    exec (s1 ++ s2) w = (exec s1 w).bind (exec s2) := by
  induction s1 generalizing w with
  | nil => simp [exec]
  | cons a rest ih =>
    simp only [List.cons_append, exec]
    cases step w a with
    | none => simp
    | some w1 => simp [ih]

theorem Reachable.after {sched : List Act} {w w' : State} (hr : Reachable w)
    (he : exec sched w = some w') : Reachable w' := by
  obtain ⟨opts, calls, w0, s0, h0, h1⟩ := hr
  exact ⟨opts, calls, w0, s0 ++ sched, h0, by rw [exec_append, h1]; exact he⟩

theorem setThr_self (w : State) (t : Nat) (p : PC) : (setThr w t p).thr t = p := by
  simp

/-- One transition of thread `t` is one iteration of `runToDone`. -/
theorem runToDone_rel (fuel : Nat) {t : Nat} {w w1 : State} (hr : StepRel w (.run t) w1) :
    runToDone (fuel + 1) t w = runToDone fuel t w1 := by
  have hs := rel_step hr
  cases hr <;> simp_all [runToDone]

/-- A close call that has returned stops `runToDone`. -/
theorem runToDone_close_done (fuel : Nat) {t : Nat} {w : State} {e : Option Err}
    (h : w.thr t = .close (.done e)) : runToDone (fuel + 1) t w = some w := by
  simp [runToDone, h]

/-- A dial call that has returned stops `runToDone`. -/
theorem runToDone_dial_done (fuel : Nat) {t : Nat} {w : State} {c : Option Conn}
    {e : Option Err} (h : w.thr t = .dial (.done c e)) : runToDone (fuel + 1) t w = some w := by
  simp [runToDone, h]

/-- An accept call that has returned stops `runToDone`. -/
theorem runToDone_accept_done (fuel : Nat) {t : Nat} {w : State} {c : Option Conn}
    {e : Option Err} (h : w.thr t = .accept (.done c e)) :
    runToDone (fuel + 1) t w = some w := by
  simp [runToDone, h]

/-- A `Close` call made on an open, unlocked listener runs to its return without
blocking: it closes `conns`, sets the flag, and returns nil. -/
theorem close_on_open (w : State) (t : Nat) (hl : w.ln.lock = false)
    (hc : w.ln.closed = false) (hcc : w.ln.conns.closed = false)
    (ht : w.thr t = .close .lock) :
    ∃ w', runToDone 8 t w = some w' ∧ w'.thr t = .close (.done none) ∧
      w'.ln = { w.ln with closed := true, conns := { w.ln.conns with closed := true } } ∧
      w'.accepted = w.accepted ∧ w'.closedConns = w.closedConns ∧
      w'.sent = w.sent ∧ w'.rcvd = w.rcvd ∧
      ∀ u, u ≠ t → w'.thr u = w.thr u := by
  refine Exists.intro ?w ⟨?h1, ?h2⟩
  case h1 =>
    rw [runToDone_rel 7 (StepRel.cLock w t ht hl)]
    rw [runToDone_rel 6 (StepRel.cOpen _ t ?_ ?_)]
    rw [runToDone_rel 5 (StepRel.cCloseConns _ t ?_ ?_)]
    rw [runToDone_rel 4 (StepRel.cSetClosed _ t ?_)]
    rw [runToDone_rel 3 (StepRel.cUnlock _ t none ?_)]
    rw [runToDone_rel 2 (StepRel.cRet _ t none ?_)]
    exact runToDone_close_done 1 (setThr_self _ _ _)
    all_goals simp [hc, hcc]
  refine ⟨by simp, ?_, rfl, rfl, rfl, rfl, ?_⟩
  · rcases hw : w.ln with ⟨l, c, cs, o⟩
    simp_all
  · intro u hu
    simp [hu]

/-- A `Close` call made on a closed, unlocked listener runs to its return without
blocking, returns `ErrInmemoryListenerClosed` and changes nothing but its own
program counter. -/
theorem close_on_closed (w : State) (t : Nat) (hl : w.ln.lock = false)
    (hc : w.ln.closed = true) (ht : w.thr t = .close .lock) :
    ∃ w', runToDone 8 t w = some w' ∧
      w'.thr t = .close (.done (some ErrInmemoryListenerClosed)) ∧
      w'.ln = w.ln ∧ w'.accepted = w.accepted ∧ w'.closedConns = w.closedConns ∧
      w'.sent = w.sent ∧ w'.rcvd = w.rcvd ∧
      ∀ u, u ≠ t → w'.thr u = w.thr u := by
  refine Exists.intro ?w ⟨?h1, ?h2⟩
  case h1 =>
    rw [runToDone_rel 7 (StepRel.cLock w t ht hl)]
    rw [runToDone_rel 6 (StepRel.cClosed _ t ?_ ?_)]
    rw [runToDone_rel 5 (StepRel.cUnlock _ t (some ErrInmemoryListenerClosed) ?_)]
    rw [runToDone_rel 4 (StepRel.cRet _ t (some ErrInmemoryListenerClosed) ?_)]
    exact runToDone_close_done 3 (setThr_self _ _ _)
    all_goals simp [hc]
  refine ⟨by simp, ?_, rfl, rfl, rfl, rfl, ?_⟩
  · rcases hw : w.ln with ⟨l, c, cs, o⟩
    simp_all
  · intro u hu
    simp [hu]

/-- A `Dial` call made on a closed, unlocked listener runs to its return without
blocking: it closes both endpoints of its pair, sends nothing, and returns
`(nil, ErrInmemoryListenerClosed)`. -/
theorem dial_on_closed (w : State) (t : Nat) (hl : w.ln.lock = false)
    (hc : w.ln.closed = true) (ht : w.thr t = .dial .lock) :
    ∃ w', runToDone 8 t w = some w' ∧
      w'.thr t = .dial (.done none (some ErrInmemoryListenerClosed)) ∧
      w'.ln = w.ln ∧ w'.accepted = w.accepted ∧
      w'.closedConns = Conn.Conn1 t :: Conn.Conn2 t :: w.closedConns ∧
      w'.sent = w.sent ∧ w'.rcvd = w.rcvd ∧
      ∀ u, u ≠ t → w'.thr u = w.thr u := by
  refine Exists.intro ?w ⟨?h1, ?h2⟩
  case h1 =>
    rw [runToDone_rel 7 (StepRel.dLock w t ht hl)]
    rw [runToDone_rel 6 (StepRel.dClosed _ t ?_ ?_)]
    rw [runToDone_rel 5 (StepRel.dCloseS _ t ?_)]
    rw [runToDone_rel 4 (StepRel.dCloseC _ t ?_)]
    rw [runToDone_rel 3 (StepRel.dUnlock _ t none ?_)]
    rw [runToDone_rel 2 (StepRel.dRetErr _ t ?_)]
    exact runToDone_dial_done 1 (setThr_self _ _ _)
    all_goals simp [hc]
  refine ⟨by simp, ?_, rfl, rfl, rfl, rfl, ?_⟩
  · rcases hw : w.ln with ⟨l, c, cs, o⟩
    simp_all
  · intro u hu
    simp [hu]

/-- A `Dial` call that has locked the mutex of a closed listener runs to its return
without blocking: it closes both endpoints of its pair, sends nothing, unlocks, and
returns `(nil, ErrInmemoryListenerClosed)`. -/
theorem dial_on_closed_locked (w : State) (t : Nat)
    (hc : w.ln.closed = true) (ht : w.thr t = .dial .ifClosed) :
    ∃ w', runToDone 8 t w = some w' ∧
      w'.thr t = .dial (.done none (some ErrInmemoryListenerClosed)) ∧
      w'.ln = { w.ln with lock := false } ∧ w'.accepted = w.accepted ∧
      w'.closedConns = Conn.Conn1 t :: Conn.Conn2 t :: w.closedConns ∧
      w'.sent = w.sent ∧ w'.rcvd = w.rcvd ∧
      ∀ u, u ≠ t → w'.thr u = w.thr u := by
  refine Exists.intro ?w ⟨?h1, ?h2⟩
  case h1 =>
    rw [runToDone_rel 7 (StepRel.dClosed w t ht hc)]
    rw [runToDone_rel 6 (StepRel.dCloseS _ t ?_)]
    rw [runToDone_rel 5 (StepRel.dCloseC _ t ?_)]
    rw [runToDone_rel 4 (StepRel.dUnlock _ t none ?_)]
    rw [runToDone_rel 3 (StepRel.dRetErr _ t ?_)]
    exact runToDone_dial_done 2 (setThr_self _ _ _)
    all_goals simp
  refine ⟨by simp, rfl, rfl, rfl, rfl, rfl, ?_⟩
  intro u hu
  simp [hu]

/-- An `Accept` call whose receive finds `conns` closed and empty runs to its return
without blocking and returns `(nil, ErrInmemoryListenerClosed)`. -/
theorem accept_on_closed (w : State) (t : Nat) (hb : w.ln.conns.buf = [])
    (hcc : w.ln.conns.closed = true) (ht : w.thr t = .accept .recv) :
    ∃ w', runToDone 8 t w = some w' ∧
      w'.thr t = .accept (.done none (some ErrInmemoryListenerClosed)) ∧
      w'.ln = w.ln ∧ w'.accepted = w.accepted ∧ w'.closedConns = w.closedConns ∧
      w'.sent = w.sent ∧ w'.rcvd = w.rcvd ∧
      ∀ u, u ≠ t → w'.thr u = w.thr u := by
  refine Exists.intro ?w ⟨?h1, ?h2⟩
  case h1 =>
    rw [runToDone_rel 7 (StepRel.aRecvClosed w t ht hb hcc)]
    rw [runToDone_rel 6 (StepRel.aRetErr _ t ?_)]
    exact runToDone_accept_done 5 (setThr_self _ _ _)
    all_goals simp
  refine ⟨by simp, rfl, rfl, rfl, rfl, rfl, ?_⟩
  intro u hu
  simp [hu]

theorem runSeq_append (l1 l2 : List Nat) (w : State) :
    runSeq (l1 ++ l2) w = (runSeq l1 w).bind (runSeq l2) := by
  induction l1 generalizing w with
  | nil => simp [runSeq]
  | cons t rest ih =>
    simp only [List.cons_append, runSeq]
    cases runToDone 8 t w with
    | none => simp
    | some w1 => simp [ih]

/-- After the first `k ≥ 1` of `N` sequential `Close` calls on a fresh listener the
listener is closed and unlocked and the later threads have not moved. -/
theorem closes_in_sequence (opts : Option Options) (N : Nat) (w0 : State)
    (h0 : start opts (List.replicate N Call.Close) = some w0) (k : Nat) (hk : k + 1 ≤ N) :
    ∃ wk, runSeq (List.range (k + 1)) w0 = some wk ∧ wk.ln.closed = true ∧
      wk.ln.lock = false ∧ ∀ u, k + 1 ≤ u → wk.thr u = w0.thr u := by
  have hinv := Inv.start h0
  unfold start at h0
  cases hn : NewInmemoryListener opts with
  | none => simp [hn] at h0
  | some ln =>
    simp only [hn, Option.map_some', Option.some.injEq] at h0
    obtain ⟨f1, f2, f3, f4⟩ := NewInmemoryListener_fresh hn
    have hthr : ∀ u, u < N → w0.thr u = .close .lock := by
      intro u hu
      subst h0
      simp [startOn, List.getElem?_replicate, hu, Call.entry]
    have hln : w0.ln = ln := by subst h0; rfl
    induction k with
    | zero =>
      obtain ⟨w1, r1, r2, r3, -, -, -, -, r4⟩ :=
        close_on_open w0 0 (by rw [hln]; exact f1) (by rw [hln]; exact f2)
          (by rw [hln]; exact f4) (hthr 0 (by omega))
      refine ⟨w1, ?_, ?_, ?_, ?_⟩
      · simp [runSeq, r1]
      · rw [r3]
      · rw [r3]; simp [hln, f1]
      · intro u hu
        exact r4 u (by omega)
    | succ k ih =>
      obtain ⟨wk, s1, s2, s3, s4⟩ := ih (by omega)
      obtain ⟨w1, r1, r2, r3, -, -, -, -, r4⟩ :=
        close_on_closed wk (k + 1) s3 s2 (by rw [s4 (k + 1) (by omega)]; exact hthr _ (by omega))
      refine ⟨w1, ?_, ?_, ?_, ?_⟩
      · rw [List.range_succ, runSeq_append, s1]
        simp [runSeq, r1]
      · rw [r3]; exact s2
      · rw [r3]; exact s3
      · intro u hu
        rw [r4 u (by omega), s4 u (by omega)]

/-- A record is a `mkAcceptConn` once its server endpoint is known to belong to the
pair named by its channel. -/
theorem acceptConn_eq_mk {c : acceptConn} (h : c.conn = Conn.Conn2 c.accepted) :
    c = mkAcceptConn c.accepted := by
  cases c
  simp_all [mkAcceptConn]

/-- In a reachable state the two kinds of claim on one record exclude each other and
each kind has at most one holder. -/
theorem Inv.claimed_unique {w : State} (h : Inv w) {a b d : Nat}
    (ha : Claimed w a d) (hb : Claimed w b d) : a = b := by
  have pa := h.claim_pending a (mkAcceptConn d)
  have pb := h.claim_pending b (mkAcceptConn d)
  have ta := h.taken_acked a d
  have tb := h.taken_acked b d
  have u1 := h.claim_pending_unique a b (mkAcceptConn d) (mkAcceptConn d)
  have u2 := h.taken_unique a b d
  rcases ha with ha | ha | ha <;> rcases hb with hb | hb | hb <;> simp_all

/-- A record that has been sent is still queued or has been received by an `Accept`
that claims it. -/
theorem Inv.sent_cases {w : State} (h : Inv w) {d : Nat} (hd : mkAcceptConn d ∈ w.sent) :
    mkAcceptConn d ∈ w.ln.conns.buf ∨ ∃ a, Claimed w a d := by
  rw [h.hist, List.mem_append] at hd
  rcases hd with hd | hd
  · right
    obtain ⟨p, hp, hpd⟩ := List.mem_map.1 hd
    have h1 := h.hist_rcvd p hp
    rw [hpd] at h1
    exact ⟨p.1, h1⟩
  · exact Or.inl hd

/-- An acknowledged record has been claimed by an `Accept` that is past its
acknowledgment. -/
theorem Inv.acked_taken {w : State} (h : Inv w) {d : Nat} (hd : d ∈ w.accepted) :
    ∃ a, w.thr a = .accept (.ret (mkAcceptConn d)) ∨
      w.thr a = .accept (.done (some (Conn.Conn2 d)) none) := by
  rcases h.sent_cases (h.hist_sent d (Or.inr hd)) with hb | ⟨a, ha⟩
  · exact absurd hd (h.buf_rec _ hb).2.2
  · rcases ha with ha | ha
    · exact absurd hd (h.claim_pending a _ ha).2.2.1
    · exact ⟨a, ha⟩

/-- Claim C1: `Close` is idempotent. For every `N ≥ 1` sequential `Close` calls on a fresh
listener (any options), the first call finds the listener open, runs to its return
without blocking, returns nil and leaves the listener closed with `conns` closed;
every later call `k` (made after calls `0 .. k-1` have returned) runs to its return,
returns `ErrInmemoryListenerClosed`, and leaves the listener, the acknowledgment
channels and the pipe endpoints exactly as it found them. -/
theorem close_idempotent (opts : Option Options) (N : Nat) (hN : 1 ≤ N) (w0 : State)
    (h0 : start opts (List.replicate N Call.Close) = some w0) :
    w0.ln.closed = false ∧ w0.ln.conns.closed = false ∧
    (∃ w1, runToDone 8 0 w0 = some w1 ∧ w1.thr 0 = .close (.done none) ∧
      w1.ln.closed = true ∧ w1.ln.conns.closed = true) ∧
    ∀ k, 1 ≤ k → k < N → ∃ wk wk', runSeq (List.range k) w0 = some wk ∧
      runToDone 8 k wk = some wk' ∧
      wk'.thr k = .close (.done (some ErrInmemoryListenerClosed)) ∧
      wk'.ln = wk.ln ∧ wk'.accepted = wk.accepted ∧ wk'.closedConns = wk.closedConns := by
  have hthr : ∀ u, u < N → w0.thr u = .close .lock := by
    intro u hu
    unfold start at h0
    cases hn : NewInmemoryListener opts with
    | none => simp [hn] at h0
    | some ln =>
      simp only [hn, Option.map_some', Option.some.injEq] at h0
      subst h0
      simp [startOn, List.getElem?_replicate, hu, Call.entry]
  have hfresh : w0.ln.lock = false ∧ w0.ln.closed = false ∧ w0.ln.conns.closed = false := by
    unfold start at h0
    cases hn : NewInmemoryListener opts with
    | none => simp [hn] at h0
    | some ln =>
      simp only [hn, Option.map_some', Option.some.injEq] at h0
      subst h0
      obtain ⟨f1, f2, -, f4⟩ := NewInmemoryListener_fresh hn
      exact ⟨f1, f2, f4⟩
  refine ⟨hfresh.2.1, hfresh.2.2, ?_, ?_⟩
  · obtain ⟨w1, r1, r2, r3, -⟩ :=
      close_on_open w0 0 hfresh.1 hfresh.2.1 hfresh.2.2 (hthr 0 (by omega))
    exact ⟨w1, r1, r2, by rw [r3], by rw [r3]⟩
  · intro k hk1 hkN
    obtain ⟨j, rfl⟩ : ∃ j, k = j + 1 := ⟨k - 1, by omega⟩
    obtain ⟨wk, s1, s2, s3, s4⟩ := closes_in_sequence opts N w0 h0 j (by omega)
    obtain ⟨wk', r1, r2, r3, r4, r5, -⟩ :=
      close_on_closed wk (j + 1) s3 s2 (by rw [s4 (j + 1) (by omega)]; exact hthr _ hkN)
    exact ⟨wk, wk', s1, r1, r2, r3, r4, r5⟩

/-- Claim C2: `Dial` on a closed listener. In every state whose `closed` flag is set, a
`Dial` call that is about to lock the free mutex, or that has locked it and is about
to read the flag, runs to its return without blocking, returns
`(nil, ErrInmemoryListenerClosed)` (so the client endpoint is not returned), has
called `Close` on both the client and the server endpoint of the pair it made, and
has sent no record: `conns` and the send history are unchanged, the flag is still
set and the mutex is free. -/
theorem dial_closed_fails (w : State) (t : Nat) (hc : w.ln.closed = true)
    (ht : (w.thr t = .dial .lock ∧ w.ln.lock = false) ∨ w.thr t = .dial .ifClosed) :
    ∃ w', runToDone 8 t w = some w' ∧
      w'.thr t = .dial (.done none (some ErrInmemoryListenerClosed)) ∧
      Conn.Conn1 t ∈ w'.closedConns ∧ Conn.Conn2 t ∈ w'.closedConns ∧
      w'.ln.conns = w.ln.conns ∧ w'.sent = w.sent ∧ w'.ln.closed = true ∧
      w'.ln.lock = false := by
  rcases ht with ⟨ht, hl⟩ | ht
  · obtain ⟨w', r1, r2, r3, -, r5, r6, -⟩ := dial_on_closed w t hl hc ht
    refine ⟨w', r1, r2, ?_, ?_, by rw [r3], r6, by rw [r3]; exact hc, by rw [r3]; exact hl⟩
    · rw [r5]; simp
    · rw [r5]; simp
  · obtain ⟨w', r1, r2, r3, -, r5, r6, -⟩ := dial_on_closed_locked w t hc ht
    refine ⟨w', r1, r2, ?_, ?_, by rw [r3], r6, by rw [r3]; exact hc, by rw [r3]⟩
    · rw [r5]; simp
    · rw [r5]; simp

/-- The `closed` flag is never reset by a schedule. -/
theorem exec_closed_mono {sched : List Act} {w w' : State} (he : exec sched w = some w')
    (hc : w.ln.closed = true) : w'.ln.closed = true := by
  induction sched generalizing w with
  | nil =>
    simp only [exec, Option.some.injEq] at he
    exact he ▸ hc
  | cons a rest ih =>
    simp only [exec] at he
    cases hs : step w a with
    | none => simp [hs] at he
    | some w1 =>
      rw [hs] at he
      exact ih he ((step_rel hs).closed_mono hc)

/-- Claim C3: closed is terminal. In a reachable state in which some `Close` call has
returned, and in every state any further schedule leads to, the `closed` flag is
set, `conns` holds no record, no `Accept` holds an unacknowledged record, and every
`Accept` call that is at its receive runs to its return without blocking and
returns `(nil, ErrInmemoryListenerClosed)`. -/
theorem closed_is_terminal (w : State) (hr : Reachable w) (t : Nat) (e : Option Err)
    (ht : w.thr t = .close (.done e)) (sched : List Act) (w' : State)
    (he : exec sched w = some w') :
    w'.ln.closed = true ∧ w'.ln.conns.buf = [] ∧
    (∀ a c, w'.thr a ≠ .accept (.closeAccepted c)) ∧
    ∀ a, w'.thr a = .accept .recv → ∃ w'', runToDone 8 a w' = some w'' ∧
      w''.thr a = .accept (.done none (some ErrInmemoryListenerClosed)) := by
  have hc : w.ln.closed = true := (hr.inv.close_err t e (Or.inr (Or.inr ht))).2
  have hc' := exec_closed_mono he hc
  have hi := (hr.after he).inv
  obtain ⟨hcc, hb⟩ := hi.closed_chan hc'
  refine ⟨hc', hb, ?_, ?_⟩
  · intro a c ha
    have h1 := hi.claim_pending a c ha
    have h2 := hi.open_at c.accepted (Or.inr (Or.inl h1.2.1))
    rw [hc'] at h2
    cases h2
  · intro a ha
    obtain ⟨w'', r1, r2, -⟩ := accept_on_closed w' a hb hcc ha
    exact ⟨w'', r1, r2⟩

/-- Claim C4: a record is claimed exactly once. In every reachable state no thread has
panicked (so no `accepted` channel was closed twice and nothing was sent on a
closed `conns`), and every record that a `Dial` call `d` has sent is either still
queued in `conns` and claimed by nobody, or no longer queued and claimed by exactly
one `Accept` call, which returns the server endpoint `Conn2 d` stored in that
record; the acknowledgment of `d` has been signalled exactly when an `Accept` that
claimed the record is past its `close(c.accepted)`. -/
theorem handoff_claimed_once (w : State) (hr : Reachable w) :
    (∀ t, w.thr t ≠ .panicked) ∧
    (∀ d, mkAcceptConn d ∈ w.sent →
      (mkAcceptConn d ∈ w.ln.conns.buf ∧ ∀ a, ¬ Claimed w a d) ∨
      (mkAcceptConn d ∉ w.ln.conns.buf ∧ ∃ a, Claimed w a d ∧ ∀ b, Claimed w b d → b = a)) ∧
    (∀ d, d ∈ w.accepted ↔ ∃ a, w.thr a = .accept (.ret (mkAcceptConn d)) ∨
      w.thr a = .accept (.done (some (Conn.Conn2 d)) none)) := by
  have h := hr.inv
  have hexcl : ∀ d, mkAcceptConn d ∈ w.ln.conns.buf → ∀ a, ¬ Claimed w a d := by
    intro d hb a ha
    have h1 := h.buf_rec _ hb
    rcases ha with ha | ha | ha
    · have h2 := (h.claim_pending a _ ha).2.2.2
      rw [h2] at hb
      cases hb
    · exact h1.2.2 (h.taken_acked a d (by rw [ha]; rfl))
    · exact h1.2.2 (h.taken_acked a d (by rw [ha]; rfl))
  refine ⟨h.no_panic, ?_, ?_⟩
  · intro d hd
    rcases h.sent_cases hd with hb | ⟨a, ha⟩
    · exact Or.inl ⟨hb, hexcl d hb⟩
    · refine Or.inr ⟨fun hb => hexcl d hb a ha, a, ha, fun b hb => h.claimed_unique hb ha⟩
  · intro d
    constructor
    · exact fun hd => h.acked_taken hd
    · rintro ⟨a, ha | ha⟩
      · exact h.taken_acked a d (by rw [ha]; rfl)
      · exact h.taken_acked a d (by rw [ha]; rfl)

/-- Claim C5: handoff is FIFO. In every reachable state the records received so far, in
the order they were received, followed by the records still queued, are exactly the
records sent by the `Dial` calls in the order they were sent; every record sent is
the record `acceptConn{sConn, accepted}` of the `Dial` call that sent it; so the
`k`-th successful receive of an `Accept` took the `k`-th record sent, and that
`Accept` call returns the server endpoint of that record. -/
theorem handoff_fifo (w : State) (hr : Reachable w) :
    w.sent = w.rcvd.map Prod.snd ++ w.ln.conns.buf ∧
    (∀ c ∈ w.sent, c = mkAcceptConn c.accepted) ∧
    ∀ (k a : Nat) (c : acceptConn), w.rcvd[k]? = some (a, c) → w.sent[k]? = some c ∧
      (w.thr a = .accept (.closeAccepted c) ∨ w.thr a = .accept (.ret c) ∨
        w.thr a = .accept (.done (some c.conn) none)) := by
  have h := hr.inv
  refine ⟨h.hist, fun c hc => acceptConn_eq_mk (h.sent_rec c hc), ?_⟩
  intro k a c hk
  constructor
  · have hlt : k < (w.rcvd.map Prod.snd).length := by
      rw [List.length_map]
      exact (List.getElem?_eq_some.1 hk).1
    rw [h.hist, List.getElem?_append_left hlt, List.getElem?_map, hk]
    rfl
  · exact h.hist_rcvd (a, c) (List.getElem?_mem hk)

/-- Claim C6: rendezvous. In every reachable state, a `Dial` call `d` that has returned a
connection has returned the client endpoint `Conn1 d` of its own pair with a nil
error, and some `Accept` call has claimed and acknowledged the record of `d` and
returns (or has returned) the server endpoint `Conn2 d` of the same pair. -/
theorem dial_rendezvous (w : State) (hr : Reachable w) (d : Nat) (conn : Conn)
    (err : Option Err) (hd : w.thr d = .dial (.done (some conn) err)) :
    conn = Conn.Conn1 d ∧ err = none ∧
    ∃ a, w.thr a = .accept (.ret (mkAcceptConn d)) ∨
      w.thr a = .accept (.done (some (Conn.Conn2 d)) none) := by
  have h := hr.inv
  obtain ⟨h1, h2, h3⟩ := h.dial_done_ok d conn err hd
  exact ⟨h1, h2, h.acked_taken h3⟩

/-- One transition is one action of a schedule. -/
theorem exec_rel {a : Act} (rest : List Act) {w w1 : State} (hr : StepRel w a w1) :
    exec (a :: rest) w = exec rest w1 := by
  simp [exec, rel_step hr]

/-- The state `stateAfter` names is reachable. -/
theorem reachable_stateAfter (calls : List Call) (sched : List Act) :
    Reachable (stateAfter calls sched) := by
  unfold stateAfter
  simp only
  cases he : exec sched (startOn
      { lock := false, closed := false,
        conns := { cap := 10240, buf := [], closed := false },
        opts := DefaultInMemoryListener } calls) with
  | none => exact ⟨none, calls, _, [], rfl, rfl⟩
  | some w => exact ⟨none, calls, _, sched, rfl, he⟩

/-- Claim C7 (as stated, refuted): with capacity 10 and ten concurrent `Dial` calls (no
`Accept`), no interleaving reaches a state in which all ten calls have sent their
record and wait for its acknowledgment. -/
theorem dial_backpressure_counterexample :
    ¬ ∃ sched w,
      (start (some { MaxAcceptConn := 10, MaxPipeBuffer := 1024 })
        (List.replicate 10 Call.Dial)).bind (exec sched) = some w ∧
      ∀ t, t < 10 → w.thr t = .dial .waitAccepted := by
  rintro ⟨sched, w, he, hall⟩
  have hr : Reachable w :=
    ⟨some { MaxAcceptConn := 10, MaxPipeBuffer := 1024 }, List.replicate 10 Call.Dial, _,
      sched, rfl, he⟩
  have h0 := hall 0 (by decide)
  have h1 := hall 1 (by decide)
  have := hr.inv.holder_unique 0 1 (by rw [h0]; rfl) (by rw [h1]; rfl)
  cases this

/-- Claim C7 (amended): the lock, not the capacity, bounds the pending dials. In every
reachable state `conns` holds at most one record; a `Dial` that is at its send on a
listener of capacity at least 1 is not blocked there (the queue is empty) and its
send makes its record the only one queued; while a `Dial` is at its send or waits
for its acknowledgment, every `Dial` that has not locked yet is blocked at the lock;
and once an `Accept` has received and acknowledged the queued record and the
waiting `Dial` has resumed and unlocked, a blocked `Dial` takes the lock. -/
theorem dial_backpressure_by_lock (w : State) (hr : Reachable w) :
    w.ln.conns.buf.length ≤ 1 ∧
    (∀ d, w.thr d = .dial .send → 1 ≤ w.ln.conns.cap →
      ∃ w', step w (.run d) = some w' ∧ w'.thr d = .dial .waitAccepted ∧
        w'.ln.conns.buf = [mkAcceptConn d]) ∧
    (∀ d d', w.thr d = .dial .send ∨ w.thr d = .dial .waitAccepted →
      w.thr d' = .dial .lock → step w (.run d') = none) ∧
    (∀ d a d', w.thr d = .dial .waitAccepted → w.ln.conns.buf = [mkAcceptConn d] →
      w.thr a = .accept .recv → w.thr d' = .dial .lock →
      ∃ w', exec [.run a, .run a, .run d, .run d, .run d'] w = some w' ∧
        w'.thr d' = .dial .ifClosed ∧ w'.thr d = .dial (.ret (some (Conn.Conn1 d))) ∧
        w'.thr a = .accept (.ret (mkAcceptConn d))) := by
  have h := hr.inv
  refine ⟨h.buf_len, ?_, ?_, ?_⟩
  · intro d hd hcap
    have hb := h.buf_held d (by rw [hd]; rfl) (by rw [hd]; simp)
    have hc := h.open_at d (Or.inl hd)
    have hcc := h.chan_held d (by rw [hd]; rfl) (by rw [hd]; simp)
    rw [hc] at hcc
    have hlen : w.ln.conns.buf.length < w.ln.conns.cap := by rw [hb]; simpa using hcap
    refine ⟨_, rel_step (StepRel.dSend w d hd hcc hlen), by simp, by simp [hb]⟩
  · intro d d' hd hd'
    have hl : w.ln.lock = true := by
      rcases hd with hd | hd
      · exact h.lockHeld d (by rw [hd]; rfl)
      · exact h.lockHeld d (by rw [hd]; rfl)
    simp [step, hd', InmemoryListener.Dial, hl]
  · intro d a d' hd hb ha hd'
    have hda : d ≠ a := by rintro rfl; rw [hd] at ha; cases ha
    have hdd : d ≠ d' := by rintro rfl; rw [hd] at hd'; cases hd'
    have had : a ≠ d' := by rintro rfl; rw [ha] at hd'; cases hd'
    have hacc : d ∉ w.accepted := (h.buf_rec (mkAcceptConn d) (by simp [hb])).2.2
    refine Exists.intro ?w ⟨?h1, ?h2⟩
    case h1 =>
      rw [exec_rel _ (StepRel.aRecv w a (mkAcceptConn d) [] ha hb)]
      rw [exec_rel _ (StepRel.aAck _ a (mkAcceptConn d) ?_ ?_)]
      rw [exec_rel _ (StepRel.dWait _ d ?_ ?_)]
      rw [exec_rel _ (StepRel.dUnlock _ d (some (Conn.Conn1 d)) ?_)]
      rw [exec_rel _ (StepRel.dLock _ d' ?_ ?_)]
      exact rfl
      all_goals simp [hda, hdd, had, hdd.symm, had.symm, hda.symm, hacc, hd, hd']
    simp [hda, hdd, had, hdd.symm, had.symm, hda.symm]

/-- Claim C8 (as stated, refuted): `Dial` then `Close` on a default listener. After the
`Dial` call has locked, sent its record and started to wait, the `Close` call is at
its `Lock()` and no action at all is enabled: without an `Accept`, the `Close` never
completes and the `Dial` is never unblocked. -/
theorem close_pending_dial_counterexample :
    Reachable (stateAfter [.Dial, .Close] [.run 0, .run 0, .run 0]) ∧
    (stateAfter [.Dial, .Close] [.run 0, .run 0, .run 0]).thr 0 = .dial .waitAccepted ∧
    (stateAfter [.Dial, .Close] [.run 0, .run 0, .run 0]).ln.conns.buf = [mkAcceptConn 0] ∧
    (stateAfter [.Dial, .Close] [.run 0, .run 0, .run 0]).thr 1 = .close .lock ∧
    ∀ a, step (stateAfter [.Dial, .Close] [.run 0, .run 0, .run 0]) a = none := by
  refine ⟨reachable_stateAfter _ _, rfl, rfl, rfl, ?_⟩
  intro a
  cases a with
  | run t =>
    rcases t with _ | _ | t
    · rfl
    · rfl
    · rfl
  | handoff d a =>
    rcases d with _ | _ | d
    · rfl
    · rfl
    · rfl

/-- Claim C8 (amended): a pending dial makes `Close` wait. In every reachable state in
which a `Dial` call has sent its record and waits for the acknowledgment, the mutex
is locked and the listener is open; every `Close` call in progress is at its
`Lock()` and is blocked there; the waiting `Dial` is blocked until its record has
been acknowledged by an `Accept`, and once it has been, the `Dial` runs to its
return and returns its client endpoint with a nil error (never
`ErrInmemoryListenerClosed`). -/
theorem close_waits_for_pending_dial (w : State) (hr : Reachable w) (d : Nat)
    (hd : w.thr d = .dial .waitAccepted) :
    w.ln.lock = true ∧ w.ln.closed = false ∧
    (∀ c p, w.thr c = .close p → p = .lock ∧ step w (.run c) = none) ∧
    (d ∉ w.accepted → step w (.run d) = none) ∧
    (d ∈ w.accepted → ∃ w', runToDone 8 d w = some w' ∧
      w'.thr d = .dial (.done (some (Conn.Conn1 d)) none)) := by
  have h := hr.inv
  have hl := h.lockHeld d (by rw [hd]; rfl)
  have hc := h.open_at d (Or.inr (Or.inl hd))
  refine ⟨hl, hc, ?_, ?_, ?_⟩
  · intro c p hp
    have hu := h.holder_unique c d
    have he := h.close_err c
    have hcd : c ≠ d := by rintro rfl; rw [hd] at hp; cases hp
    cases p <;> simp_all [step, InmemoryListener.Close]
  · intro hacc
    simp [step, hd, InmemoryListener.Dial, hacc]
  · intro hacc
    refine Exists.intro ?w ⟨?h1, ?h2⟩
    case h1 =>
      rw [runToDone_rel 7 (StepRel.dWait w d hd hacc)]
      rw [runToDone_rel 6 (StepRel.dUnlock _ d (some (Conn.Conn1 d)) ?_)]
      rw [runToDone_rel 5 (StepRel.dRetOk _ d (Conn.Conn1 d) ?_)]
      exact runToDone_dial_done 4 (setThr_self _ _ _)
      all_goals simp
    simp

/-- Claim C9 (as stated, refuted): two `Close` calls, an `Accept` and a `Dial` made one
after the other on a default listener. The second `Close`, the `Accept` and the
`Dial` all return one and the same error value. -/
theorem close_error_counterexample :
    ∃ e1 e2 e3,
      (stateAfter [.Close, .Close, .Accept, .Dial]
        [.run 0, .run 0, .run 0, .run 0, .run 0, .run 0, .run 1, .run 1, .run 1, .run 1,
          .run 2, .run 2, .run 3, .run 3, .run 3, .run 3, .run 3, .run 3]).thr 1
        = .close (.done (some e1)) ∧
      (stateAfter [.Close, .Close, .Accept, .Dial]
        [.run 0, .run 0, .run 0, .run 0, .run 0, .run 0, .run 1, .run 1, .run 1, .run 1,
          .run 2, .run 2, .run 3, .run 3, .run 3, .run 3, .run 3, .run 3]).thr 2
        = .accept (.done none (some e2)) ∧
      (stateAfter [.Close, .Close, .Accept, .Dial]
        [.run 0, .run 0, .run 0, .run 0, .run 0, .run 0, .run 1, .run 1, .run 1, .run 1,
          .run 2, .run 2, .run 3, .run 3, .run 3, .run 3, .run 3, .run 3]).thr 3
        = .dial (.done none (some e3)) ∧
      e1 = e2 ∧ e1 = e3 :=
  ⟨ErrInmemoryListenerClosed, ErrInmemoryListenerClosed, ErrInmemoryListenerClosed,
    rfl, rfl, rfl, rfl, rfl⟩

/-- Claim C9 (amended): one error value. In every reachable state, every error that a
`Close`, an `Accept` or a `Dial` call has returned is the value
`ErrInmemoryListenerClosed` (and `Accept` and `Dial` return no connection with it),
so the error of a redundant `Close` equals the error of `Accept` and `Dial` on a
closed listener. -/
theorem closed_errors_same_value (w : State) (hr : Reachable w) (t : Nat) :
    (∀ e, w.thr t = .close (.done (some e)) → e = ErrInmemoryListenerClosed) ∧
    (∀ c e, w.thr t = .accept (.done c (some e)) →
      c = none ∧ e = ErrInmemoryListenerClosed) ∧
    (∀ c e, w.thr t = .dial (.done c (some e)) →
      c = none ∧ e = ErrInmemoryListenerClosed) := by
  have h := hr.inv
  refine ⟨?_, ?_, ?_⟩
  · intro e he
    exact (h.close_err t (some e) (Or.inr (Or.inr he))).1 e rfl
  · intro c e he
    cases c with
    | none =>
      have := h.claim_done_err t _ he
      exact ⟨rfl, by simpa using this⟩
    | some x =>
      have := (h.claim_done_ok t x _ he).1
      cases this
  · intro c e he
    cases c with
    | none =>
      have := h.dial_done_err t _ he
      exact ⟨rfl, by simpa using this⟩
    | some x =>
      have := (h.dial_done_ok t x _ he).2.1
      cases this

/-- Claim C1 at three `Close` calls on a default listener. -/
theorem close_idempotent_witness :
    1 ≤ 3 ∧ start none (List.replicate 3 Call.Close) = some exThreeCloses ∧
    exThreeCloses.ln.closed = false ∧ exThreeCloses.ln.conns.closed = false ∧
    (∃ w1, runToDone 8 0 exThreeCloses = some w1 ∧ w1.thr 0 = .close (.done none) ∧
      w1.ln.closed = true ∧ w1.ln.conns.closed = true) ∧
    ∀ k, 1 ≤ k → k < 3 → ∃ wk wk', runSeq (List.range k) exThreeCloses = some wk ∧
      runToDone 8 k wk = some wk' ∧
      wk'.thr k = .close (.done (some ErrInmemoryListenerClosed)) ∧
      wk'.ln = wk.ln ∧ wk'.accepted = wk.accepted ∧ wk'.closedConns = wk.closedConns :=
  ⟨by decide, rfl, close_idempotent none 3 (by decide) exThreeCloses rfl⟩

/-- Claim C2 at a `Dial` made after a `Close` has returned. -/
theorem dial_closed_fails_witness :
    exClosedThenDial.ln.closed = true ∧
    ((exClosedThenDial.thr 1 = .dial .lock ∧ exClosedThenDial.ln.lock = false) ∨
      exClosedThenDial.thr 1 = .dial .ifClosed) ∧
    ∃ w', runToDone 8 1 exClosedThenDial = some w' ∧
      w'.thr 1 = .dial (.done none (some ErrInmemoryListenerClosed)) ∧
      Conn.Conn1 1 ∈ w'.closedConns ∧ Conn.Conn2 1 ∈ w'.closedConns ∧
      w'.ln.conns = exClosedThenDial.ln.conns ∧ w'.sent = exClosedThenDial.sent ∧
      w'.ln.closed = true ∧ w'.ln.lock = false :=
  ⟨rfl, Or.inl ⟨rfl, rfl⟩, dial_closed_fails exClosedThenDial 1 rfl (Or.inl ⟨rfl, rfl⟩)⟩

/-- Claim C3 after a `Close` has returned and a `Dial` has then locked. -/
theorem closed_is_terminal_witness :
    Reachable exClosedThenAccept ∧ exClosedThenAccept.thr 0 = .close (.done none) ∧
    exec [.run 2] exClosedThenAccept
      = some (stateAfter [.Close, .Accept, .Dial]
          [.run 0, .run 0, .run 0, .run 0, .run 0, .run 0, .run 2]) ∧
    (stateAfter [.Close, .Accept, .Dial]
      [.run 0, .run 0, .run 0, .run 0, .run 0, .run 0, .run 2]).ln.closed = true ∧
    (stateAfter [.Close, .Accept, .Dial]
      [.run 0, .run 0, .run 0, .run 0, .run 0, .run 0, .run 2]).ln.conns.buf = [] ∧
    (∀ a c, (stateAfter [.Close, .Accept, .Dial]
      [.run 0, .run 0, .run 0, .run 0, .run 0, .run 0, .run 2]).thr a
        ≠ .accept (.closeAccepted c)) ∧
    ∀ a, (stateAfter [.Close, .Accept, .Dial]
      [.run 0, .run 0, .run 0, .run 0, .run 0, .run 0, .run 2]).thr a = .accept .recv →
      ∃ w'', runToDone 8 a (stateAfter [.Close, .Accept, .Dial]
        [.run 0, .run 0, .run 0, .run 0, .run 0, .run 0, .run 2]) = some w'' ∧
        w''.thr a = .accept (.done none (some ErrInmemoryListenerClosed)) :=
  ⟨reachable_stateAfter _ _, rfl, rfl,
    closed_is_terminal exClosedThenAccept (reachable_stateAfter _ _) 0 none rfl [.run 2] _ rfl⟩

/-- Claim C4 at a state in which an `Accept` has acknowledged the record of a `Dial`. -/
theorem handoff_claimed_once_witness :
    Reachable exClaimed ∧ exClaimed.sent = [mkAcceptConn 0] ∧
    exClaimed.thr 1 = .accept (.ret (mkAcceptConn 0)) ∧
    (∀ t, exClaimed.thr t ≠ .panicked) ∧
    (∀ d, mkAcceptConn d ∈ exClaimed.sent →
      (mkAcceptConn d ∈ exClaimed.ln.conns.buf ∧ ∀ a, ¬ Claimed exClaimed a d) ∨
      (mkAcceptConn d ∉ exClaimed.ln.conns.buf ∧
        ∃ a, Claimed exClaimed a d ∧ ∀ b, Claimed exClaimed b d → b = a)) ∧
    (∀ d, d ∈ exClaimed.accepted ↔ ∃ a, exClaimed.thr a = .accept (.ret (mkAcceptConn d)) ∨
      exClaimed.thr a = .accept (.done (some (Conn.Conn2 d)) none)) :=
  ⟨reachable_stateAfter _ _, rfl, rfl,
    handoff_claimed_once exClaimed (reachable_stateAfter _ _)⟩

/-- Claim C5 at two handoffs made one after the other. -/
theorem handoff_fifo_witness :
    Reachable exTwoHandoffs ∧
    exTwoHandoffs.sent = [mkAcceptConn 0, mkAcceptConn 1] ∧
    exTwoHandoffs.rcvd = [(2, mkAcceptConn 0), (3, mkAcceptConn 1)] ∧
    exTwoHandoffs.sent = exTwoHandoffs.rcvd.map Prod.snd ++ exTwoHandoffs.ln.conns.buf ∧
    (∀ c ∈ exTwoHandoffs.sent, c = mkAcceptConn c.accepted) ∧
    ∀ (k a : Nat) (c : acceptConn), exTwoHandoffs.rcvd[k]? = some (a, c) →
      exTwoHandoffs.sent[k]? = some c ∧
      (exTwoHandoffs.thr a = .accept (.closeAccepted c) ∨
        exTwoHandoffs.thr a = .accept (.ret c) ∨
        exTwoHandoffs.thr a = .accept (.done (some c.conn) none)) :=
  ⟨reachable_stateAfter _ _, rfl, rfl, handoff_fifo exTwoHandoffs (reachable_stateAfter _ _)⟩

/-- Claim C6 at a `Dial` that has returned its client endpoint. -/
theorem dial_rendezvous_witness :
    Reachable exDialReturned ∧
    exDialReturned.thr 0 = .dial (.done (some (Conn.Conn1 0)) none) ∧
    Conn.Conn1 0 = Conn.Conn1 0 ∧ (none : Option Err) = none ∧
    ∃ a, exDialReturned.thr a = .accept (.ret (mkAcceptConn 0)) ∨
      exDialReturned.thr a = .accept (.done (some (Conn.Conn2 0)) none) :=
  ⟨reachable_stateAfter _ _, rfl,
    dial_rendezvous exDialReturned (reachable_stateAfter _ _) 0 (Conn.Conn1 0) none rfl⟩

/-- Claim C7 (amended) at a state with one waiting `Dial`, one `Dial` at the lock and an `Accept`. -/
theorem dial_backpressure_by_lock_witness :
    Reachable exPendingDial ∧ exPendingDial.thr 0 = .dial .waitAccepted ∧
    exPendingDial.thr 1 = .dial .lock ∧ exPendingDial.thr 2 = .accept .recv ∧
    exPendingDial.ln.conns.buf.length ≤ 1 ∧
    (∀ d, exPendingDial.thr d = .dial .send → 1 ≤ exPendingDial.ln.conns.cap →
      ∃ w', step exPendingDial (.run d) = some w' ∧ w'.thr d = .dial .waitAccepted ∧
        w'.ln.conns.buf = [mkAcceptConn d]) ∧
    (∀ d d', exPendingDial.thr d = .dial .send ∨ exPendingDial.thr d = .dial .waitAccepted →
      exPendingDial.thr d' = .dial .lock → step exPendingDial (.run d') = none) ∧
    (∀ d a d', exPendingDial.thr d = .dial .waitAccepted →
      exPendingDial.ln.conns.buf = [mkAcceptConn d] →
      exPendingDial.thr a = .accept .recv → exPendingDial.thr d' = .dial .lock →
      ∃ w', exec [.run a, .run a, .run d, .run d, .run d'] exPendingDial = some w' ∧
        w'.thr d' = .dial .ifClosed ∧ w'.thr d = .dial (.ret (some (Conn.Conn1 d))) ∧
        w'.thr a = .accept (.ret (mkAcceptConn d))) :=
  ⟨reachable_stateAfter _ _, rfl, rfl, rfl,
    dial_backpressure_by_lock exPendingDial (reachable_stateAfter _ _)⟩

/-- Claim C8 (amended) at a waiting `Dial` and a `Close` about to lock. -/
theorem close_waits_for_pending_dial_witness :
    Reachable exPendingDialClose ∧ exPendingDialClose.thr 0 = .dial .waitAccepted ∧
    exPendingDialClose.ln.lock = true ∧ exPendingDialClose.ln.closed = false ∧
    (∀ c p, exPendingDialClose.thr c = .close p →
      p = .lock ∧ step exPendingDialClose (.run c) = none) ∧
    (0 ∉ exPendingDialClose.accepted → step exPendingDialClose (.run 0) = none) ∧
    (0 ∈ exPendingDialClose.accepted → ∃ w', runToDone 8 0 exPendingDialClose = some w' ∧
      w'.thr 0 = .dial (.done (some (Conn.Conn1 0)) none)) :=
  ⟨reachable_stateAfter _ _, rfl,
    close_waits_for_pending_dial exPendingDialClose (reachable_stateAfter _ _) 0 rfl⟩

/-- Claim C9 (amended) at the second of two `Close` calls. -/
theorem closed_errors_same_value_witness :
    Reachable exAllClosed ∧
    exAllClosed.thr 1 = .close (.done (some ErrInmemoryListenerClosed)) ∧
    (∀ e, exAllClosed.thr 1 = .close (.done (some e)) → e = ErrInmemoryListenerClosed) ∧
    (∀ c e, exAllClosed.thr 1 = .accept (.done c (some e)) →
      c = none ∧ e = ErrInmemoryListenerClosed) ∧
    (∀ c e, exAllClosed.thr 1 = .dial (.done c (some e)) →
      c = none ∧ e = ErrInmemoryListenerClosed) :=
  ⟨reachable_stateAfter _ _, rfl,
    closed_errors_same_value exAllClosed (reachable_stateAfter _ _) 1⟩

end Pipe

namespace Gnatsd

/-! ## Theorems about `Shutdown` -/

theorem count_closeConns_closeQuitCh (m : ClientMap) :
    (closeConns m).count .closeQuitCh = 0 := by
  induction m with
  | nil => rfl
  | cons e rest ih =>
    obtain ⟨i, c⟩ := e
    simp [closeConns, List.count_cons, ih]

theorem count_closeConns_closeShutdownComplete (m : ClientMap) :
    (closeConns m).count .closeShutdownComplete = 0 := by
  induction m with
  | nil => rfl
  | cons e rest ih =>
    obtain ⟨i, c⟩ := e
    simp [closeConns, List.count_cons, ih]

theorem count_laterCalls_closeQuitCh (n : Nat) :
    (laterCalls n).count .closeQuitCh = 0 := by
  induction n with
  | zero => rfl
  | succ n ih => simp [laterCalls, List.count_cons, ih]

theorem count_laterCalls_closeShutdownComplete (n : Nat) :
    (laterCalls n).count .closeShutdownComplete = 0 := by
  induction n with
  | zero => rfl
  | succ n ih => simp [laterCalls, List.count_cons, ih]

theorem count_kickListeners_closeQuitCh {E : Type} (s : Server E) :
    (kickListeners s).count .closeQuitCh = 0 := by
  simp [kickListeners, apply_ite (List.count Event.closeQuitCh), List.count_cons]

theorem count_kickListeners_closeShutdownComplete {E : Type} (s : Server E) :
    (kickListeners s).count .closeShutdownComplete = 0 := by
  simp [kickListeners, apply_ite (List.count Event.closeShutdownComplete), List.count_cons]

/-- A call that finds the flag set only runs `shutdownEventing` and takes and
releases the server lock. -/
theorem Shutdown_of_shutdown {E : Type} (ev : E → E) (s : Server E)
    (hs : s.shutdown = true) :
    Shutdown ev s = some ({ s with sys := ev s.sys }, [.shutdownEventing, .muLock, .muUnlock]) := by
  simp [Shutdown, hs]

/-- Calls made one after the other on a server whose flag is set. -/
theorem shutdownSeq_of_shutdown {E : Type} (ev : E → E) (n : Nat) (s : Server E)
    (hs : s.shutdown = true) :
    shutdownSeq ev n s = some ({ s with sys := ev^[n] s.sys }, laterCalls n) := by
  induction n generalizing s with
  | zero => rfl
  | succ n ih =>
    simp only [shutdownSeq, Shutdown_of_shutdown ev s hs]
    rw [ih { s with sys := ev s.sys } hs]
    simp [laterCalls, Function.iterate_succ_apply]

end Gnatsd

namespace Pipe

/-- Claim C17: in every reachable state no call has panicked; a `Dial` is at its send
only with the lock held, the closed flag unset and `conns` open, and then every
`Close` call in progress is still at its `Lock()`; and whenever a step adds a record
to the history of sends, it was taken in such a state and leaves the flag unset and
the channel open. -/
theorem send_only_while_open (w : State) (hr : Reachable w) :
    (∀ t, w.thr t ≠ .panicked) ∧
    (∀ t, w.thr t = .dial .send →
      w.ln.lock = true ∧ w.ln.closed = false ∧ w.ln.conns.closed = false ∧
      ∀ u p, w.thr u = .close p → p = .lock) ∧
    (∀ a w', step w a = some w' → w'.sent ≠ w.sent →
      (∃ d, w.thr d = .dial .send ∧ w'.sent = w.sent ++ [mkAcceptConn d]) ∧
      w.ln.lock = true ∧ w.ln.closed = false ∧ w.ln.conns.closed = false ∧
      w'.ln.lock = true ∧ w'.ln.closed = false ∧ w'.ln.conns.closed = false) := by
  have h := hr.inv
  have hsend : ∀ t, w.thr t = .dial .send →
      w.ln.lock = true ∧ w.ln.closed = false ∧ w.ln.conns.closed = false := by
    intro t ht
    have hl := h.lockHeld t (by rw [ht]; rfl)
    have hc := h.open_at t (Or.inl ht)
    have hcc := h.chan_held t (by rw [ht]; rfl) (by rw [ht]; simp)
    rw [hc] at hcc
    exact ⟨hl, hc, hcc⟩
  refine ⟨h.no_panic, ?_, ?_⟩
  · intro t ht
    obtain ⟨hl, hc, hcc⟩ := hsend t ht
    refine ⟨hl, hc, hcc, ?_⟩
    intro u p hu
    have hheld : holds (w.thr u) = true → False := by
      intro hh
      have := h.holder_unique u t hh (by rw [ht]; rfl)
      subst this
      rw [ht] at hu
      cases hu
    cases p with
    | lock => rfl
    | ifClosed => exact (hheld (by rw [hu]; rfl)).elim
    | closeConns => exact (hheld (by rw [hu]; rfl)).elim
    | setClosed => exact (hheld (by rw [hu]; rfl)).elim
    | unlock e => exact (hheld (by rw [hu]; rfl)).elim
    | ret e =>
      have := (h.close_err u e (Or.inr (Or.inl hu))).2
      rw [hc] at this; cases this
    | done e =>
      have := (h.close_err u e (Or.inr (Or.inr hu))).2
      rw [hc] at this; cases this
  · intro a w' hs hne
    have hrel := step_rel hs
    cases hrel with
    | dSend t ht hcc hlen =>
      obtain ⟨hl, hc, hcc⟩ := hsend t ht
      exact ⟨⟨t, ht, by simp⟩, hl, hc, hcc, by simpa using hl, by simpa using hc,
        by simpa using hcc⟩
    | handoff d a hd ha hcc hb =>
      obtain ⟨hl, hc, hcc⟩ := hsend d hd
      exact ⟨⟨d, hd, by simp⟩, hl, hc, hcc, by simpa using hl, by simpa using hc,
        by simpa using hcc⟩
    | _ => exact (hne (by simp)).elim

/-- Claim C17 at a state in which a `Dial` is at its send and a `Close` at its lock. -/
theorem send_only_while_open_witness :
    Reachable exDialAtSend ∧ exDialAtSend.thr 0 = .dial .send ∧
    exDialAtSend.thr 1 = .close .lock ∧
    (∀ t, exDialAtSend.thr t ≠ .panicked) ∧
    (∀ t, exDialAtSend.thr t = .dial .send →
      exDialAtSend.ln.lock = true ∧ exDialAtSend.ln.closed = false ∧
      exDialAtSend.ln.conns.closed = false ∧
      ∀ u p, exDialAtSend.thr u = .close p → p = .lock) ∧
    (∀ a w', step exDialAtSend a = some w' → w'.sent ≠ exDialAtSend.sent →
      (∃ d, exDialAtSend.thr d = .dial .send ∧
        w'.sent = exDialAtSend.sent ++ [mkAcceptConn d]) ∧
      exDialAtSend.ln.lock = true ∧ exDialAtSend.ln.closed = false ∧
      exDialAtSend.ln.conns.closed = false ∧
      w'.ln.lock = true ∧ w'.ln.closed = false ∧ w'.ln.conns.closed = false) :=
  ⟨reachable_stateAfter _ _, rfl, rfl,
    send_only_while_open exDialAtSend (reachable_stateAfter _ _)⟩

theorem Pipe.ops_append (a b : List Op) (p : Pipe) :
    Pipe.ops (a ++ b) p = (Pipe.ops a p).bind (Pipe.ops b) := by
  induction a generalizing p with
  | nil => rfl
  | cons o rest ih =>
    simp only [List.cons_append, Pipe.ops]
    cases p.op o with
    | none => rfl
    | some q => exact ih q

theorem Pipe.call_eq (p : Pipe) (t : Nat) (c : Call) (p' : Pipe) (h : p.call t c = some p') :
    p' = { p with InmemoryListener := setThr p.InmemoryListener t c.entry } := by
  unfold Pipe.call at h
  split at h
  · cases h; rfl
  · cases h

/-- What each operation does to the fields other than the embedded listener. -/
theorem Pipe.op_fields (p : Pipe) (o : Op) (p' : Pipe) (h : p.op o = some p') :
    p'.name = p.name ∧
    p'.address = (match o with | .Dial _ _ a => a | _ => p.address) ∧
    p'.isShutdown = (match o with | .SetShutdown => true | _ => p.isShutdown) := by
  cases o with
  | Dial t n a =>
    have := Pipe.call_eq _ t .Dial p' h
    subst this; exact ⟨rfl, rfl, rfl⟩
  | Accept t =>
    have := Pipe.call_eq _ t .Accept p' h
    subst this; exact ⟨rfl, rfl, rfl⟩
  | Close t =>
    have := Pipe.call_eq _ t .Close p' h
    subst this; exact ⟨rfl, rfl, rfl⟩
  | Name => cases h; exact ⟨rfl, rfl, rfl⟩
  | Address => cases h; exact ⟨rfl, rfl, rfl⟩
  | SetShutdown => cases h; exact ⟨rfl, rfl, rfl⟩
  | IsClosed => cases h; exact ⟨rfl, rfl, rfl⟩
  | run a =>
    simp only [Pipe.op] at h
    cases hs : step p.InmemoryListener a with
    | none => rw [hs] at h; cases h
    | some w => rw [hs] at h; cases h; exact ⟨rfl, rfl, rfl⟩

theorem Pipe.ops_address_of_no_dial (ops : List Op) (p p' : Pipe)
    (h : Pipe.ops ops p = some p') (hn : ∀ t n a, Op.Dial t n a ∉ ops) :
    p'.address = p.address := by
  induction ops generalizing p with
  | nil => cases h; rfl
  | cons o rest ih =>
    simp only [Pipe.ops] at h
    cases ho : p.op o with
    | none => rw [ho] at h; cases h
    | some q =>
      rw [ho] at h
      have hq := (Pipe.op_fields p o q ho).2.1
      have := ih q h (fun t n a hm => hn t n a (List.mem_cons_of_mem _ hm))
      rw [this, hq]
      cases o with
      | Dial t n a => exact (hn t n a (List.mem_cons_self _ _)).elim
      | _ => rfl

theorem Pipe.ops_isShutdown (ops : List Op) (p p' : Pipe) (h : Pipe.ops ops p = some p') :
    p'.isShutdown = true ↔ p.isShutdown = true ∨ Op.SetShutdown ∈ ops := by
  induction ops generalizing p with
  | nil => cases h; simp
  | cons o rest ih =>
    simp only [Pipe.ops] at h
    cases ho : p.op o with
    | none => rw [ho] at h; cases h
    | some q =>
      rw [ho] at h
      have hq := (Pipe.op_fields p o q ho).2.2
      rw [ih q h, hq]
      cases o <;> simp

theorem Pipe.op_eraseArgs (p q : Pipe) (o : Op)
    (h : p.InmemoryListener = q.InmemoryListener) :
    (p.op o).map Pipe.InmemoryListener = (q.op o.eraseArgs).map Pipe.InmemoryListener := by
  cases o with
  | Dial t n a =>
    simp only [Pipe.op, Op.eraseArgs, Pipe.Dial, Pipe.call, h]
    cases q.InmemoryListener.thr t <;> rfl
  | Accept t =>
    simp only [Pipe.op, Op.eraseArgs, Pipe.Accept, Pipe.call, h]
    cases q.InmemoryListener.thr t <;> rfl
  | Close t =>
    simp only [Pipe.op, Op.eraseArgs, Pipe.Close, Pipe.call, h]
    cases q.InmemoryListener.thr t <;> rfl
  | Name => simp [Pipe.op, Op.eraseArgs, h]
  | Address => simp [Pipe.op, Op.eraseArgs, h]
  | SetShutdown => simp [Pipe.op, Op.eraseArgs, Pipe.SetShutdown, h]
  | IsClosed => simp [Pipe.op, Op.eraseArgs, h]
  | run a =>
    simp only [Pipe.op, Op.eraseArgs, h]
    cases step q.InmemoryListener a <;> rfl

theorem Pipe.ops_eraseArgs (ops : List Op) (p q : Pipe)
    (h : p.InmemoryListener = q.InmemoryListener) :
    (Pipe.ops ops p).map Pipe.InmemoryListener =
      (Pipe.ops (ops.map Op.eraseArgs) q).map Pipe.InmemoryListener := by
  induction ops generalizing p q with
  | nil => simp [Pipe.ops, h]
  | cons o rest ih =>
    simp only [Pipe.ops, List.map_cons]
    have ho := Pipe.op_eraseArgs p q o h
    cases hp : p.op o with
    | none =>
      rw [hp] at ho
      cases hq : q.op o.eraseArgs with
      | none => rfl
      | some q' => rw [hq] at ho; cases ho
    | some p' =>
      rw [hp] at ho
      cases hq : q.op o.eraseArgs with
      | none => rw [hq] at ho; cases ho
      | some q' =>
        rw [hq] at ho
        simp only [Option.map_some', Option.some.injEq] at ho
        exact ih p' q' ho

theorem NewPipe_eq (name : String) : ∃ ln, NewPipe name = some
    { name := name, address := "", InmemoryListener := startOn ln [], isShutdown := false } :=
  ⟨_, rfl⟩

/-- Claim C14: after any sequence of operations on a new pipe, `Address()` is the
empty string if `Dial` was never called and otherwise the `address` argument of the
most recent `Dial` call, whatever became of that call; a `Dial` call enters
`InmemoryListener.Dial` on the embedded listener, the steps of a call are those of
the embedded listener and leave the address alone, and the state of the embedded
listener (with the results of all calls) is the same when the `network` and
`address` arguments of every `Dial` are replaced. -/
theorem pipe_address_last_dial (name : String) (ops : List Op) (p : Pipe)
    (h : (NewPipe name).bind (Pipe.ops ops) = some p) :
    ((∀ t n a, Op.Dial t n a ∉ ops) → p.Address = "") ∧
    (∀ pre post t n a, ops = pre ++ Op.Dial t n a :: post →
      (∀ t' n' a', Op.Dial t' n' a' ∉ post) → p.Address = a) ∧
    (∀ (q q' : Pipe) t n a, q.Dial t n a = some q' →
      q'.InmemoryListener = setThr q.InmemoryListener t Call.Dial.entry) ∧
    (∀ (q q' : Pipe) x, q.op (.run x) = some q' →
      step q.InmemoryListener x = some q'.InmemoryListener ∧ q'.Address = q.Address) ∧
    ((NewPipe name).bind (Pipe.ops (ops.map Op.eraseArgs))).map Pipe.InmemoryListener =
      some p.InmemoryListener := by
  obtain ⟨ln, h0⟩ := NewPipe_eq name
  rw [h0, Option.some_bind] at h
  refine ⟨?_, ?_, ?_, ?_, ?_⟩
  · intro hn
    exact Pipe.ops_address_of_no_dial ops _ p h hn
  · intro pre post t n a hops hn
    subst hops
    rw [Pipe.ops_append] at h
    cases hpre : Pipe.ops pre
        { name := name, address := "", InmemoryListener := startOn ln [],
          isShutdown := false } with
    | none => rw [hpre] at h; cases h
    | some p1 =>
      rw [hpre, Option.some_bind] at h
      simp only [Pipe.ops] at h
      cases hd : p1.op (.Dial t n a) with
      | none => rw [hd] at h; cases h
      | some p2 =>
        rw [hd, Option.some_bind] at h
        have h2 := (Pipe.op_fields p1 _ p2 hd).2.1
        have h3 := Pipe.ops_address_of_no_dial post p2 p h hn
        simp only at h2
        simp only [Pipe.Address, h3, h2]
  · intro q q' t n a hq
    have := Pipe.call_eq _ t .Dial q' hq
    subst this; rfl
  · intro q q' x hq
    have hf := (Pipe.op_fields q _ q' hq).2.1
    simp only [Pipe.op] at hq
    cases hs : step q.InmemoryListener x with
    | none => rw [hs] at hq; cases hq
    | some w => rw [hs] at hq; cases hq; exact ⟨rfl, rfl⟩
  · rw [h0, Option.some_bind]
    have := Pipe.ops_eraseArgs ops
      { name := name, address := "", InmemoryListener := startOn ln [], isShutdown := false }
      { name := name, address := "", InmemoryListener := startOn ln [], isShutdown := false }
      rfl
    rw [← this, h]
    rfl

/-- Claim C14 at two `Dial` calls with different addresses, the first still running. -/
theorem pipe_address_last_dial_witness :
    ∃ p, (NewPipe "pipe").bind (Pipe.ops exTwoDials) = some p ∧
    p.InmemoryListener.thr 0 = .dial .ifClosed ∧ p.Address = "b:4222" ∧
    ((∀ t n a, Op.Dial t n a ∉ exTwoDials) → p.Address = "") ∧
    (∀ pre post t n a, exTwoDials = pre ++ Op.Dial t n a :: post →
      (∀ t' n' a', Op.Dial t' n' a' ∉ post) → p.Address = a) ∧
    (∀ (q q' : Pipe) t n a, q.Dial t n a = some q' →
      q'.InmemoryListener = setThr q.InmemoryListener t Call.Dial.entry) ∧
    (∀ (q q' : Pipe) x, q.op (.run x) = some q' →
      step q.InmemoryListener x = some q'.InmemoryListener ∧ q'.Address = q.Address) ∧
    ((NewPipe "pipe").bind (Pipe.ops (exTwoDials.map Op.eraseArgs))).map
      Pipe.InmemoryListener = some p.InmemoryListener :=
  ⟨_, rfl, rfl, rfl, pipe_address_last_dial "pipe" exTwoDials _ rfl⟩

/-- Claim C15: after any sequence of operations on a new pipe, `IsClosed()` returns
true exactly when `SetShutdown` is one of them; in particular it is false on a new
pipe and stays false when the embedded listener is closed. -/
theorem pipe_shutdown_flag (name : String) (ops : List Op) (p : Pipe)
    (h : (NewPipe name).bind (Pipe.ops ops) = some p) :
    (p.IsClosed = true ↔ Op.SetShutdown ∈ ops) ∧
    (∀ (o : Op) (p' : Pipe), p.op o = some p' →
      (p'.IsClosed = true ↔ p.IsClosed = true ∨ o = .SetShutdown)) := by
  obtain ⟨ln, h0⟩ := NewPipe_eq name
  rw [h0, Option.some_bind] at h
  constructor
  · have := Pipe.ops_isShutdown ops _ p h
    simpa [Pipe.IsClosed] using this
  · intro o p' ho
    have := Pipe.ops_isShutdown [o] p p' (by simp [Pipe.ops, ho])
    rw [List.mem_singleton] at this
    simp only [Pipe.IsClosed, this]
    constructor <;> rintro (h | h) <;> first | exact Or.inl h | exact Or.inr h.symm

/-- Claim C15 at a pipe whose embedded listener a `Close` call has closed. -/
theorem pipe_shutdown_flag_witness :
    ∃ p, (NewPipe "pipe").bind (Pipe.ops exCloseOnly) = some p ∧
    p.InmemoryListener.thr 0 = .close (.done none) ∧
    p.InmemoryListener.ln.closed = true ∧ p.IsClosed = false ∧
    (p.IsClosed = true ↔ Op.SetShutdown ∈ exCloseOnly) ∧
    (∀ (o : Op) (p' : Pipe), p.op o = some p' →
      (p'.IsClosed = true ↔ p.IsClosed = true ∨ o = .SetShutdown)) :=
  ⟨_, rfl, rfl, rfl, rfl, pipe_shutdown_flag "pipe" exCloseOnly _ rfl⟩

end Pipe

namespace Gnatsd

/-- The first call on a server with the flag unset and both channels open. -/
theorem Shutdown_first {E : Type} (ev : E → E) (s : Server E)
    (hs : s.shutdown = false) (hq : s.quitCh = false) (hc : s.shutdownComplete = false) :
    ∃ s1, Shutdown ev s = some (s1,
      [.shutdownEventing, .muLock, .notice "Initiating Shutdown...",
        .grMuLock, .grMuUnlock, .grMuLock, .grMuUnlock] ++
      kickListeners s ++
      [.muUnlock, .closeQuitCh] ++ closeConns (snapshot s) ++
      List.replicate (doneExpected s) .recvDone ++ [.grWGWait] ++
      (if s.PortsFileDir ≠ "" then [.deletePortsFile s.PortsFileDir] else []) ++
      [.notice "Server Exiting..", .loggingRLock, .loggingRUnlock] ++
      (if s.logger = some true then [.loggerClose] else []) ++
      [.closeShutdownComplete]) :=
  ⟨_, by simp only [Shutdown, hs, hq, hc]; rfl⟩

theorem count_closeConns_of_ne (m : ClientMap) (e : Event)
    (h1 : ∀ c, e ≠ .setNoReconnect c) (h2 : ∀ c r, e ≠ .closeConnection c r) :
    (closeConns m).count e = 0 := by
  induction m with
  | nil => rfl
  | cons x rest ih =>
    obtain ⟨i, c⟩ := x
    have a1 := h1 c
    have a2 := h2 c .ServerShutdown
    simp [closeConns, List.count_cons, ih, Ne.symm a1, Ne.symm a2]

/-- Claim C11 (as stated, refuted): a server whose only active listeners are the
TCP listener and the in-memory pipe. The first `Shutdown` closes both, but the
number of completion signals it waits for is 1, not 2. -/
theorem doneExpected_pipe_counterexample :
    exServer.listener = true ∧ exServer.pipeListener = true ∧
    exServer.leafNodeListener = false ∧ exServer.routeListener = false ∧
    exServer.gatewayListener = false ∧ exServer.http = false ∧ exServer.profiler = false ∧
    ∃ s1 t1, Shutdown (fun x => x) exServer = some (s1, t1) ∧
      t1.count .listenerClose = 1 ∧ t1.count .pipeClose = 1 ∧
      t1.count .recvDone = 1 ∧ t1.count .recvDone ≠ 2 :=
  ⟨rfl, rfl, rfl, rfl, rfl, rfl, rfl, _, _, rfl, by decide, by decide, by decide, by decide⟩

theorem count_kickListeners_eq {E : Type} (s : Server E) :
    (kickListeners s).count .listenerClose = (if s.listener then 1 else 0) ∧
    (kickListeners s).count .pipeSetShutdown = (if s.pipeListener then 1 else 0) ∧
    (kickListeners s).count .pipeClose = (if s.pipeListener then 1 else 0) ∧
    (kickListeners s).count .leafNodeListenerClose = (if s.leafNodeListener then 1 else 0) ∧
    (kickListeners s).count .routeListenerClose = (if s.routeListener then 1 else 0) ∧
    (kickListeners s).count .gatewayListenerClose = (if s.gatewayListener then 1 else 0) ∧
    (kickListeners s).count .httpClose = (if s.http then 1 else 0) ∧
    (kickListeners s).count .profilerClose = (if s.profiler then 1 else 0) ∧
    (kickListeners s).count .recvDone = 0 := by
  simp only [kickListeners]
  cases s.listener <;> cases s.pipeListener <;> cases s.leafNodeListener <;>
    cases s.routeListener <;> cases s.gatewayListener <;> cases s.http <;>
    cases s.profiler <;> decide

/-- Claim C11 (amended): the first `Shutdown` waits for one completion signal per
active listener among the TCP listener, the leaf node, route and gateway listeners,
the HTTP monitor and the profiler, each of which it closes once; an active in-memory
pipe is marked as shut down and closed once too, but does not count. -/
theorem shutdown_done_expected {E : Type} (ev : E → E) (s : Server E)
    (hs : s.shutdown = false) (hq : s.quitCh = false) (hc : s.shutdownComplete = false) :
    ∃ s1 t1, Shutdown ev s = some (s1, t1) ∧
      t1.count .recvDone = doneExpected s ∧
      doneExpected s = [s.listener, s.leafNodeListener, s.routeListener,
        s.gatewayListener, s.http, s.profiler].count true ∧
      t1.count .listenerClose = (if s.listener then 1 else 0) ∧
      t1.count .leafNodeListenerClose = (if s.leafNodeListener then 1 else 0) ∧
      t1.count .routeListenerClose = (if s.routeListener then 1 else 0) ∧
      t1.count .gatewayListenerClose = (if s.gatewayListener then 1 else 0) ∧
      t1.count .httpClose = (if s.http then 1 else 0) ∧
      t1.count .profilerClose = (if s.profiler then 1 else 0) ∧
      t1.count .pipeSetShutdown = (if s.pipeListener then 1 else 0) ∧
      t1.count .pipeClose = (if s.pipeListener then 1 else 0) := by
  obtain ⟨s1, h⟩ := Shutdown_first ev s hs hq hc
  have hk := count_kickListeners_eq s
  obtain ⟨k1, k2, k3, k4, k5, k6, k7, k8, k9⟩ := hk
  refine ⟨s1, _, h, ?_, ?_, ?_, ?_, ?_, ?_, ?_, ?_, ?_, ?_⟩
  · simp [List.count_append, List.count_cons, List.count_replicate, k9,
      count_closeConns_of_ne, doneExpected]
    constructor <;> split <;> simp
  · simp only [doneExpected]
    cases s.listener <;> cases s.leafNodeListener <;> cases s.routeListener <;>
      cases s.gatewayListener <;> cases s.http <;> cases s.profiler <;> rfl
  all_goals
    simp [List.count_append, List.count_cons, List.count_replicate, k1, k2, k3, k4, k5,
      k6, k7, k8, count_closeConns_of_ne]
    constructor <;> split <;> simp

/-- Claim C11 (amended) at a server with a TCP listener and a pipe. -/
theorem shutdown_done_expected_witness :
    ∃ s1 t1, Shutdown (fun x => x) exServer = some (s1, t1) ∧
      t1.count .recvDone = doneExpected exServer ∧
      doneExpected exServer = [exServer.listener, exServer.leafNodeListener,
        exServer.routeListener, exServer.gatewayListener, exServer.http,
        exServer.profiler].count true ∧
      t1.count .listenerClose = (if exServer.listener then 1 else 0) ∧
      t1.count .leafNodeListenerClose = (if exServer.leafNodeListener then 1 else 0) ∧
      t1.count .routeListenerClose = (if exServer.routeListener then 1 else 0) ∧
      t1.count .gatewayListenerClose = (if exServer.gatewayListener then 1 else 0) ∧
      t1.count .httpClose = (if exServer.http then 1 else 0) ∧
      t1.count .profilerClose = (if exServer.profiler then 1 else 0) ∧
      t1.count .pipeSetShutdown = (if exServer.pipeListener then 1 else 0) ∧
      t1.count .pipeClose = (if exServer.pipeListener then 1 else 0) :=
  shutdown_done_expected (fun x => x) exServer rfl rfl rfl

theorem ClientMap.mem_set (m : ClientMap) (i c : Nat) (e : Nat × Nat)
    (h : e ∈ ClientMap.set m i c) : e ∈ m ∨ e = (i, c) := by
  induction m with
  | nil => simp [ClientMap.set] at h; exact Or.inr h
  | cons x rest ih =>
    obtain ⟨j, d⟩ := x
    simp only [ClientMap.set] at h
    split at h
    · rcases List.mem_cons.1 h with h | h
      · exact Or.inr h
      · exact Or.inl (List.mem_cons_of_mem _ h)
    · rcases List.mem_cons.1 h with h | h
      · exact Or.inl (h ▸ List.mem_cons_self _ _)
      · rcases ih h with h | h
        · exact Or.inl (List.mem_cons_of_mem _ h)
        · exact Or.inr h

theorem ClientMap.set_keys (m : ClientMap) (i c : Nat) :
    (ClientMap.set m i c).map Prod.fst =
      if i ∈ m.map Prod.fst then m.map Prod.fst else m.map Prod.fst ++ [i] := by
  induction m with
  | nil => simp [ClientMap.set]
  | cons x rest ih =>
    obtain ⟨j, d⟩ := x
    simp only [ClientMap.set]
    by_cases hj : j = i
    · simp [hj]
    · have hij : ¬ i = j := fun h => hj h.symm
      simp only [hj, if_false, List.map_cons, ih, List.mem_cons, hij, false_or]
      split <;> simp

theorem ClientMap.set_nodup (m : ClientMap) (i c : Nat) (h : (m.map Prod.fst).Nodup) :
    ((ClientMap.set m i c).map Prod.fst).Nodup := by
  rw [ClientMap.set_keys]
  split
  · exact h
  · rename_i hi
    exact List.Nodup.append h (List.nodup_singleton i) (by simpa using hi)

theorem ClientMap.mem_set_of_mem (m : ClientMap) (i c : Nat) (e : Nat × Nat)
    (he : e ∈ m) (hc : e.1 = i → e.2 = c) : e ∈ ClientMap.set m i c := by
  induction m with
  | nil => simp at he
  | cons x rest ih =>
    obtain ⟨j, d⟩ := x
    simp only [ClientMap.set]
    rcases List.mem_cons.1 he with h | h
    · subst h
      split
      · rename_i hj
        have := hc hj
        simp at hj this
        simp [hj, this]
      · exact List.mem_cons_self _ _
    · split
      · exact List.mem_cons_of_mem _ h
      · exact List.mem_cons_of_mem _ (ih h)

theorem ClientMap.mem_set_self (m : ClientMap) (i c : Nat) : (i, c) ∈ ClientMap.set m i c := by
  induction m with
  | nil => simp [ClientMap.set]
  | cons x rest ih =>
    obtain ⟨j, d⟩ := x
    simp only [ClientMap.set]
    split
    · exact List.mem_cons_self _ _
    · exact List.mem_cons_of_mem _ ih

theorem copyOff_append (m a b : ClientMap) : copyOff (copyOff m a) b = copyOff m (a ++ b) := by
  simp [copyOff, List.foldl_append]

theorem snapshot_eq {E : Type} (s : Server E) : snapshot s = copyOff [] (registries s) := by
  simp [snapshot, getAllGatewayConnections, registries, copyOff_append]

theorem copyOff_sub (all : ClientMap) (src m : ClientMap)
    (hm : ∀ e ∈ m, e ∈ all) (hsrc : ∀ e ∈ src, e ∈ all) :
    ∀ e ∈ copyOff m src, e ∈ all := by
  induction src generalizing m with
  | nil => simpa [copyOff] using hm
  | cons x rest ih =>
    have hx : x ∈ all := hsrc x (List.mem_cons_self _ _)
    refine ih (ClientMap.set m x.1 x.2) ?_ (fun e he => hsrc e (List.mem_cons_of_mem _ he))
    intro e he
    rcases ClientMap.mem_set m x.1 x.2 e he with h | h
    · exact hm e h
    · exact h ▸ hx

theorem copyOff_nodup (src m : ClientMap) (hm : (m.map Prod.fst).Nodup) :
    ((copyOff m src).map Prod.fst).Nodup := by
  induction src generalizing m with
  | nil => simpa [copyOff] using hm
  | cons x rest ih => exact ih _ (ClientMap.set_nodup m x.1 x.2 hm)

theorem copyOff_mem (all : ClientMap)
    (hid : ∀ e ∈ all, ∀ f ∈ all, e.1 = f.1 → e.2 = f.2)
    (src m : ClientMap) (hm : ∀ e ∈ m, e ∈ all) (hsrc : ∀ e ∈ src, e ∈ all) :
    ∀ e, e ∈ m ∨ e ∈ src → e ∈ copyOff m src := by
  induction src generalizing m with
  | nil => intro e he; simpa [copyOff] using he
  | cons x rest ih =>
    have hx : x ∈ all := hsrc x (List.mem_cons_self _ _)
    have hm2 : ∀ e ∈ ClientMap.set m x.1 x.2, e ∈ all := by
      intro e he
      rcases ClientMap.mem_set m x.1 x.2 e he with h | h
      · exact hm e h
      · exact h ▸ hx
    intro e he
    refine ih (ClientMap.set m x.1 x.2) hm2 (fun e he => hsrc e (List.mem_cons_of_mem _ he)) e ?_
    rcases he with he | he
    · exact Or.inl (ClientMap.mem_set_of_mem m x.1 x.2 e he (hid e (hm e he) x hx))
    · rcases List.mem_cons.1 he with h | h
      · exact Or.inl (h ▸ ClientMap.mem_set_self m x.1 x.2)
      · exact Or.inr h

theorem count_closeConns_close (m : ClientMap) (c : Nat) :
    (closeConns m).count (.closeConnection c .ServerShutdown) = (m.map Prod.snd).count c ∧
    (closeConns m).count (.setNoReconnect c) = (m.map Prod.snd).count c := by
  induction m with
  | nil => exact ⟨rfl, rfl⟩
  | cons x rest ih =>
    obtain ⟨i, d⟩ := x
    simp only [closeConns, List.map_cons, List.count_cons, ih.1, ih.2]
    by_cases hd : d = c <;> simp [hd]

theorem phase_of_mem_kickListeners {E : Type} (s : Server E) (e : Event)
    (h : e ∈ kickListeners s) : phase e = 2 := by
  simp only [kickListeners, List.mem_append] at h
  rcases h with (((((h | h) | h) | h) | h) | h) | h <;> split at h <;> simp at h <;>
    first | (subst h; rfl) | (rcases h with rfl | rfl <;> rfl)

theorem count_kickListeners_of_phase {E : Type} (s : Server E) (e : Event)
    (h : phase e ≠ 2) : (kickListeners s).count e = 0 :=
  List.count_eq_zero.2 (fun hm => h (phase_of_mem_kickListeners s e hm))

/-- Claim C12 (as stated, refuted): identifiers are unique within each registry and
every connection is in one registry only, but a client and a leaf share identifier
2; the snapshot keeps one entry for key 2 and the client connection 102 is neither
marked nor closed. -/
theorem shutdown_misses_conn_counterexample :
    (exCollide.clients.map Prod.fst).Nodup ∧ (exCollide.grTmpClients.map Prod.fst).Nodup ∧
    (exCollide.routes.map Prod.fst).Nodup ∧ (exCollide.gateways.map Prod.fst).Nodup ∧
    (exCollide.leafs.map Prod.fst).Nodup ∧
    ((registries exCollide).map Prod.snd).Nodup ∧
    (2, 102) ∈ exCollide.clients ∧
    ∃ s1 t1, Shutdown (fun x => x) exCollide = some (s1, t1) ∧
      t1.count (.setNoReconnect 102) = 0 ∧
      t1.count (.closeConnection 102 .ServerShutdown) = 0 :=
  ⟨by decide, by decide, by decide, by decide, by decide, by decide, by decide,
    _, _, rfl, by decide, by decide⟩

/-- Claim C12 (amended): when identifiers are unique across all the registries (two
entries have the same identifier exactly when they hold the same connection), the
first `Shutdown` marks non-reconnectable once and force-closes once, with reason
`ServerShutdown`, every connection present in a registry, and no other. -/
theorem shutdown_closes_every_conn {E : Type} (ev : E → E) (s : Server E)
    (hs : s.shutdown = false) (hq : s.quitCh = false) (hc : s.shutdownComplete = false)
    (hid : ∀ e ∈ registries s, ∀ f ∈ registries s, e.1 = f.1 ↔ e.2 = f.2) :
    ∃ s1 t1, Shutdown ev s = some (s1, t1) ∧
      ∀ c, t1.count (.setNoReconnect c) = (if c ∈ (registries s).map Prod.snd then 1 else 0) ∧
        t1.count (.closeConnection c .ServerShutdown) =
          (if c ∈ (registries s).map Prod.snd then 1 else 0) := by
  obtain ⟨s1, h⟩ := Shutdown_first ev s hs hq hc
  have hk := count_kickListeners_of_phase s
  refine ⟨s1, _, h, fun c => ?_⟩
  have hsnap : snapshot s = copyOff [] (registries s) :=
    snapshot_eq _
  have hsub := copyOff_sub (registries s) (registries s) [] (by simp) (fun e he => he)
  have hnd := copyOff_nodup (registries s) [] (by simp)
  have hmem := copyOff_mem (registries s) (fun e he f hf => (hid e he f hf).1)
    (registries s) [] (by simp) (fun e he => he)
  have hvals : ((copyOff [] (registries s)).map Prod.snd).Nodup := by
    refine List.Nodup.map_on ?_ (List.Nodup.of_map _ hnd)
    intro x hx y hy hxy
    exact Prod.ext ((hid x (hsub x hx) y (hsub y hy)).2 hxy) hxy
  have hcount : ((copyOff [] (registries s)).map Prod.snd).count c =
      (if c ∈ (registries s).map Prod.snd then 1 else 0) := by
    split
    · rename_i hin
      obtain ⟨e, he, rfl⟩ := List.mem_map.1 hin
      exact List.count_eq_one_of_mem hvals (List.mem_map.2 ⟨e, hmem e (Or.inr he), rfl⟩)
    · rename_i hin
      refine List.count_eq_zero.2 (fun hc => hin ?_)
      obtain ⟨e, he, rfl⟩ := List.mem_map.1 hc
      exact List.mem_map.2 ⟨e, hsub e he, rfl⟩
  have hcc := count_closeConns_close (copyOff [] (registries s)) c
  rw [hsnap]
  constructor
  · simp only [List.count_append, hcc.2, hcount, hk (.setNoReconnect c) (by simp [phase])]
    simp [List.count_cons, List.count_replicate]
    split_ifs <;> simp
  · simp only [List.count_append, hcc.1, hcount,
      hk (.closeConnection c .ServerShutdown) (by simp [phase])]
    simp [List.count_cons, List.count_replicate]
    split_ifs <;> simp

/-- Claim C12 (amended) at a server with four connections under four identifiers. -/
theorem shutdown_closes_every_conn_witness :
    (∀ e ∈ registries exServer, ∀ f ∈ registries exServer, e.1 = f.1 ↔ e.2 = f.2) ∧
    ∃ s1 t1, Shutdown (fun x => x) exServer = some (s1, t1) ∧
      ∀ c, t1.count (.setNoReconnect c) =
          (if c ∈ (registries exServer).map Prod.snd then 1 else 0) ∧
        t1.count (.closeConnection c .ServerShutdown) =
          (if c ∈ (registries exServer).map Prod.snd then 1 else 0) :=
  ⟨by decide, shutdown_closes_every_conn (fun x => x) exServer rfl rfl rfl (by decide)⟩

theorem map_phase_of_forall (l : List Event) (k : Nat) (h : ∀ e ∈ l, phase e = k) :
    l.map phase = List.replicate l.length k := by
  induction l with
  | nil => rfl
  | cons x rest ih =>
    simp only [List.map_cons, List.length_cons, List.replicate_succ]
    rw [h x (List.mem_cons_self _ _), ih (fun e he => h e (List.mem_cons_of_mem _ he))]

theorem phase_of_mem_closeConns (m : ClientMap) (e : Event) (h : e ∈ closeConns m) :
    phase e = 5 := by
  induction m with
  | nil => simp [closeConns] at h
  | cons x rest ih =>
    obtain ⟨i, c⟩ := x
    simp only [closeConns, List.mem_cons] at h
    rcases h with rfl | rfl | h
    · rfl
    · rfl
    · exact ih h

theorem pairwise_cons_lb (x lo : Nat) (L : List Nat)
    (h : L.Pairwise (fun a b => a ≤ b) ∧ ∀ y ∈ L, x ≤ y) (hlo : lo ≤ x) :
    (x :: L).Pairwise (fun a b => a ≤ b) ∧ ∀ y ∈ x :: L, lo ≤ y := by
  refine ⟨List.pairwise_cons.2 ⟨h.2, h.1⟩, fun y hy => ?_⟩
  rcases List.mem_cons.1 hy with rfl | hy
  · exact hlo
  · exact Nat.le_trans hlo (h.2 y hy)

theorem pairwise_replicate_lb (x lo n : Nat) (L : List Nat)
    (h : L.Pairwise (fun a b => a ≤ b) ∧ ∀ y ∈ L, x ≤ y) (hlo : lo ≤ x) :
    (List.replicate n x ++ L).Pairwise (fun a b => a ≤ b) ∧
      ∀ y ∈ List.replicate n x ++ L, lo ≤ y := by
  induction n generalizing lo with
  | zero => exact ⟨h.1, fun y hy => Nat.le_trans hlo (h.2 y hy)⟩
  | succ n ih => exact pairwise_cons_lb x lo _ (ih x (Nat.le_refl x)) hlo

theorem pairwise_phases (k c n p l : Nat) :
    List.Pairwise (fun a b : Nat => a ≤ b)
      ([0, 1, 2, 2, 2, 2, 2] ++ List.replicate k 2 ++ [3, 4] ++ List.replicate c 5 ++
        List.replicate n 6 ++ [7] ++ List.replicate p 8 ++ [8, 8, 8] ++
        List.replicate l 8 ++ [9]) := by
  simp only [List.append_assoc, List.cons_append, List.nil_append]
  refine (pairwise_cons_lb 0 0 _ ?_ (Nat.le_refl 0)).1
  repeat (first
    | exact ⟨List.Pairwise.nil, fun y hy => absurd hy (List.not_mem_nil y)⟩
    | refine pairwise_cons_lb _ _ _ ?_ (by decide)
    | refine pairwise_replicate_lb _ _ _ _ ?_ (by decide))

theorem index_lt_of_pairwise_phase (t : List Event)
    (h : (t.map phase).Pairwise (fun a b => a ≤ b)) (i j : Nat) (a b : Event)
    (ha : t[i]? = some a) (hb : t[j]? = some b) (hab : phase a < phase b) : i < j := by
  rcases Nat.lt_or_ge i j with hij | hij
  · exact hij
  · exfalso
    rcases Nat.eq_or_lt_of_le hij with heq | hlt
    · subst heq
      rw [ha] at hb
      cases hb
      exact Nat.lt_irrefl _ hab
    · have hi : i < (t.map phase).length := by
        rw [List.length_map]; exact (List.getElem?_eq_some_iff.1 ha).1
      have hj : j < (t.map phase).length := Nat.lt_trans hlt hi
      have := List.pairwise_iff_getElem.1 h j i hj hi hlt
      simp only [List.getElem_map] at this
      have ea := (List.getElem?_eq_some_iff.1 ha).2
      have eb := (List.getElem?_eq_some_iff.1 hb).2
      rw [ea, eb] at this
      omega

theorem filter_phase_of_forall (l : List Event) (k j : Nat) (h : ∀ e ∈ l, phase e = k) :
    l.filter (fun e => phase e = j) = if k = j then l else [] := by
  split
  · rename_i hkj
    exact List.filter_eq_self.2 (fun e he => by simp [h e he, hkj])
  · rename_i hkj
    exact List.filter_eq_nil_iff.2 (fun e he => by simp [h e he, hkj])

theorem phase_tail (d : String) (l : Option Bool) :
    (∀ e ∈ (if d ≠ "" then [Event.deletePortsFile d] else []), phase e = 8) ∧
    (∀ e ∈ (if l = some true then [Event.loggerClose] else []), phase e = 8) := by
  constructor
  · intro e he
    split at he
    · simp at he; subst he; rfl
    · simp at he
  · intro e he
    split at he
    · simp at he; subst he; rfl
    · simp at he

theorem acceptLoopFor_counts (obs : List AcceptObs) :
    (acceptLoopFor obs).1.count .closeClr = 0 ∧
    (acceptLoopFor obs).1.count .doneSend =
      (if (acceptLoopFor obs).2 = .returned .notRunning then 1 else 0) ∧
    (acceptLoopFor obs).1.count .ldmChSend =
      (if (acceptLoopFor obs).2 = .returned .lameDuck then 1 else 0) ∧
    (acceptLoopFor obs).1.count .quitChRecv =
      (if (acceptLoopFor obs).2 = .returned .lameDuck then 1 else 0) ∧
    ((acceptLoopFor obs).2 = .returned .notRunning ∨
      (acceptLoopFor obs).2 = .returned .lameDuck ∨ (acceptLoopFor obs).2 = .running) := by
  induction obs with
  | nil => decide
  | cons o rest ih =>
    cases o with
    | notRunning => simp [acceptLoopFor]
    | accepted conn =>
      simp only [acceptLoopFor]
      simpa [List.count_cons] using ih
    | failed ld =>
      cases ld with
      | true => simp [acceptLoopFor]
      | false =>
        simp only [acceptLoopFor]
        simpa [List.count_cons] using ih



theorem pipeLoopFor_counts (obs : List PipeObs) :
    (pipeLoopFor obs).1.count .doneSend = 0 ∧ (pipeLoopFor obs).1.count .grWGDone = 0 ∧
    (pipeLoopFor obs).1.count .pipeClose = 0 := by
  induction obs with
  | nil => decide
  | cons o rest ih =>
    cases o with
    | notRunning => simp [pipeLoopFor]
    | accepted conn =>
      simp only [pipeLoopFor]
      simpa [List.count_cons] using ih
    | failed c => cases c <;> simp [pipeLoopFor]

theorem acceptLoopFor_last (obs : List AcceptObs)
    (h : (acceptLoopFor obs).2 = .returned .notRunning) :
    ∃ pre, (acceptLoopFor obs).1 = pre ++ [.doneSend] := by
  induction obs with
  | nil => simp [acceptLoopFor] at h
  | cons o rest ih =>
    cases o with
    | notRunning => exact ⟨[], rfl⟩
    | accepted conn =>
      obtain ⟨pre, hp⟩ := ih h
      exact ⟨.accept :: .startClient conn :: pre, by simp [acceptLoopFor, hp]⟩
    | failed ld =>
      cases ld with
      | true => simp [acceptLoopFor] at h
      | false =>
        obtain ⟨pre, hp⟩ := ih h
        exact ⟨.accept :: .acceptError :: pre, by simp [acceptLoopFor, hp]⟩

/-- Claim C13 (as stated, refuted): a run of `AcceptLoop` in which `net.Listen`
fails returns without a send on `s.done`, and so does a run of `runPipeListener` that
finds the server no longer running. -/
theorem accept_loop_done_counterexample :
    (AcceptLoop exListenFails).2 = .returned .listenFailed ∧
    (AcceptLoop exListenFails).1.count .doneSend = 0 ∧
    (runPipeListener [.notRunning]).2 = .returned .notRunning ∧
    (runPipeListener [.notRunning]).1.count .doneSend = 0 := by
  decide

/-- Claim C13 (amended): `AcceptLoop` sends on `s.done` once, as its last statement,
when it returns because the server is no longer running, and not at all when it
returns after a listen failure, an INFO failure or in lame duck mode (where it sends
on `ldmCh` and waits for `quitCh` once each); `runPipeListener` never sends on
`s.done`: the goroutine that runs it reports its end by one `grWG.Done()`. -/
theorem accept_loops_done (r : AcceptRun) (obs : List PipeObs) :
    (∀ e, (AcceptLoop r).2 = .returned e →
      (AcceptLoop r).1.count .doneSend = (if e = .notRunning then 1 else 0) ∧
      (e = .notRunning → (AcceptLoop r).1.getLast? = some .doneSend) ∧
      (AcceptLoop r).1.count .ldmChSend = (if e = .lameDuck then 1 else 0) ∧
      (AcceptLoop r).1.count .quitChRecv = (if e = .lameDuck then 1 else 0)) ∧
    (runPipeListener obs).1.count .doneSend = 0 ∧
    (∀ e, (pipeWorker obs).2 = .returned e →
      (pipeWorker obs).1.count .doneSend = 0 ∧ (pipeWorker obs).1.count .grWGDone = 1 ∧
      (pipeWorker obs).1.getLast? = some .grWGDone) := by
  refine ⟨?_, ?_, ?_⟩
  · obtain ⟨clr, le, tls, ie, pl, loop⟩ := r
    intro e he
    have hc := acceptLoopFor_counts loop
    have hl := acceptLoopFor_last loop
    simp only [AcceptLoop] at he ⊢
    cases le <;> cases ie <;> cases clr <;> simp only [Bool.false_eq_true, if_false, if_true,
      Bool.not_false, Bool.not_true] at he ⊢
    · cases he
    · rcases hc.2.2.2.2 with h | h | h
      · rw [h] at he hc
        simp only at he ⊢
        cases he
        obtain ⟨pre, hp⟩ := hl h
        rw [h]
        simp only [deferredClose, Bool.false_eq_true, if_false, List.append_nil]
        refine ⟨?_, ?_, ?_, ?_⟩
        · simp only [List.count_append, hc.2.1]
          cases tls <;> cases pl <;> simp [List.count_cons]
        · intro _
          rw [hp, ← List.append_assoc]
          exact List.getLast?_concat _
        · simp only [List.count_append, hc.2.2.1]
          cases tls <;> cases pl <;> simp [List.count_cons]
        · simp only [List.count_append, hc.2.2.2.1]
          cases tls <;> cases pl <;> simp [List.count_cons]
      · rw [h] at he hc
        simp only at he ⊢
        cases he
        rw [h]
        simp only [deferredClose, Bool.false_eq_true, if_false, List.append_nil]
        refine ⟨?_, ?_, ?_, ?_⟩
        · simp only [List.count_append, hc.2.1]
          cases tls <;> cases pl <;> simp [List.count_cons]
        · intro hh; cases hh
        · simp only [List.count_append, hc.2.2.1]
          cases tls <;> cases pl <;> simp [List.count_cons]
        · simp only [List.count_append, hc.2.2.2.1]
          cases tls <;> cases pl <;> simp [List.count_cons]
      · rw [h] at he
        cases he
    · cases he
      cases tls <;> simp [deferredClose, List.count_cons]
    · cases he
      cases tls <;> simp [deferredClose, List.count_cons]
    · cases he
      simp [deferredClose, List.count_cons]
    · cases he
      simp [deferredClose, List.count_cons]
    · cases he
      simp [deferredClose, List.count_cons]
    · cases he
      simp [deferredClose, List.count_cons]
  · have hc := pipeLoopFor_counts obs
    simp only [runPipeListener]
    split <;> simp [List.count_append, List.count_cons, hc.1]
  · intro e he
    have hc := pipeLoopFor_counts obs
    simp only [pipeWorker, runPipeListener] at he ⊢
    cases hp : (pipeLoopFor obs).2 with
    | returned e' =>
      rw [hp] at he
      simp only at he ⊢
      refine ⟨?_, ?_, ?_⟩
      · simp [List.count_append, List.count_cons, hc.1]
      · simp [List.count_append, List.count_cons, hc.2.1]
      · exact List.getLast?_concat _
    | running => rw [hp] at he; cases he
    | panicked => rw [hp] at he; cases he

/-- Claim C13 (amended) at a run of `AcceptLoop` that ends with the server no longer
running and a pipe worker that ends on an accept error. -/
theorem accept_loops_done_witness :
    (AcceptLoop exAcceptRun).2 = .returned .notRunning ∧
    (pipeWorker exPipeObs).2 = .returned .acceptFailed ∧
    ((AcceptLoop exAcceptRun).1.count .doneSend = (if Exit.notRunning = .notRunning then 1 else 0) ∧
      (Exit.notRunning = .notRunning → (AcceptLoop exAcceptRun).1.getLast? = some .doneSend) ∧
      (AcceptLoop exAcceptRun).1.count .ldmChSend =
        (if Exit.notRunning = .lameDuck then 1 else 0) ∧
      (AcceptLoop exAcceptRun).1.count .quitChRecv =
        (if Exit.notRunning = .lameDuck then 1 else 0)) ∧
    ((pipeWorker exPipeObs).1.count .doneSend = 0 ∧
      (pipeWorker exPipeObs).1.count .grWGDone = 1 ∧
      (pipeWorker exPipeObs).1.getLast? = some .grWGDone) :=
  ⟨rfl, rfl, (accept_loops_done exAcceptRun exPipeObs).1 .notRunning rfl,
    (accept_loops_done exAcceptRun exPipeObs).2.2 .acceptFailed rfl⟩

theorem pipeLoopFor_accepted (cs : List Nat) (rest : List PipeObs) :
    pipeLoopFor (cs.map .accepted ++ rest) =
      (cs.flatMap (fun c => [.accept, .startClient c]) ++ (pipeLoopFor rest).1,
        (pipeLoopFor rest).2) := by
  induction cs with
  | nil => rfl
  | cons c cs ih => simp [pipeLoopFor, ih]

/-- Claim C19: a run of `runPipeListener` that accepts the connections `cs` and then
sees `Accept` fail does nothing more than log the error, if the shutdown flag of the
pipe is not set, close the pipe and log its end, whatever would come next; one
worker is started for each accepted connection, right after its `Accept`; the pipe is
closed too when the run ends because the server is no longer running, and a run that
has not ended has not closed it. -/
theorem pipe_listener_accept_error (cs : List Nat) (rest : List PipeObs) :
    (∀ isClosed, runPipeListener (cs.map .accepted ++ .failed isClosed :: rest) =
      ([.noticef "In-Memory client server connection pipe: %s started"] ++
        cs.flatMap (fun c => [.accept, .startClient c]) ++ [.accept] ++
        (if isClosed then []
          else [.errorf "In-Memory client server connection pipe error: %s"]) ++
        [.pipeClose, .noticef "In-Memory client server connection pipe: %s ended"],
        .returned .acceptFailed)) ∧
    runPipeListener (cs.map .accepted ++ .notRunning :: rest) =
      ([.noticef "In-Memory client server connection pipe: %s started"] ++
        cs.flatMap (fun c => [.accept, .startClient c]) ++
        [.pipeClose, .noticef "In-Memory client server connection pipe: %s ended"],
        .returned .notRunning) ∧
    runPipeListener (cs.map .accepted) =
      ([.noticef "In-Memory client server connection pipe: %s started"] ++
        cs.flatMap (fun c => [.accept, .startClient c]), .running) := by
  refine ⟨?_, ?_, ?_⟩
  · intro isClosed
    simp only [runPipeListener, pipeLoopFor_accepted, pipeLoopFor]
    cases isClosed <;> simp
  · simp only [runPipeListener, pipeLoopFor_accepted, pipeLoopFor]
    simp
  · have := pipeLoopFor_accepted cs []
    simp only [List.append_nil] at this
    simp only [runPipeListener, this, pipeLoopFor]
    simp

theorem acceptLoopFor_ne_panicked (obs : List AcceptObs) :
    (acceptLoopFor obs).2 ≠ .panicked := by
  rcases (acceptLoopFor_counts obs).2.2.2.2 with h | h | h <;> rw [h] <;> simp

/-- Claim C20: a run of `AcceptLoop` with a non-nil `clr` closes it once, however far
the run has come past the set up and however it ends, and does not panic: as the last
thing done when it returns after a listen failure or an INFO failure, and otherwise
right after the server lock is released, before the pipe listener is started and
before any `Accept`. -/
theorem accept_loop_closes_clr (r : AcceptRun) (h : r.clr = true) :
    (AcceptLoop r).1.count .closeClr = 1 ∧ (AcceptLoop r).2 ≠ .panicked ∧
    (r.listenErr = true ∨ r.infoErr = true →
      (AcceptLoop r).1.getLast? = some .closeClr) ∧
    (r.listenErr = false ∧ r.infoErr = false →
      ∃ pre post, (AcceptLoop r).1 = pre ++ [.muUnlock, .closeClr] ++ post ∧
        .setListener ∈ pre ∧ .accept ∉ pre ∧ .startPipeListener ∉ pre) := by
  obtain ⟨clr, le, tls, ie, pl, loop⟩ := r
  simp only at h
  subst h
  have hc := acceptLoopFor_counts loop
  have hp := acceptLoopFor_ne_panicked loop
  simp only [AcceptLoop]
  cases le <;> cases ie <;> simp only [Bool.false_eq_true, if_false, if_true,
      Bool.not_false, Bool.not_true]
  · cases hl : (acceptLoopFor loop).2 with
    | panicked => exact (hp hl).elim
    | returned e =>
      simp only
      refine ⟨?_, by simp, by simp, fun _ =>
        ⟨[.noticef "Listening for client connections on %s"] ++
          (if tls then [.noticef "TLS required for client connections"] else []) ++
          [.noticef "Server id is %s", .noticef "Server is ready", .muLock, .setListener],
          (if pl then [.startPipeListener]
            else [.noticef
              "No in-memory pipe initiated, client server connection is local TCP"]) ++
          (acceptLoopFor loop).1 ++ deferredClose false, ?_, ?_⟩⟩
      · simp only [List.count_append, hc.1]
        cases tls <;> cases pl <;> simp [List.count_cons, deferredClose]
      · simp [List.append_assoc]
      · cases tls <;> simp
    | running =>
      simp only
      refine ⟨?_, by simp, by simp, fun _ =>
        ⟨[.noticef "Listening for client connections on %s"] ++
          (if tls then [.noticef "TLS required for client connections"] else []) ++
          [.noticef "Server id is %s", .noticef "Server is ready", .muLock, .setListener],
          (if pl then [.startPipeListener]
            else [.noticef
              "No in-memory pipe initiated, client server connection is local TCP"]) ++
          (acceptLoopFor loop).1, ?_, ?_⟩⟩
      · simp only [List.count_append, hc.1]
        cases tls <;> cases pl <;> simp [List.count_cons, deferredClose]
      · simp [List.append_assoc]
      · cases tls <;> simp
  · cases tls <;> simp [deferredClose, List.count_cons]
  · simp [deferredClose, List.count_cons]
  · simp [deferredClose, List.count_cons]

/-- Claim C20 at a run of `AcceptLoop` that gets past the set up. -/
theorem accept_loop_closes_clr_witness :
    exAcceptRun.clr = true ∧ (AcceptLoop exAcceptRun).2 = .returned .notRunning ∧
    (AcceptLoop exAcceptRun).1.count .closeClr = 1 ∧ (AcceptLoop exAcceptRun).2 ≠ .panicked ∧
    (exAcceptRun.listenErr = true ∨ exAcceptRun.infoErr = true →
      (AcceptLoop exAcceptRun).1.getLast? = some .closeClr) ∧
    (exAcceptRun.listenErr = false ∧ exAcceptRun.infoErr = false →
      ∃ pre post, (AcceptLoop exAcceptRun).1 = pre ++ [.muUnlock, .closeClr] ++ post ∧
        .setListener ∈ pre ∧ .accept ∉ pre ∧ .startPipeListener ∉ pre) :=
  ⟨rfl, rfl, accept_loop_closes_clr exAcceptRun rfl⟩

end Gnatsd

namespace Micro

theorem foldl_opts_lookup (k : String) (opts : List RespondOpt)
    (h : ∀ o ∈ opts, ∀ m : Msg, (o m).Header.lookup k = m.Header.lookup k) (m : Msg) :
    (opts.foldl (fun m opt => opt m) m).Header.lookup k = m.Header.lookup k := by
  induction opts generalizing m with
  | nil => rfl
  | cons o rest ih =>
    simp only [List.foldl_cons]
    rw [ih (fun o' ho' => h o' (List.mem_cons_of_mem _ ho')) (o m),
      h o (List.mem_cons_self _ _) m]

/-- Claim C16 (as stated, refuted): both arguments are non-empty and one response is
published, but the option was applied after the error header was set: the response
carries the error header of the option, not the description. -/
theorem request_error_header_counterexample :
    ∃ resp, exErrorCall.2.1 = [resp] ∧ resp.Data = [1, 2] ∧
      resp.Header.lookup "Nats-Service-Error-Code" = some ["500"] ∧
      resp.Header.lookup "Nats-Service-Error" = some ["fine"] ∧
      resp.Header.lookup "Nats-Service-Error" ≠ some ["boom"] :=
  ⟨_, rfl, rfl, by decide, by decide, by decide⟩



/-- Claim C16 (amended): `Error` validates its arguments first: with an empty code, and
otherwise with an empty description, it returns an error wrapping `ErrArgRequired`,
hands no response to `RespondMsg` and leaves the request as it was. With both
non-empty it hands one response to `RespondMsg`, whose `Data` is `data` and whose
headers are the two error headers as the options left them: the options are applied
after the headers are set, so the error header is the description and the error-code
header is the code when no option changes these two keys, in particular without
options. The error returned is the one of `RespondMsg`, recorded in `respondError`
when there is one. -/
theorem request_error_validates (ErrorHeader ErrorCodeHeader : String)
    (hne : ErrorHeader ≠ ErrorCodeHeader) (RespondMsg : Msg → Msg → Option Error)
    (r : Request) (code description : String) (data : List Nat) (opts : List RespondOpt) :
    (code = "" →
      Request.Error ErrorHeader ErrorCodeHeader RespondMsg r code description data opts =
        (r, [], some (.wrap "%w: error code" ErrArgRequired))) ∧
    (code ≠ "" → description = "" →
      Request.Error ErrorHeader ErrorCodeHeader RespondMsg r code description data opts =
        (r, [], some (.wrap "%w: description" ErrArgRequired))) ∧
    (Error.wrap "%w: error code" ErrArgRequired).Is ErrArgRequired = true ∧
    (Error.wrap "%w: description" ErrArgRequired).Is ErrArgRequired = true ∧
    (code ≠ "" → description ≠ "" →
      ∃ resp,
        (Request.Error ErrorHeader ErrorCodeHeader RespondMsg r code description data opts).2.1
          = [resp] ∧
        resp.Data = data ∧
        (Request.Error ErrorHeader ErrorCodeHeader RespondMsg r code description data opts).2.2
          = RespondMsg r.msg resp ∧
        (Request.Error ErrorHeader ErrorCodeHeader RespondMsg r code description data opts).1
          = (match RespondMsg r.msg resp with
            | some err => { r with respondError := some err }
            | none => r) ∧
        ((∀ o ∈ opts, ∀ m : Msg, (o m).Header.lookup ErrorHeader = m.Header.lookup ErrorHeader) →
          resp.Header.lookup ErrorHeader = some [description]) ∧
        ((∀ o ∈ opts, ∀ m : Msg,
            (o m).Header.lookup ErrorCodeHeader = m.Header.lookup ErrorCodeHeader) →
          resp.Header.lookup ErrorCodeHeader = some [code])) := by
  refine ⟨?_, ?_, by decide, by decide, ?_⟩
  · intro hc
    simp [Request.Error, hc]
  · intro hc hd
    simp [Request.Error, hc, hd]
  · intro hc hd
    simp only [Request.Error, hc, hd, if_false]
    refine ⟨{ opts.foldl (fun m opt => opt m)
        { Subject := ""
          Reply := ""
          Header := some fun k =>
            if k = ErrorHeader then some [description]
            else if k = ErrorCodeHeader then some [code]
            else none
          Data := [] } with Data := data }, ?_, rfl, ?_, ?_, ?_, ?_⟩
    · cases RespondMsg r.msg _ <;> rfl
    · cases RespondMsg r.msg _ <;> rfl
    · cases RespondMsg r.msg _ <;> rfl
    · intro ho
      show (List.foldl (fun (m : Msg) (opt : RespondOpt) => opt m) _ opts).Header.lookup ErrorHeader = _
      rw [foldl_opts_lookup ErrorHeader opts ho]
      simp [Header.lookup]
    · intro ho
      show (List.foldl (fun (m : Msg) (opt : RespondOpt) => opt m) _ opts).Header.lookup ErrorCodeHeader = _
      rw [foldl_opts_lookup ErrorCodeHeader opts ho]
      simp [Header.lookup, Ne.symm hne]

/-- Claim C16 (amended) at a call without options whose `RespondMsg` fails. -/
theorem request_error_validates_witness :
    "Nats-Service-Error" ≠ "Nats-Service-Error-Code" ∧
    exErrorCallPlain.2.2 = some (.new "nats: connection closed") ∧
    ("500" = "" →
      Request.Error "Nats-Service-Error" "Nats-Service-Error-Code"
        (fun _ _ => some (.new "nats: connection closed")) exRequest "500" "boom" [1, 2] [] =
        (exRequest, [], some (.wrap "%w: error code" ErrArgRequired))) ∧
    ("500" ≠ "" → "boom" = "" →
      Request.Error "Nats-Service-Error" "Nats-Service-Error-Code"
        (fun _ _ => some (.new "nats: connection closed")) exRequest "500" "boom" [1, 2] [] =
        (exRequest, [], some (.wrap "%w: description" ErrArgRequired))) ∧
    (Error.wrap "%w: error code" ErrArgRequired).Is ErrArgRequired = true ∧
    (Error.wrap "%w: description" ErrArgRequired).Is ErrArgRequired = true ∧
    ("500" ≠ "" → "boom" ≠ "" →
      ∃ resp,
        (Request.Error "Nats-Service-Error" "Nats-Service-Error-Code"
          (fun _ _ => some (.new "nats: connection closed")) exRequest "500" "boom" [1, 2]
          []).2.1 = [resp] ∧
        resp.Data = [1, 2] ∧
        (Request.Error "Nats-Service-Error" "Nats-Service-Error-Code"
          (fun _ _ => some (.new "nats: connection closed")) exRequest "500" "boom" [1, 2]
          []).2.2 = (fun _ _ => some (.new "nats: connection closed")) exRequest.msg resp ∧
        (Request.Error "Nats-Service-Error" "Nats-Service-Error-Code"
          (fun _ _ => some (.new "nats: connection closed")) exRequest "500" "boom" [1, 2]
          []).1 = (match (fun _ _ => some (.new "nats: connection closed") :
              Msg → Msg → Option Error) exRequest.msg resp with
            | some err => { exRequest with respondError := some err }
            | none => exRequest) ∧
        ((∀ o ∈ ([] : List RespondOpt), ∀ m : Msg,
            (o m).Header.lookup "Nats-Service-Error" = m.Header.lookup "Nats-Service-Error") →
          resp.Header.lookup "Nats-Service-Error" = some ["boom"]) ∧
        ((∀ o ∈ ([] : List RespondOpt), ∀ m : Msg,
            (o m).Header.lookup "Nats-Service-Error-Code" =
              m.Header.lookup "Nats-Service-Error-Code") →
          resp.Header.lookup "Nats-Service-Error-Code" = some ["500"])) :=
  ⟨by decide, rfl,
    request_error_validates "Nats-Service-Error" "Nats-Service-Error-Code" (by decide)
      (fun _ _ => some (.new "nats: connection closed")) exRequest "500" "boom" [1, 2] []⟩

end Micro

namespace Pipe

/-- Claim C21: whatever options the listener was made with and whatever the calls
and their interleaving, `conns` holds at most one record and at most one `Dial`
waits for its acknowledgment; a record that has been sent and not acknowledged
belongs to the `Dial` that waits, which holds the lock, so there is at most one such
record; a `Dial` holds the lock from its send until it has been acknowledged; and a
queued record has been sent and is not acknowledged. -/
theorem one_pending_handoff (opts : Option Options) (calls : List Call) (sched : List Act)
    (w0 w : State) (h0 : start opts calls = some w0) (he : exec sched w0 = some w) :
    w.ln.conns.buf.length ≤ 1 ∧
    (∀ d d', w.thr d = .dial .waitAccepted → w.thr d' = .dial .waitAccepted → d = d') ∧
    (∀ d, w.thr d = .dial .send ∨ w.thr d = .dial .waitAccepted → w.ln.lock = true) ∧
    (∀ c ∈ w.sent, c.accepted ∉ w.accepted →
      c = mkAcceptConn c.accepted ∧ w.thr c.accepted = .dial .waitAccepted) ∧
    (∀ c ∈ w.sent, ∀ c' ∈ w.sent, c.accepted ∉ w.accepted → c'.accepted ∉ w.accepted →
      c = c') ∧
    (∀ c ∈ w.ln.conns.buf, c ∈ w.sent ∧ c.accepted ∉ w.accepted) := by
  have h : Inv w := Reachable.inv ⟨opts, calls, w0, sched, h0, he⟩
  have hu : ∀ d d', w.thr d = .dial .waitAccepted → w.thr d' = .dial .waitAccepted →
      d = d' := fun d d' hd hd' =>
    h.holder_unique d d' (by rw [hd]; rfl) (by rw [hd']; rfl)
  have hp : ∀ c ∈ w.sent, c.accepted ∉ w.accepted →
      c = mkAcceptConn c.accepted ∧ w.thr c.accepted = .dial .waitAccepted := by
    intro c hc hna
    have hmk := acceptConn_eq_mk (h.sent_rec c hc)
    refine ⟨hmk, ?_⟩
    rw [hmk] at hc
    rcases h.sent_cases hc with hb | ⟨a, ha⟩
    · exact (h.buf_rec _ hb).2.1
    · rcases ha with ha | ha | ha
      · exact (h.claim_pending a _ ha).2.1
      · exact absurd (h.taken_acked a c.accepted (by rw [ha]; rfl)) hna
      · exact absurd (h.taken_acked a c.accepted (by rw [ha]; rfl)) hna
  refine ⟨h.buf_len, hu, ?_, hp, ?_, ?_⟩
  · intro d hd
    rcases hd with hd | hd
    · exact h.lockHeld d (by rw [hd]; rfl)
    · exact h.lockHeld d (by rw [hd]; rfl)
  · intro c hc c' hc' hna hna'
    obtain ⟨e1, t1⟩ := hp c hc hna
    obtain ⟨e2, t2⟩ := hp c' hc' hna'
    rw [e1, e2, hu _ _ t1 t2]
  · intro c hc
    refine ⟨?_, (h.buf_rec c hc).2.2⟩
    rw [h.hist]
    exact List.mem_append_right _ hc

/-- Claim C21 at a listener of capacity 2 on which one `Dial` has sent its record and
waits, a second `Dial` and an `Accept` not having moved yet. -/
theorem one_pending_handoff_witness :
    ∃ w0 w, start (some { MaxAcceptConn := 2, MaxPipeBuffer := 1024 })
        [.Dial, .Dial, .Accept] = some w0 ∧
      exec [.run 0, .run 0, .run 0] w0 = some w ∧
      w.ln.conns.cap = 2 ∧ w.thr 0 = .dial .waitAccepted ∧ w.sent = [mkAcceptConn 0] ∧
      w.ln.conns.buf.length ≤ 1 ∧
      (∀ d d', w.thr d = .dial .waitAccepted → w.thr d' = .dial .waitAccepted → d = d') ∧
      (∀ d, w.thr d = .dial .send ∨ w.thr d = .dial .waitAccepted → w.ln.lock = true) ∧
      (∀ c ∈ w.sent, c.accepted ∉ w.accepted →
        c = mkAcceptConn c.accepted ∧ w.thr c.accepted = .dial .waitAccepted) ∧
      (∀ c ∈ w.sent, ∀ c' ∈ w.sent, c.accepted ∉ w.accepted → c'.accepted ∉ w.accepted →
        c = c') ∧
      (∀ c ∈ w.ln.conns.buf, c ∈ w.sent ∧ c.accepted ∉ w.accepted) :=
  ⟨_, _, rfl, rfl, rfl, rfl, rfl,
    one_pending_handoff (some { MaxAcceptConn := 2, MaxPipeBuffer := 1024 })
      [.Dial, .Dial, .Accept] [.run 0, .run 0, .run 0] _ _ rfl rfl⟩

end Pipe

namespace Micro

/-- Claim C22: `WithHeaders(h)` makes `h` the header of a message that has none;
otherwise the header stays non-nil and has, for every key, the value of `h` when `h`
has the key and the value it had before when not; `Subject`, `Reply` and `Data` are
unchanged; and applying the option to its own result changes nothing. -/
theorem withHeaders_overrides (h : Header) (m : Msg) :
    (m.Header = none → (WithHeaders h m).Header = h) ∧
    (∀ mh, m.Header = some mh →
      ∃ f, (WithHeaders h m).Header = some f ∧
        ∀ k, (∀ v, h.lookup k = some v → f k = some v) ∧ (h.lookup k = none → f k = mh k)) ∧
    (WithHeaders h m).Subject = m.Subject ∧ (WithHeaders h m).Reply = m.Reply ∧
    (WithHeaders h m).Data = m.Data ∧
    WithHeaders h (WithHeaders h m) = WithHeaders h m := by
  obtain ⟨subj, reply, hdr, data⟩ := m
  cases hdr with
  | none =>
    refine ⟨fun _ => rfl, fun mh hm => (by cases hm), rfl, rfl, rfl, ?_⟩
    cases h with
    | none => rfl
    | some hf =>
      simp only [WithHeaders]
      congr 2
      funext k
      cases hf k <;> rfl
  | some mf =>
    cases h with
    | none =>
      refine ⟨fun hm => (by cases hm), fun mh hm => ?_, rfl, rfl, rfl, rfl⟩
      cases hm
      exact ⟨mf, rfl, fun k => ⟨fun v hv => (by cases hv), fun _ => rfl⟩⟩
    | some hf =>
      refine ⟨fun hm => (by cases hm), fun mh hm => ?_, rfl, rfl, rfl, ?_⟩
      · cases hm
        refine ⟨_, rfl, fun k => ⟨fun v hv => ?_, fun hn => ?_⟩⟩
        · have hv' : hf k = some v := hv
          simp only [hv']
        · have hn' : hf k = none := hn
          simp only [hn']
      · simp only [WithHeaders]
        congr 2
        funext k
        cases hf k <;> rfl

/-- Claim C22 at a message with a `Content-Type` header and headers that override it
and add `X-Trace`. -/
theorem withHeaders_overrides_witness :
    (WithHeaders exHeaders exMsg).Header.lookup "Content-Type" = some ["application/json"] ∧
    (WithHeaders exHeaders exMsg).Header.lookup "X-Trace" = some ["1"] ∧
    (WithHeaders exHeaders exMsg).Header.lookup "Accept" = none ∧
    (exMsg.Header = none → (WithHeaders exHeaders exMsg).Header = exHeaders) ∧
    (∀ mh, exMsg.Header = some mh →
      ∃ f, (WithHeaders exHeaders exMsg).Header = some f ∧
        ∀ k, (∀ v, exHeaders.lookup k = some v → f k = some v) ∧
          (exHeaders.lookup k = none → f k = mh k)) ∧
    (WithHeaders exHeaders exMsg).Subject = exMsg.Subject ∧
    (WithHeaders exHeaders exMsg).Reply = exMsg.Reply ∧
    (WithHeaders exHeaders exMsg).Data = exMsg.Data ∧
    WithHeaders exHeaders (WithHeaders exHeaders exMsg) = WithHeaders exHeaders exMsg :=
  ⟨by decide, by decide, by decide, withHeaders_overrides exHeaders exMsg⟩

end Micro

namespace Gnatsd

/-! ## The first call and the later calls of `Shutdown` -/

theorem copyOff_keys (src m : ClientMap) (i : Nat)
    (h : i ∈ m.map Prod.fst ∨ i ∈ src.map Prod.fst) : i ∈ (copyOff m src).map Prod.fst := by
  induction src generalizing m with
  | nil =>
    rcases h with h | h
    · simpa [copyOff] using h
    · simp at h
  | cons x rest ih =>
    refine ih (ClientMap.set m x.1 x.2) ?_
    rw [ClientMap.set_keys]
    rcases h with h | h
    · left
      split
      · exact h
      · exact List.mem_append_left _ h
    · rcases List.mem_cons.1 h with h | h
      · left
        subst h
        split
        · assumption
        · exact List.mem_append_right _ (List.mem_singleton_self _)
      · exact Or.inr h

theorem mem_closeConns (m : ClientMap) (c : Nat) :
    ((∃ i, (i, c) ∈ m) → .setNoReconnect c ∈ closeConns m ∧
      .closeConnection c .ServerShutdown ∈ closeConns m) ∧
    (∀ r, .closeConnection c r ∈ closeConns m → ∃ i, (i, c) ∈ m) := by
  induction m with
  | nil => simp [closeConns]
  | cons x rest ih =>
    obtain ⟨j, d⟩ := x
    constructor
    · rintro ⟨i, hi⟩
      rcases List.mem_cons.1 hi with h | h
      · cases h
        simp [closeConns]
      · have := ih.1 ⟨i, h⟩
        simp [closeConns, this]
    · intro r hr
      simp only [closeConns, List.mem_cons] at hr
      rcases hr with hr | hr | hr
      · cases hr
      · cases hr
        exact ⟨j, List.mem_cons_self _ _⟩
      · obtain ⟨i, hi⟩ := ih.2 r hr
        exact ⟨i, List.mem_cons_of_mem _ hi⟩

/-- The server after the first call and what the call did. -/
theorem Shutdown_first_eq {E : Type} (ev : E → E) (s : Server E)
    (hs : s.shutdown = false) (hq : s.quitCh = false) (hc : s.shutdownComplete = false) :
    Shutdown ev s = some
      ({ s with
          sys := ev s.sys
          shutdown := true
          running := false
          grRunning := false
          listener := false
          pipeListener := false
          leafNodeListener := false
          routeListener := false
          gatewayListener := false
          http := false
          quitCh := true
          shutdownComplete := true },
      [.shutdownEventing, .muLock, .notice "Initiating Shutdown...",
        .grMuLock, .grMuUnlock, .grMuLock, .grMuUnlock] ++
      kickListeners s ++
      [.muUnlock, .closeQuitCh] ++ closeConns (snapshot s) ++
      List.replicate (doneExpected s) .recvDone ++ [.grWGWait] ++
      (if s.PortsFileDir ≠ "" then [.deletePortsFile s.PortsFileDir] else []) ++
      [.notice "Server Exiting..", .loggingRLock, .loggingRUnlock] ++
      (if s.logger = some true then [.loggerClose] else []) ++
      [.closeShutdownComplete]) := by
  simp only [Shutdown, hs, hq, hc]
  rfl

/-- The listeners the first call closes and the completion signals it waits for. -/
theorem Shutdown_first_listeners {E : Type} (ev : E → E) (s : Server E)
    (hs : s.shutdown = false) (hq : s.quitCh = false) (hc : s.shutdownComplete = false)
    (s1 : Server E) (t1 : List Event) (h : Shutdown ev s = some (s1, t1)) :
    t1.count .listenerClose = (if s.listener then 1 else 0) ∧
    t1.count .pipeSetShutdown = (if s.pipeListener then 1 else 0) ∧
    t1.count .pipeClose = (if s.pipeListener then 1 else 0) ∧
    t1.count .leafNodeListenerClose = (if s.leafNodeListener then 1 else 0) ∧
    t1.count .routeListenerClose = (if s.routeListener then 1 else 0) ∧
    t1.count .gatewayListenerClose = (if s.gatewayListener then 1 else 0) ∧
    t1.count .httpClose = (if s.http then 1 else 0) ∧
    t1.count .profilerClose = (if s.profiler then 1 else 0) ∧
    t1.count .recvDone = [s.listener, s.leafNodeListener, s.routeListener,
      s.gatewayListener, s.http, s.profiler].count true := by
  rw [Shutdown_first_eq ev s hs hq hc] at h
  cases h
  obtain ⟨k1, k2, k3, k4, k5, k6, k7, k8, k9⟩ := count_kickListeners_eq s
  have hd : doneExpected s = [s.listener, s.leafNodeListener, s.routeListener,
      s.gatewayListener, s.http, s.profiler].count true := by
    simp only [doneExpected]
    cases s.listener <;> cases s.leafNodeListener <;> cases s.routeListener <;>
      cases s.gatewayListener <;> cases s.http <;> cases s.profiler <;> rfl
  refine ⟨?_, ?_, ?_, ?_, ?_, ?_, ?_, ?_, ?_⟩
  case refine_9 =>
    rw [← hd]
    simp only [List.count_append, k9, count_closeConns_of_ne _ .recvDone (by simp) (by simp)]
    simp [List.count_cons, List.count_replicate]
    split_ifs <;> simp
  all_goals
    simp [List.count_append, List.count_cons, List.count_replicate, k1, k2, k3, k4, k5,
      k6, k7, k8, count_closeConns_of_ne]
    constructor <;> split <;> simp

/-- The connections the first call force-closes: for every identifier in a registry a
connection registered under it, and only connections of the registries. -/
theorem Shutdown_first_conns {E : Type} (ev : E → E) (s : Server E)
    (hs : s.shutdown = false) (hq : s.quitCh = false) (hc : s.shutdownComplete = false)
    (s1 : Server E) (t1 : List Event) (h : Shutdown ev s = some (s1, t1)) :
    (∀ e ∈ registries s, ∃ c, (e.1, c) ∈ registries s ∧ .setNoReconnect c ∈ t1 ∧
      .closeConnection c .ServerShutdown ∈ t1) ∧
    (∀ c r, .closeConnection c r ∈ t1 → ∃ i, (i, c) ∈ registries s) := by
  rw [Shutdown_first_eq ev s hs hq hc] at h
  cases h
  have hsub := copyOff_sub (registries s) (registries s) [] (by simp) (fun e he => he)
  rw [← snapshot_eq] at hsub
  refine ⟨?_, ?_⟩
  · intro e he
    have hk := copyOff_keys (registries s) [] e.1 (Or.inr (List.mem_map.2 ⟨e, he, rfl⟩))
    rw [← snapshot_eq] at hk
    obtain ⟨f, hf, hfe⟩ := List.mem_map.1 hk
    have hm := (mem_closeConns (snapshot s) f.2).1 ⟨f.1, hf⟩
    refine ⟨f.2, ?_, ?_, ?_⟩
    · rw [← hfe]; exact hsub f hf
    · simp only [List.mem_append]
      exact Or.inl (Or.inl (Or.inl (Or.inl (Or.inl (Or.inl (Or.inr hm.1))))))
    · simp only [List.mem_append]
      exact Or.inl (Or.inl (Or.inl (Or.inl (Or.inl (Or.inl (Or.inr hm.2))))))
  · intro c r hr
    simp only [List.mem_append] at hr
    rcases hr with ((((((((hr | hr) | hr) | hr) | hr) | hr) | hr) | hr) | hr) | hr
    · simp at hr
    · have := phase_of_mem_kickListeners s _ hr
      simp [phase] at this
    · simp at hr
    · obtain ⟨i, hi⟩ := (mem_closeConns (snapshot s) c).2 r hr
      exact ⟨i, hsub _ hi⟩
    · simp at hr
    · simp at hr
    · split at hr <;> simp at hr
    · simp at hr
    · split at hr <;> simp at hr
    · simp at hr

theorem laterCalls_events (n : Nat) :
    (laterCalls n).count .shutdownEventing = n ∧
    ∀ e ∈ laterCalls n, e = .shutdownEventing ∨ e = .muLock ∨ e = .muUnlock := by
  induction n with
  | zero => exact ⟨rfl, fun e he => by simp [laterCalls] at he⟩
  | succ n ih =>
    refine ⟨by simp [laterCalls, List.count_cons, ih.1], fun e he => ?_⟩
    simp only [laterCalls, List.mem_append, List.mem_cons, List.mem_singleton,
      List.not_mem_nil, or_false] at he
    rcases he with (he | he | he) | he
    · exact Or.inl he
    · exact Or.inr (Or.inl he)
    · exact Or.inr (Or.inr he)
    · exact ih.2 e he

/-- The first call closes `quitCh` once and `shutdownComplete` once. -/
theorem Shutdown_first_channels {E : Type} (ev : E → E) (s : Server E)
    (hs : s.shutdown = false) (hq : s.quitCh = false) (hc : s.shutdownComplete = false)
    (s1 : Server E) (t1 : List Event) (h : Shutdown ev s = some (s1, t1)) :
    t1.count .closeQuitCh = 1 ∧ t1.count .closeShutdownComplete = 1 := by
  rw [Shutdown_first_eq ev s hs hq hc] at h
  cases h
  constructor
  · simp [List.count_cons, count_kickListeners_closeQuitCh, count_closeConns_closeQuitCh,
      List.count_replicate, apply_ite (List.count Event.closeQuitCh)]
  · simp [List.count_cons, count_kickListeners_closeShutdownComplete,
      count_closeConns_closeShutdownComplete, List.count_replicate,
      apply_ite (List.count Event.closeShutdownComplete)]

/-- The fields of the server the first call sets. -/
theorem Shutdown_first_state {E : Type} (ev : E → E) (s : Server E)
    (hs : s.shutdown = false) (hq : s.quitCh = false) (hc : s.shutdownComplete = false)
    (s1 : Server E) (t1 : List Event) (h : Shutdown ev s = some (s1, t1)) :
    s1.sys = ev s.sys ∧ s1.shutdown = true ∧ s1.running = false ∧
    s1.grRunning = false ∧ s1.quitCh = true ∧ s1.shutdownComplete = true ∧
    s1.listener = false ∧ s1.pipeListener = false ∧ s1.leafNodeListener = false ∧
    s1.routeListener = false ∧ s1.gatewayListener = false ∧ s1.http = false := by
  rw [Shutdown_first_eq ev s hs hq hc] at h
  cases h
  exact ⟨rfl, rfl, rfl, rfl, rfl, rfl, rfl, rfl, rfl, rfl, rfl, rfl⟩

/-- Claim C10 (as stated, refuted): a second `Shutdown` on a server that has been shut
down does not return at once without changing server state: it first runs
`shutdownEventing`, and with a `shutdownEventing` that counts its calls the server
after the second call differs from the server after the first. -/
theorem shutdown_later_call_counterexample :
    ∃ s1 t1 s2 t2, Shutdown (fun x => x + 1) exServer = some (s1, t1) ∧
      s1.shutdown = true ∧
      Shutdown (fun x => x + 1) s1 = some (s2, t2) ∧
      t2 = [.shutdownEventing, .muLock, .muUnlock] ∧
      s1.sys = 8 ∧ s2.sys = 9 ∧ s2.sys ≠ s1.sys :=
  ⟨_, _, _, _, rfl, rfl, rfl, rfl, rfl, rfl, by decide⟩

/-- Claim C10 (amended): on a server whose flag is not set and whose `quitCh` and
`shutdownComplete` are open, the first of `N + 1` calls made one after the other
performs the teardown: it sets the flag, clears the listeners, closes each active
listener once, force-closes a connection for every identifier in a registry and
closes `quitCh` and `shutdownComplete`. Every call on a server with the flag set
runs `shutdownEventing`, takes and releases the server lock and returns: it closes no
listener, no connection and no channel and changes nothing of the server but what
`shutdownEventing` changes. So after all the calls the server is the server after the
first call with `shutdownEventing` applied `N` more times, and in everything the
calls did `quitCh` and `shutdownComplete` are each closed exactly once. -/
theorem shutdown_idempotent {E : Type} (ev : E → E) (s : Server E) (N : Nat)
    (hs : s.shutdown = false) (hq : s.quitCh = false) (hc : s.shutdownComplete = false) :
    ∃ s1 t1, Shutdown ev s = some (s1, t1) ∧
      (s1.sys = ev s.sys ∧ s1.shutdown = true ∧ s1.running = false ∧
        s1.grRunning = false ∧ s1.quitCh = true ∧ s1.shutdownComplete = true ∧
        s1.listener = false ∧ s1.pipeListener = false ∧ s1.leafNodeListener = false ∧
        s1.routeListener = false ∧ s1.gatewayListener = false ∧ s1.http = false) ∧
      (t1.count .listenerClose = (if s.listener then 1 else 0) ∧
        t1.count .pipeSetShutdown = (if s.pipeListener then 1 else 0) ∧
        t1.count .pipeClose = (if s.pipeListener then 1 else 0) ∧
        t1.count .leafNodeListenerClose = (if s.leafNodeListener then 1 else 0) ∧
        t1.count .routeListenerClose = (if s.routeListener then 1 else 0) ∧
        t1.count .gatewayListenerClose = (if s.gatewayListener then 1 else 0) ∧
        t1.count .httpClose = (if s.http then 1 else 0) ∧
        t1.count .profilerClose = (if s.profiler then 1 else 0)) ∧
      (∀ e ∈ registries s, ∃ c, (e.1, c) ∈ registries s ∧ .setNoReconnect c ∈ t1 ∧
        .closeConnection c .ServerShutdown ∈ t1) ∧
      t1.count .closeQuitCh = 1 ∧ t1.count .closeShutdownComplete = 1 ∧
      (∀ s' : Server E, s'.shutdown = true →
        Shutdown ev s' = some ({ s' with sys := ev s'.sys },
          [.shutdownEventing, .muLock, .muUnlock])) ∧
      shutdownSeq ev (N + 1) s = some ({ s1 with sys := ev^[N] s1.sys }, t1 ++ laterCalls N) ∧
      (laterCalls N).count .shutdownEventing = N ∧
      (∀ e ∈ laterCalls N, e = .shutdownEventing ∨ e = .muLock ∨ e = .muUnlock) ∧
      (t1 ++ laterCalls N).count .closeQuitCh = 1 ∧
      (t1 ++ laterCalls N).count .closeShutdownComplete = 1 := by
  obtain ⟨s1, t1, h⟩ : ∃ s1 t1, Shutdown ev s = some (s1, t1) :=
    ⟨_, _, Shutdown_first_eq ev s hs hq hc⟩
  have hst := Shutdown_first_state ev s hs hq hc s1 t1 h
  obtain ⟨l1, l2, l3, l4, l5, l6, l7, l8, _⟩ := Shutdown_first_listeners ev s hs hq hc s1 t1 h
  have hcn := Shutdown_first_conns ev s hs hq hc s1 t1 h
  obtain ⟨e4, e5⟩ := Shutdown_first_channels ev s hs hq hc s1 t1 h
  refine ⟨s1, t1, h, hst, ⟨l1, l2, l3, l4, l5, l6, l7, l8⟩, hcn.1, e4, e5,
    Shutdown_of_shutdown ev, ?_, (laterCalls_events N).1, (laterCalls_events N).2, ?_, ?_⟩
  · simp only [shutdownSeq, h, shutdownSeq_of_shutdown ev N s1 hst.2.1]
  · rw [List.count_append, e4, count_laterCalls_closeQuitCh]
  · rw [List.count_append, e5, count_laterCalls_closeShutdownComplete]

/-- Claim C10 (amended) at three calls on a server with two listeners and four
connections, with a `shutdownEventing` that counts its calls. -/
theorem shutdown_idempotent_witness :
    exServer.shutdown = false ∧ exServer.quitCh = false ∧ exServer.shutdownComplete = false ∧
    ∃ s1 t1, Shutdown (fun x => x + 1) exServer = some (s1, t1) ∧
      (s1.sys = (fun x => x + 1) exServer.sys ∧ s1.shutdown = true ∧ s1.running = false ∧
        s1.grRunning = false ∧ s1.quitCh = true ∧ s1.shutdownComplete = true ∧
        s1.listener = false ∧ s1.pipeListener = false ∧ s1.leafNodeListener = false ∧
        s1.routeListener = false ∧ s1.gatewayListener = false ∧ s1.http = false) ∧
      (t1.count .listenerClose = (if exServer.listener then 1 else 0) ∧
        t1.count .pipeSetShutdown = (if exServer.pipeListener then 1 else 0) ∧
        t1.count .pipeClose = (if exServer.pipeListener then 1 else 0) ∧
        t1.count .leafNodeListenerClose = (if exServer.leafNodeListener then 1 else 0) ∧
        t1.count .routeListenerClose = (if exServer.routeListener then 1 else 0) ∧
        t1.count .gatewayListenerClose = (if exServer.gatewayListener then 1 else 0) ∧
        t1.count .httpClose = (if exServer.http then 1 else 0) ∧
        t1.count .profilerClose = (if exServer.profiler then 1 else 0)) ∧
      (∀ e ∈ registries exServer, ∃ c, (e.1, c) ∈ registries exServer ∧
        .setNoReconnect c ∈ t1 ∧ .closeConnection c .ServerShutdown ∈ t1) ∧
      t1.count .closeQuitCh = 1 ∧ t1.count .closeShutdownComplete = 1 ∧
      (∀ s' : Server Nat, s'.shutdown = true →
        Shutdown (fun x => x + 1) s' = some ({ s' with sys := (fun x => x + 1) s'.sys },
          [.shutdownEventing, .muLock, .muUnlock])) ∧
      shutdownSeq (fun x => x + 1) (2 + 1) exServer
        = some ({ s1 with sys := (fun x => x + 1)^[2] s1.sys }, t1 ++ laterCalls 2) ∧
      (laterCalls 2).count .shutdownEventing = 2 ∧
      (∀ e ∈ laterCalls 2, e = .shutdownEventing ∨ e = .muLock ∨ e = .muUnlock) ∧
      (t1 ++ laterCalls 2).count .closeQuitCh = 1 ∧
      (t1 ++ laterCalls 2).count .closeShutdownComplete = 1 :=
  ⟨rfl, rfl, rfl, shutdown_idempotent (fun x => x + 1) exServer 2 rfl rfl rfl⟩

/-- Claim C18: the events of the first `Shutdown` occur in the order of their steps
(an event of an earlier step is at an earlier position): the server lock is taken
once, the listener closes and the snapshot locks happen before its single release,
then `quitCh` is closed once, then the snapshot connections are force-closed, then
`doneExpected` completion signals are awaited, then the worker wait group, and the
closing of `shutdownComplete` is the last event. Each active listener is closed once
(the pipe after being marked as shut down), one completion signal is awaited per
active listener other than the pipe, for every identifier in a registry a connection
registered under it is marked non-reconnectable and force-closed, and only
connections of the registries are force-closed. -/
theorem shutdown_order {E : Type} (ev : E → E) (s : Server E)
    (hs : s.shutdown = false) (hq : s.quitCh = false) (hc : s.shutdownComplete = false) :
    ∃ s1 t1, Shutdown ev s = some (s1, t1) ∧
      (∀ (i j : Nat) (a b : Event), t1[i]? = some a → t1[j]? = some b →
        phase a < phase b → i < j) ∧
      t1.count .muLock = 1 ∧ t1.count .muUnlock = 1 ∧ t1.count .closeQuitCh = 1 ∧
      t1.count .grWGWait = 1 ∧ t1.count .closeShutdownComplete = 1 ∧
      t1.filter (fun e => phase e = 2) =
        [.notice "Initiating Shutdown...", .grMuLock, .grMuUnlock, .grMuLock, .grMuUnlock] ++
          kickListeners s ∧
      t1.filter (fun e => phase e = 5) = closeConns (snapshot s) ∧
      t1.filter (fun e => phase e = 6) = List.replicate (doneExpected s) .recvDone ∧
      (t1.count .listenerClose = (if s.listener then 1 else 0) ∧
        t1.count .pipeSetShutdown = (if s.pipeListener then 1 else 0) ∧
        t1.count .pipeClose = (if s.pipeListener then 1 else 0) ∧
        t1.count .leafNodeListenerClose = (if s.leafNodeListener then 1 else 0) ∧
        t1.count .routeListenerClose = (if s.routeListener then 1 else 0) ∧
        t1.count .gatewayListenerClose = (if s.gatewayListener then 1 else 0) ∧
        t1.count .httpClose = (if s.http then 1 else 0) ∧
        t1.count .profilerClose = (if s.profiler then 1 else 0) ∧
        t1.count .recvDone = [s.listener, s.leafNodeListener, s.routeListener,
          s.gatewayListener, s.http, s.profiler].count true) ∧
      (∀ e ∈ registries s, ∃ c, (e.1, c) ∈ registries s ∧ .setNoReconnect c ∈ t1 ∧
        .closeConnection c .ServerShutdown ∈ t1) ∧
      (∀ c r, .closeConnection c r ∈ t1 → ∃ i, (i, c) ∈ registries s) ∧
      t1.getLast? = some .closeShutdownComplete := by
  obtain ⟨s1, h⟩ := Shutdown_first ev s hs hq hc
  have hl := Shutdown_first_listeners ev s hs hq hc _ _ h
  have hcn := Shutdown_first_conns ev s hs hq hc _ _ h
  have hK := phase_of_mem_kickListeners s
  have hC := phase_of_mem_closeConns (snapshot s)
  have hP := (phase_tail s.PortsFileDir s.logger).1
  have hL := (phase_tail s.PortsFileDir s.logger).2
  have hR : ∀ e ∈ List.replicate (doneExpected s) Event.recvDone,
      phase e = 6 := fun e he => by rw [(List.mem_replicate.1 he).2]; rfl
  have e1 : phase (.notice "Initiating Shutdown...") = 2 := by decide
  have e2 : phase (.notice "Server Exiting..") = 8 := by decide
  refine ⟨s1, _, h, ?_, ?_, ?_, ?_, ?_, ?_, ?_, ?_, ?_, hl, hcn.1, hcn.2, ?_⟩
  · refine index_lt_of_pairwise_phase _ ?_
    simp only [List.map_append, map_phase_of_forall _ 2 hK, map_phase_of_forall _ 5 hC,
      map_phase_of_forall _ 8 hP, map_phase_of_forall _ 8 hL, List.map_replicate,
      List.map_cons, List.map_nil, e1, e2, phase]
    exact pairwise_phases _ _ _ _ _
  · simp only [List.count_append, count_kickListeners_of_phase _ .muLock (by decide),
      count_closeConns_of_ne _ .muLock (by simp) (by simp)]
    simp [List.count_cons, List.count_replicate]
    split_ifs <;> simp
  · simp only [List.count_append, count_kickListeners_of_phase _ .muUnlock (by decide),
      count_closeConns_of_ne _ .muUnlock (by simp) (by simp)]
    simp [List.count_cons, List.count_replicate]
    split_ifs <;> simp
  · simp only [List.count_append, count_kickListeners_of_phase _ .closeQuitCh (by decide),
      count_closeConns_of_ne _ .closeQuitCh (by simp) (by simp)]
    simp [List.count_cons, List.count_replicate]
    split_ifs <;> simp
  · simp only [List.count_append, count_kickListeners_of_phase _ .grWGWait (by decide),
      count_closeConns_of_ne _ .grWGWait (by simp) (by simp)]
    simp [List.count_cons, List.count_replicate]
    split_ifs <;> simp
  · simp only [List.count_append,
      count_kickListeners_of_phase _ .closeShutdownComplete (by decide),
      count_closeConns_of_ne _ .closeShutdownComplete (by simp) (by simp)]
    simp [List.count_cons, List.count_replicate]
    split_ifs <;> simp
  · simp only [List.filter_append, filter_phase_of_forall _ 2 2 hK,
      filter_phase_of_forall _ 5 2 hC, filter_phase_of_forall _ 8 2 hP,
      filter_phase_of_forall _ 8 2 hL, filter_phase_of_forall _ 6 2 hR]
    simp [List.filter_cons, phase]
  · simp only [List.filter_append, filter_phase_of_forall _ 2 5 hK,
      filter_phase_of_forall _ 5 5 hC, filter_phase_of_forall _ 8 5 hP,
      filter_phase_of_forall _ 8 5 hL, filter_phase_of_forall _ 6 5 hR]
    simp [List.filter_cons, phase]
  · simp only [List.filter_append, filter_phase_of_forall _ 2 6 hK,
      filter_phase_of_forall _ 5 6 hC, filter_phase_of_forall _ 8 6 hP,
      filter_phase_of_forall _ 8 6 hL, filter_phase_of_forall _ 6 6 hR]
    simp [List.filter_cons, phase]
  · exact List.getLast?_concat _

/-- Claim C18 at a server with a TCP listener, a pipe and four connections. -/
theorem shutdown_order_witness :
    (∃ s1 t1, Shutdown (fun x => x) exServer = some (s1, t1) ∧
      t1.count .listenerClose = 1 ∧ t1.count .pipeClose = 1 ∧ t1.count .recvDone = 1 ∧
      .closeConnection 101 .ServerShutdown ∈ t1 ∧
      .closeConnection 104 .ServerShutdown ∈ t1) ∧
    ∃ s1 t1, Shutdown (fun x => x) exServer = some (s1, t1) ∧
      (∀ (i j : Nat) (a b : Event), t1[i]? = some a → t1[j]? = some b →
        phase a < phase b → i < j) ∧
      t1.count .muLock = 1 ∧ t1.count .muUnlock = 1 ∧ t1.count .closeQuitCh = 1 ∧
      t1.count .grWGWait = 1 ∧ t1.count .closeShutdownComplete = 1 ∧
      t1.filter (fun e => phase e = 2) =
        [.notice "Initiating Shutdown...", .grMuLock, .grMuUnlock, .grMuLock, .grMuUnlock] ++
          kickListeners exServer ∧
      t1.filter (fun e => phase e = 5) = closeConns (snapshot exServer) ∧
      t1.filter (fun e => phase e = 6) = List.replicate (doneExpected exServer) .recvDone ∧
      (t1.count .listenerClose = (if exServer.listener then 1 else 0) ∧
        t1.count .pipeSetShutdown = (if exServer.pipeListener then 1 else 0) ∧
        t1.count .pipeClose = (if exServer.pipeListener then 1 else 0) ∧
        t1.count .leafNodeListenerClose = (if exServer.leafNodeListener then 1 else 0) ∧
        t1.count .routeListenerClose = (if exServer.routeListener then 1 else 0) ∧
        t1.count .gatewayListenerClose = (if exServer.gatewayListener then 1 else 0) ∧
        t1.count .httpClose = (if exServer.http then 1 else 0) ∧
        t1.count .profilerClose = (if exServer.profiler then 1 else 0) ∧
        t1.count .recvDone = [exServer.listener, exServer.leafNodeListener,
          exServer.routeListener, exServer.gatewayListener, exServer.http,
          exServer.profiler].count true) ∧
      (∀ e ∈ registries exServer, ∃ c, (e.1, c) ∈ registries exServer ∧
        .setNoReconnect c ∈ t1 ∧ .closeConnection c .ServerShutdown ∈ t1) ∧
      (∀ c r, .closeConnection c r ∈ t1 → ∃ i, (i, c) ∈ registries exServer) ∧
      t1.getLast? = some .closeShutdownComplete :=
  ⟨⟨_, _, rfl, by decide, by decide, by decide, by decide, by decide⟩,
    shutdown_order (fun x => x) exServer rfl rfl rfl⟩

end Gnatsd
